import Mathlib

/-!
Shallow embedding of `crates/typst-syntax/src/lexer.rs`: a multi-mode lexer
(Markup / Math / Code / Raw) over a borrowed input string.

Modelling conventions:
* The scanner's byte positions are modelled as character indices into the
  input, which is a `List Char`; `str::len` becomes a character count and
  `char::len_utf8` becomes `1`.
* Rust's `Scanner::jump` clamps the target to the string; we model it with
  `Nat.min` against the input length.
* Unicode table lookups from external crates (`unicode_ident`,
  `unicode_script`, `unicode_segmentation`) are modelled by executable
  predicates that are exact on ASCII (where every claim-relevant character
  lives); `char::is_whitespace` is modelled exactly (the full White_Space
  list), since claim-relevant behaviour depends on non-ASCII whitespace.
* Loops whose progress depends on the cursor are written with an explicit
  fuel argument large enough to cover every reachable iteration count.
-/

/-- The token kinds produced by the lexer (`SyntaxKind` in the source,
restricted to the kinds the lexer emits). -/
inductive SyntaxKind where
  | End | Error
  | Space | Parbreak | LineComment | BlockComment
  | Text | Escape | Linebreak | Shorthand | SmartQuote
  | Link | Label | RefMarker
  | HeadingMarker | ListMarker | EnumMarker | TermMarker
  | Hash | LeftBracket | RightBracket | Star | Underscore | Dollar | Colon
  | RawDelim | RawLang | RawTrimmed
  | MathIdent | MathAlignPoint | Prime | Hat | Slash | Root
  | Ident | Int | Float | Numeric | Str
  | Bool | NoneKw | Auto
  | Eq | EqEq | ExclEq | Lt | LtEq | Gt | GtEq
  | Plus | PlusEq | Minus | HyphEq | StarEq | SlashEq
  | Dot | Dots | Arrow | Comma | Semicolon
  | LeftBrace | RightBrace | LeftParen | RightParen
  | Not | And | Or | Let | Set | Show | Context | If | Else
  | For | In | While | Break | Continue | Return | Import | Include | As
  deriving DecidableEq, Repr

/-- What kind of tokens to emit (`LexMode`). -/
inductive LexMode where
  | Markup | Math | Code | Raw
  deriving DecidableEq, Repr

/-- Models `is_newline`: the seven code points Typst treats as newlines. -/
def is_newline (c : Char) : Bool :=
  c == '\n' || c == '\x0B' || c == '\x0C' || c == '\r' ||
  c == '\u0085' || c == '\u2028' || c == '\u2029'

/-- Models Rust `char::is_whitespace` (the Unicode White_Space property),
listed exactly. -/
def rustWhitespace (c : Char) : Bool :=
  [0x09, 0x0A, 0x0B, 0x0C, 0x0D, 0x20, 0x85, 0xA0, 0x1680,
   0x2000, 0x2001, 0x2002, 0x2003, 0x2004, 0x2005, 0x2006, 0x2007,
   0x2008, 0x2009, 0x200A, 0x2028, 0x2029, 0x202F, 0x205F, 0x3000].contains c.toNat

/-- Models `is_space`: whether a character becomes part of a `Space` token in
the given mode. -/
def is_space (c : Char) (mode : LexMode) : Bool :=
  match mode with
  | LexMode.Markup => c == ' ' || c == '\t' || is_newline c
  | _ => rustWhitespace c

/-- Models Rust `char::is_ascii_digit`. -/
def isAsciiDigit (c : Char) : Bool := '0' ≤ c && c ≤ '9'

/-- Models Rust `char::is_ascii_alphanumeric`. -/
def isAsciiAlphanumeric (c : Char) : Bool :=
  isAsciiDigit c || ('a' ≤ c && c ≤ 'z') || ('A' ≤ c && c ≤ 'Z')

/-- Models `unicode_ident::is_xid_start` (Unicode XID_Start). Exact on ASCII,
where XID_Start is precisely the letters; non-ASCII letters are approximated
by the ASCII test (no claim depends on a non-ASCII identifier character). -/
def is_xid_start (c : Char) : Bool := c.isAlpha

/-- Models `unicode_ident::is_xid_continue` (Unicode XID_Continue). Exact on
ASCII (letters and digits). -/
def is_xid_continue (c : Char) : Bool := c.isAlphanum

/-- Models `is_id_start`: XID_Start plus `_`. -/
def is_id_start (c : Char) : Bool := is_xid_start c || c == '_'

/-- Models `is_id_continue`: XID_Continue plus `_` and `-`. -/
def is_id_continue (c : Char) : Bool := is_xid_continue c || c == '_' || c == '-'

/-- Models `is_math_id_start`: XID_Start. -/
def is_math_id_start (c : Char) : Bool := is_xid_start c

/-- Models `is_math_id_continue`: XID_Continue without `_`. -/
def is_math_id_continue (c : Char) : Bool := is_xid_continue c && c != '_'

/-- Models Rust `char::is_alphanumeric` (Alphabetic or Number). Exact on
ASCII. -/
def rustAlphanumeric (c : Char) : Bool := c.isAlphanum

/-- Models Rust `char::is_numeric` (the Number categories). Exact on ASCII. -/
def rustIsNumeric (c : Char) : Bool := c.isDigit

/-- Models the `unicode_script` test used by `in_word`: whether the script of
the character is Han, Hiragana, Katakana or Hangul (principal blocks). -/
def isCJKScript (c : Char) : Bool :=
  (0x3040 ≤ c.toNat && c.toNat ≤ 0x30FF) ||
  (0x3400 ≤ c.toNat && c.toNat ≤ 0x4DBF) ||
  (0x4E00 ≤ c.toNat && c.toNat ≤ 0x9FFF) ||
  (0x1100 ≤ c.toNat && c.toNat ≤ 0x11FF) ||
  (0xAC00 ≤ c.toNat && c.toNat ≤ 0xD7AF)

/-- Length in characters of the first extended grapheme cluster of the input,
`0` on empty input. Models `unicode_segmentation`'s `graphemes(true).next()`:
each character is modelled as its own cluster. -/
def firstGraphemeLen (cs : List Char) : Nat := if cs.isEmpty then 0 else 1

/-- The character at index `i` (`Scanner::peek` from position `i`). -/
def charAt (text : List Char) (i : Nat) : Option Char := (text.drop i).head?

/-- Whether the characters at index `i` start with `s` (`Scanner::at` with a
string pattern, or a successful `Scanner::eat_if`). -/
def strAt (text : List Char) (i : Nat) (s : List Char) : Bool :=
  s.isPrefixOf (text.drop i)

/-- Number of characters consumed by `Scanner::eat_while p` from index `i`. -/
def eatWhileLen (p : Char → Bool) (text : List Char) (i : Nat) : Nat :=
  ((text.drop i).takeWhile p).length

/-- Number of characters consumed by `Scanner::eat_until p` from index `i`. -/
def eatUntilLen (p : Char → Bool) (text : List Char) (i : Nat) : Nat :=
  ((text.drop i).takeWhile (fun c => ! p c)).length

/-- The slice `text[a..b]` (`Scanner::get(a..b)` and friends). -/
def sliceFT (text : List Char) (a b : Nat) : List Char := (text.take b).drop a

/-- The character `k` positions behind index `i` (`Scanner::scout(-k)`). -/
def scoutBack (text : List Char) (i k : Nat) : Option Char :=
  if k ≤ i then charAt text (i - k) else none

/-- The lexer state (`Lexer`): scanner (input + cursor), mode, newline flag,
pending raw stack, error slot. The head of `raw` is the top of the stack. -/
structure Lexer where
  input : List Char
  cursor : Nat
  mode : LexMode
  newline : Bool
  raw : List (SyntaxKind × Nat)
  error : Option String
  deriving DecidableEq, Repr

/-- Models `Lexer::new`. -/
def Lexer.new (text : String) (mode : LexMode) : Lexer :=
  { input := text.data, cursor := 0, mode := mode,
    newline := false, raw := [], error := none }

/-- Models `Lexer::set_mode`. -/
def set_mode (st : Lexer) (mode : LexMode) : Lexer := { st with mode := mode }

/-- Models `Lexer::take_error`. -/
def take_error (st : Lexer) : Option String × Lexer :=
  (st.error, { st with error := none })

/-- Models `Scanner::jump` (clamps to the input length). -/
def stJump (st : Lexer) (i : Nat) : Lexer :=
  { st with cursor := Nat.min i st.input.length }

/-- Models `Lexer::push_raw`: record the current cursor as the end of a raw
sub-token of kind `k`. -/
def push_raw (st : Lexer) (k : SyntaxKind) : Lexer :=
  { st with raw := (k, st.cursor) :: st.raw }

/-- Models `Lexer::error`: store the message and return the `Error` kind. -/
def errorToken (st : Lexer) (msg : String) : SyntaxKind × Lexer :=
  (SyntaxKind.Error, { st with error := some msg })

/-- Models `count_newlines`: CR, LF and CRLF each count as one. -/
def count_newlines : List Char → Nat
  | [] => 0
  | '\r' :: '\n' :: rest => 1 + count_newlines rest
  | c :: rest => (if is_newline c then 1 else 0) + count_newlines rest

/-- Prepend a character to the first line of a line list. -/
def consHead (c : Char) : List (List Char) → List (List Char)
  | [] => [[c]]
  | l :: ls => (c :: l) :: ls

/-- Models `split_newlines`: split at newlines (CRLF as one), delimiters not
kept. -/
def split_newlines : List Char → List (List Char)
  | [] => [[]]
  | '\r' :: '\n' :: rest => [] :: split_newlines rest
  | c :: rest =>
    if is_newline c then [] :: split_newlines rest
    else consHead c (split_newlines rest)

/-- Models `Lexer::whitespace`: eat the maximal run of mode spaces, count the
newlines inside it, and classify as `Space` or `Parbreak`. -/
def whitespace (st : Lexer) (start : Nat) (c : Char) : SyntaxKind × Lexer :=
  let n := eatWhileLen (fun ch => is_space ch st.mode) st.input st.cursor
  let st := { st with cursor := st.cursor + n }
  let newlines :=
    if c = ' ' ∧ n = 0 then 0
    else count_newlines (sliceFT st.input start st.cursor)
  let st := { st with newline := decide (0 < newlines) }
  (if st.mode = LexMode.Markup ∧ 2 ≤ newlines then SyntaxKind.Parbreak
   else SyntaxKind.Space, st)

/-- Models `Lexer::line_comment`: eat until the next newline. -/
def line_comment (st : Lexer) : SyntaxKind × Lexer :=
  (SyntaxKind.LineComment,
   { st with cursor := st.cursor + eatUntilLen is_newline st.input st.cursor })

/-- The scanning loop of `Lexer::block_comment`: returns the number of
characters consumed.  `state` is the previously seen character, `depth` the
nesting depth. -/
def blockCommentScan : Char → Nat → List Char → Nat
  | _, _, [] => 0
  | state, depth, c :: rest =>
    if state = '*' ∧ c = '/' then
      if depth - 1 = 0 then 1 else 1 + blockCommentScan '_' (depth - 1) rest
    else if state = '/' ∧ c = '*' then 1 + blockCommentScan '_' (depth + 1) rest
    else 1 + blockCommentScan c depth rest

/-- Models `Lexer::block_comment`. -/
def block_comment (st : Lexer) : SyntaxKind × Lexer :=
  (SyntaxKind.BlockComment,
   { st with cursor := st.cursor + blockCommentScan '_' 1 (st.input.drop st.cursor) })

/-- The numeric value of an ASCII digit or letter (`char::to_digit`). -/
def digitVal (c : Char) : Option Nat :=
  if '0' ≤ c ∧ c ≤ '9' then some (c.toNat - 48)
  else if 'a' ≤ c ∧ c ≤ 'z' then some (c.toNat - 97 + 10)
  else if 'A' ≤ c ∧ c ≤ 'Z' then some (c.toNat - 65 + 10)
  else none

/-- The value of a digit in the given base, `none` if out of range. -/
def digitValRadix (base : Nat) (c : Char) : Option Nat :=
  match digitVal c with
  | some d => if d < base then some d else none
  | none => none

/-- Parse an unsigned digit string in the given base (the digit part of Rust
`from_str_radix`); `none` on an empty string or an invalid digit. -/
def parseRadixNat (base : Nat) : List Char → Option Nat
  | [] => none
  | [c] => digitValRadix base c
  | c :: rest =>
    match digitValRadix base c, parseRadixNat base rest with
    | some d, some v => some (d * base ^ rest.length + v)
    | _, _ => none

/-- Models success of `u32::from_str_radix(hex, 16).ok().and_then(char::from_u32)`:
the hex digits parse (within `u32`) to a Unicode scalar value. -/
def hexCodepointValid (hex : List Char) : Bool :=
  match parseRadixNat 16 hex with
  | some v => decide (v < 0xD800 ∨ (0xE000 ≤ v ∧ v < 0x110000))
  | none => false

/-- Models `Lexer::backslash` (shared by Markup and Math): Unicode escapes,
linebreaks and single-character escapes. -/
def backslash (st : Lexer) : SyntaxKind × Lexer :=
  if strAt st.input st.cursor ['u', '{'] then
    let st := { st with cursor := st.cursor + 2 }
    let n := eatWhileLen isAsciiAlphanumeric st.input st.cursor
    let hex := sliceFT st.input st.cursor (st.cursor + n)
    let st := { st with cursor := st.cursor + n }
    if charAt st.input st.cursor = some '}' then
      let st := { st with cursor := st.cursor + 1 }
      if hexCodepointValid hex then (SyntaxKind.Escape, st)
      else errorToken st ("invalid Unicode codepoint: " ++ String.mk hex)
    else errorToken st "unclosed Unicode escape sequence"
  else if st.input.length ≤ st.cursor then (SyntaxKind.Linebreak, st)
  else if (charAt st.input st.cursor).any rustWhitespace then (SyntaxKind.Linebreak, st)
  else (SyntaxKind.Escape, { st with cursor := st.cursor + 1 })

/-- Models the `ScannerExt::eat_newline` extension: consume one newline,
absorbing the LF of a CRLF pair. -/
def scEatNewline (st : Lexer) : Lexer :=
  match charAt st.input st.cursor with
  | some c =>
    if is_newline c then
      let st1 := { st with cursor := st.cursor + 1 }
      if c = '\r' ∧ charAt st1.input st1.cursor = some '\n' then
        { st1 with cursor := st1.cursor + 1 }
      else st1
    else st
  | none => st

/-- The closing scan of `Lexer::raw`: consume characters counting consecutive
backticks until a run of `backticks` is complete. Returns the number of
characters consumed and whether the run was found. -/
def rawScanClose (backticks found : Nat) : List Char → Nat × Bool
  | [] => (0, found = backticks)
  | c :: rest =>
    if found = backticks then (0, true)
    else
      let f := if c = '`' then found + 1 else 0
      let r := rawScanClose backticks f rest
      (r.1 + 1, r.2)

/-- Rust `trim_end` over `char::is_whitespace`. -/
def trimEndWs (cs : List Char) : List Char :=
  (cs.reverse.dropWhile rustWhitespace).reverse

/-- Rust `strip_suffix(' ').unwrap_or(inner)`. -/
def stripSuffixSpace (cs : List Char) : List Char :=
  if cs.getLast? = some ' ' then cs.dropLast else cs

/-- `iter.min().unwrap_or(0)` over a list of numbers. -/
def minOr0 : List Nat → Nat
  | [] => 0
  | [x] => x
  | x :: rest => Nat.min x (minOr0 rest)

/-- The per-line emission loop of `Lexer::blocky_raw`: for each line, eat the
newline, advance past the dedent, push `RawTrimmed`, advance past the rest of
the line, push `Text`. -/
def emitLines (st : Lexer) (lines : List (List Char)) (i : Nat) (skipped : Bool)
    (dedent : Nat) : Lexer :=
  match lines with
  | [] => st
  | line :: rest =>
    let d := if i = 0 ∧ ¬ skipped then 0 else dedent
    let offset := Nat.min d line.length
    let st := scEatNewline st
    let st := { st with cursor := st.cursor + offset }
    let st := push_raw st SyntaxKind.RawTrimmed
    let st := { st with cursor := st.cursor + (line.length - offset) }
    let st := push_raw st SyntaxKind.Text
    emitLines st rest (i + 1) skipped dedent

/-- Models `Lexer::blocky_raw`: language tag, space trimming, dedent
computation, and emission of the trimmed lines. -/
def blocky_raw (st : Lexer) (start end_ backticks : Nat) : Lexer :=
  let st := stJump st (start + backticks)
  let st :=
    if (charAt st.input st.cursor).any is_id_start then
      let st := { st with cursor := st.cursor + 1 }
      let st := { st with cursor := st.cursor + eatWhileLen is_id_continue st.input st.cursor }
      push_raw st SyntaxKind.RawLang
    else st
  let st := if charAt st.input st.cursor = some ' ' then { st with cursor := st.cursor + 1 } else st
  let inner := sliceFT st.input st.cursor (end_ - backticks)
  let inner := if (trimEndWs inner).getLast? = some '`' then stripSuffixSpace inner else inner
  let lines := split_newlines inner
  let dedent := minOr0
    ((((lines.drop 1).filter (fun line => ! line.all rustWhitespace)) ++
      (match lines.getLast? with | some l => [l] | none => [])).map
      (fun line => (line.takeWhile rustWhitespace).length))
  let starts_whitespace := (lines.head?).any (fun l => l.all rustWhitespace)
  let ends_whitespace := (lines.getLast?).any (fun l => l.all rustWhitespace)
  let stLines :=
    if starts_whitespace then
      ({ st with cursor := st.cursor + ((lines.head?).getD []).length }, lines.drop 1, true)
    else (st, lines, false)
  let st := stLines.1
  let skipped := stLines.2.2
  let lines := if ends_whitespace then stLines.2.1.dropLast else stLines.2.1
  let st := emitLines st lines 0 skipped dedent
  let st :=
    if st.cursor < end_ - backticks then
      push_raw (stJump st (end_ - backticks)) SyntaxKind.RawTrimmed
    else st
  stJump st end_

/-- The scanning loop of `Lexer::inline_raw`. `fuel` bounds the number of
iterations; `inline_raw` supplies `end_` which suffices because the cursor
advances on every iteration. -/
def inlineGo (fuel : Nat) (st : Lexer) (stop : Nat) : Lexer :=
  match fuel with
  | 0 => st
  | fuel + 1 =>
    if st.cursor < stop then
      if (charAt st.input st.cursor).any is_newline then
        let st := push_raw st SyntaxKind.Text
        let st := scEatNewline st
        let st := push_raw st SyntaxKind.RawTrimmed
        inlineGo fuel st stop
      else inlineGo fuel { st with cursor := st.cursor + 1 } stop
    else st

/-- Models `Lexer::inline_raw`: split the single-backtick body at newlines. -/
def inline_raw (st : Lexer) (start end_ backticks : Nat) : Lexer :=
  let st := stJump st (start + backticks)
  let st := inlineGo (end_ + 1) st (end_ - backticks)
  let st := push_raw st SyntaxKind.Text
  stJump st end_

/-- Models `Lexer::raw`: clear the pending stack, count the opening backticks,
find the closing run, pre-tokenize the body, and return the opening
`RawDelim`. -/
def raw (st : Lexer) : SyntaxKind × Lexer :=
  let start := st.cursor - 1
  let st := { st with raw := [] }
  let extra := eatWhileLen (fun c => c == '`') st.input st.cursor
  let backticks := 1 + extra
  let st := { st with cursor := st.cursor + extra }
  if backticks = 2 then
    let st := push_raw st SyntaxKind.RawDelim
    (SyntaxKind.RawDelim, stJump st (start + 1))
  else
    let scan := rawScanClose backticks 0 (st.input.drop st.cursor)
    let st := { st with cursor := st.cursor + scan.1 }
    if ¬ scan.2 then errorToken st "unclosed raw text"
    else
      let end_ := st.cursor
      let st :=
        if 3 ≤ backticks then blocky_raw st start end_ backticks
        else inline_raw st start end_ backticks
      let st := push_raw st SyntaxKind.RawDelim
      let st := { st with raw := st.raw.reverse }
      (SyntaxKind.RawDelim, stJump st (start + backticks))

/-- The plain characters of the link character set in `link_prefix`. -/
def linkBasicChar (c : Char) : Bool :=
  isAsciiAlphanumeric c ||
  [ '!', '#', '$', '%', '&', '*', '+', ',', '-', '.', '/', ':', ';', '=',
    '?', '@', '_', '~', '\'' ].contains c

/-- The `eat_while` loop of `link_prefix` with its stateful bracket stack
(the stack is mutated even by the rejected closing bracket). Returns the
number of characters consumed and the final bracket stack. -/
def linkScan (brackets : List Char) : List Char → Nat × List Char
  | [] => (0, brackets)
  | c :: rest =>
    let step : Bool × List Char :=
      if linkBasicChar c then (true, brackets)
      else if c = '[' then (true, '[' :: brackets)
      else if c = '(' then (true, '(' :: brackets)
      else if c = ']' then (decide (brackets.head? = some '['), brackets.tail)
      else if c = ')' then (decide (brackets.head? = some '('), brackets.tail)
      else (false, brackets)
    if step.1 then
      let r := linkScan step.2 rest
      (r.1 + 1, r.2)
    else (0, step.2)

/-- The trailing-trim loop of `link_prefix`: step back over characters likely
to be text punctuation. -/
def linkTrim (cs : List Char) : Nat → Nat
  | 0 => 0
  | i + 1 =>
    if (charAt cs i).any (fun c => ['!', ',', '.', ':', ';', '?', '\''].contains c) then
      linkTrim cs i
    else i + 1

/-- Models `link_prefix`: the prefix of the text that is a link, and whether
its brackets were balanced. -/
def link_prefix (cs : List Char) : List Char × Bool :=
  let scan := linkScan [] cs
  let n := linkTrim cs scan.1
  (cs.take n, scan.2.isEmpty)

/-- Models `Lexer::link` (after the `http://` / `https://` prefix was eaten). -/
def link (st : Lexer) : SyntaxKind × Lexer :=
  let r := link_prefix (st.input.drop st.cursor)
  let st := { st with cursor := st.cursor + r.1.length }
  if ¬ r.2 then
    errorToken st
      "automatic links cannot contain unbalanced brackets, use the `link` function instead"
  else (SyntaxKind.Link, st)

/-- Models `Lexer::label`. -/
def label (st : Lexer) : SyntaxKind × Lexer :=
  let n := eatWhileLen (fun c => is_id_continue c || c == ':' || c == '.') st.input st.cursor
  let st := { st with cursor := st.cursor + n }
  if n = 0 then errorToken st "label cannot be empty"
  else if charAt st.input st.cursor = some '>' then
    (SyntaxKind.Label, { st with cursor := st.cursor + 1 })
  else errorToken st "unclosed label"

/-- The trailing-trim loop of `Lexer::ref_marker`: step back over `.` and `:`. -/
def refTrim (input : List Char) : Nat → Nat
  | 0 => 0
  | i + 1 =>
    if charAt input i = some '.' ∨ charAt input i = some ':' then refTrim input i
    else i + 1

/-- Models `Lexer::ref_marker`. -/
def ref_marker (st : Lexer) : SyntaxKind × Lexer :=
  let st := { st with cursor :=
    st.cursor + eatWhileLen (fun c => is_id_continue c || c == ':' || c == '.') st.input st.cursor }
  (SyntaxKind.RefMarker, { st with cursor := refTrim st.input st.cursor })

/-- Models success of `read.parse::<usize>()` (an optional `+` sign, digits,
value within 64 bits). -/
def parseUsizeOk (s : List Char) : Bool :=
  match s with
  | '+' :: rest => (parseRadixNat 10 rest).any (fun v => v ≤ 2 ^ 64 - 1)
  | _ => (parseRadixNat 10 s).any (fun v => v ≤ 2 ^ 64 - 1)

/-- Models `Lexer::space_or_end`: at end of input or at a character with the
Unicode White_Space property (`char::is_whitespace`). -/
def space_or_end (st : Lexer) : Bool :=
  decide (st.input.length ≤ st.cursor) || (charAt st.input st.cursor).any rustWhitespace

/-- The ASCII break table of `Lexer::text`, falling back to
`char::is_whitespace` beyond ASCII. -/
def textBreakChar (c : Char) : Bool :=
  if c.toNat < 128 then
    [' ', '\t', '\n', '\x0B', '\x0C', '\r', '\\', '/',
     '[', ']', '~', '-', '.', '\'', '"', '*', '_',
     ':', 'h', '`', '$', '<', '>', '@', '#'].contains c
  else rustWhitespace c

/-- The loop of `Lexer::text`: eat until a break character, then continue the
run past "false alarm" break characters. `fuel` bounds the number of
iterations; `text` supplies `input.length + 1` which suffices because every
continuing iteration consumes at least one character. -/
def textGo (fuel : Nat) (input : List Char) (i : Nat) : Nat :=
  match fuel with
  | 0 => i
  | fuel + 1 =>
    let j := i + eatWhileLen (fun c => ! textBreakChar c) input i
    match charAt input j with
    | none => j
    | some c =>
      let cont :=
        (c == ' ' && (charAt input (j + 1)).any rustAlphanumeric) ||
        (c == '/' && ! ((charAt input (j + 1)).any (fun d => d == '/' || d == '*'))) ||
        (c == '-' && ! ((charAt input (j + 1)).any (fun d => d == '-' || d == '?'))) ||
        (c == '.' && ! strAt input (j + 1) ['.', '.']) ||
        (c == 'h' && ! strAt input (j + 1) ['t', 't', 'p', ':', '/', '/'] &&
                     ! strAt input (j + 1) ['t', 't', 'p', 's', ':', '/', '/']) ||
        (c == '@' && ! ((charAt input (j + 1)).any is_id_start))
      if cont then textGo fuel input (j + 1) else j

/-- Models `Lexer::text`. -/
def text (st : Lexer) : SyntaxKind × Lexer :=
  (SyntaxKind.Text, { st with cursor := textGo (st.input.length + 1) st.input st.cursor })

/-- Models the `wordy` closure of `Lexer::in_word`. -/
def wordy (oc : Option Char) : Bool :=
  oc.any (fun c => rustAlphanumeric c && ! isCJKScript c)

/-- Models `Lexer::in_word`: the characters two behind and one ahead of the
cursor are both wordy. -/
def in_word (st : Lexer) : Bool :=
  wordy (scoutBack st.input st.cursor 2) && wordy (charAt st.input st.cursor)

/-- Models `Lexer::numbering`: digits, then `.` followed by a space make an
`EnumMarker` when the digits parse as `usize`. -/
def numbering (st : Lexer) (start : Nat) : SyntaxKind × Lexer :=
  let st := { st with cursor := st.cursor + eatWhileLen (fun c => isAsciiDigit c) st.input st.cursor }
  let read := sliceFT st.input start st.cursor
  if charAt st.input st.cursor = some '.' then
    let st := { st with cursor := st.cursor + 1 }
    if space_or_end st ∧ parseUsizeOk read then (SyntaxKind.EnumMarker, st)
    else text st
  else text st

/-- Models `Lexer::markup`: dispatch on the first (already consumed)
character, mirroring the source's match arms in order. -/
def markup (st : Lexer) (start : Nat) (c : Char) : SyntaxKind × Lexer :=
  if c = '\\' then backslash st
  else if c = '`' then raw st
  else if c = 'h' ∧ strAt st.input st.cursor ['t', 't', 'p', ':', '/', '/'] then
    link { st with cursor := st.cursor + 6 }
  else if c = 'h' ∧ strAt st.input st.cursor ['t', 't', 'p', 's', ':', '/', '/'] then
    link { st with cursor := st.cursor + 7 }
  else if c = '<' ∧ (charAt st.input st.cursor).any is_id_continue then label st
  else if c = '@' then ref_marker st
  else if c = '.' ∧ strAt st.input st.cursor ['.', '.'] then
    (SyntaxKind.Shorthand, { st with cursor := st.cursor + 2 })
  else if c = '-' ∧ strAt st.input st.cursor ['-', '-'] then
    (SyntaxKind.Shorthand, { st with cursor := st.cursor + 2 })
  else if c = '-' ∧ charAt st.input st.cursor = some '-' then
    (SyntaxKind.Shorthand, { st with cursor := st.cursor + 1 })
  else if c = '-' ∧ charAt st.input st.cursor = some '?' then
    (SyntaxKind.Shorthand, { st with cursor := st.cursor + 1 })
  else if c = '-' ∧ (charAt st.input st.cursor).any rustIsNumeric then
    (SyntaxKind.Shorthand, st)
  else if c = '*' ∧ ¬ in_word st then (SyntaxKind.Star, st)
  else if c = '_' ∧ ¬ in_word st then (SyntaxKind.Underscore, st)
  else if c = '#' then (SyntaxKind.Hash, st)
  else if c = '[' then (SyntaxKind.LeftBracket, st)
  else if c = ']' then (SyntaxKind.RightBracket, st)
  else if c = '\'' then (SyntaxKind.SmartQuote, st)
  else if c = '"' then (SyntaxKind.SmartQuote, st)
  else if c = '$' then (SyntaxKind.Dollar, st)
  else if c = '~' then (SyntaxKind.Shorthand, st)
  else if c = ':' then (SyntaxKind.Colon, st)
  else if c = '=' then
    let st := { st with cursor := st.cursor + eatWhileLen (fun ch => ch == '=') st.input st.cursor }
    if space_or_end st then (SyntaxKind.HeadingMarker, st) else text st
  else if c = '-' ∧ space_or_end st then (SyntaxKind.ListMarker, st)
  else if c = '+' ∧ space_or_end st then (SyntaxKind.EnumMarker, st)
  else if c = '/' ∧ space_or_end st then (SyntaxKind.TermMarker, st)
  else if '0' ≤ c ∧ c ≤ '9' then numbering st start
  else text st

/-- The `eat_until` closure of `Lexer::string` with its stateful `escaped`
flag: the number of characters consumed before the stopping quote (or the
whole input when no unescaped quote occurs). -/
def stringScan : Bool → List Char → Nat
  | _, [] => 0
  | escaped, c :: rest =>
    if (c == '"') && ! escaped then 0
    else 1 + stringScan ((c == '\\') && ! escaped) rest

/-- Models `Lexer::string` (Math and Code string literals). -/
def string (st : Lexer) : SyntaxKind × Lexer :=
  let n := stringScan false (st.input.drop st.cursor)
  let st := { st with cursor := st.cursor + n }
  if charAt st.input st.cursor = some '"' then
    (SyntaxKind.Str, { st with cursor := st.cursor + 1 })
  else errorToken st "unclosed string"

/-- Spec-side definition (from the claim's words, to be compared with
`stringScan`): the number of consecutive backslashes immediately preceding
the end of `l`. -/
def trailBS (l : List Char) : Nat := (l.reverse.takeWhile (fun c => c == '\\')).length

/-- Spec-side definition (from the claim's words): position `j` of `cs` holds
a `"` that is not immediately preceded by an odd number of backslashes. -/
def specStopAt (cs : List Char) (j : Nat) : Prop :=
  cs[j]? = some '"' ∧ trailBS (cs.take j) % 2 = 0

/-- Models `Lexer::math_text`: keep numbers (with a fractional part followed
by at least one digit) and grapheme clusters together. -/
def math_text (st : Lexer) (start : Nat) (c : Char) : SyntaxKind × Lexer :=
  if rustIsNumeric c then
    let st := { st with cursor := st.cursor + eatWhileLen rustIsNumeric st.input st.cursor }
    if charAt st.input st.cursor = some '.' ∧
        eatWhileLen rustIsNumeric st.input (st.cursor + 1) ≠ 0 then
      (SyntaxKind.Text,
       { st with cursor := st.cursor + 1 + eatWhileLen rustIsNumeric st.input (st.cursor + 1) })
    else (SyntaxKind.Text, st)
  else
    let len := firstGraphemeLen (sliceFT st.input start st.input.length)
    (SyntaxKind.Text, stJump st (start + len))

/-- Models `Lexer::math`: the shorthand table (in source order), single
characters, math identifiers, and math text. -/
def math (st : Lexer) (start : Nat) (c : Char) : SyntaxKind × Lexer :=
  if c = '\\' then backslash st
  else if c = '"' then string st
  else if c = '-' ∧ strAt st.input st.cursor ['>', '>'] then
    (SyntaxKind.Shorthand, { st with cursor := st.cursor + 2 })
  else if c = '-' ∧ charAt st.input st.cursor = some '>' then
    (SyntaxKind.Shorthand, { st with cursor := st.cursor + 1 })
  else if c = '-' ∧ strAt st.input st.cursor ['-', '>'] then
    (SyntaxKind.Shorthand, { st with cursor := st.cursor + 2 })
  else if c = ':' ∧ charAt st.input st.cursor = some '=' then
    (SyntaxKind.Shorthand, { st with cursor := st.cursor + 1 })
  else if c = ':' ∧ strAt st.input st.cursor [':', '='] then
    (SyntaxKind.Shorthand, { st with cursor := st.cursor + 2 })
  else if c = '!' ∧ charAt st.input st.cursor = some '=' then
    (SyntaxKind.Shorthand, { st with cursor := st.cursor + 1 })
  else if c = '.' ∧ strAt st.input st.cursor ['.', '.'] then
    (SyntaxKind.Shorthand, { st with cursor := st.cursor + 2 })
  else if c = '[' ∧ charAt st.input st.cursor = some '|' then
    (SyntaxKind.Shorthand, { st with cursor := st.cursor + 1 })
  else if c = '<' ∧ strAt st.input st.cursor ['=', '=', '>'] then
    (SyntaxKind.Shorthand, { st with cursor := st.cursor + 3 })
  else if c = '<' ∧ strAt st.input st.cursor ['-', '-', '>'] then
    (SyntaxKind.Shorthand, { st with cursor := st.cursor + 3 })
  else if c = '<' ∧ strAt st.input st.cursor ['-', '-'] then
    (SyntaxKind.Shorthand, { st with cursor := st.cursor + 2 })
  else if c = '<' ∧ strAt st.input st.cursor ['-', '<'] then
    (SyntaxKind.Shorthand, { st with cursor := st.cursor + 2 })
  else if c = '<' ∧ strAt st.input st.cursor ['-', '>'] then
    (SyntaxKind.Shorthand, { st with cursor := st.cursor + 2 })
  else if c = '<' ∧ strAt st.input st.cursor ['<', '-'] then
    (SyntaxKind.Shorthand, { st with cursor := st.cursor + 2 })
  else if c = '<' ∧ strAt st.input st.cursor ['<', '<'] then
    (SyntaxKind.Shorthand, { st with cursor := st.cursor + 2 })
  else if c = '<' ∧ strAt st.input st.cursor ['=', '>'] then
    (SyntaxKind.Shorthand, { st with cursor := st.cursor + 2 })
  else if c = '<' ∧ strAt st.input st.cursor ['=', '='] then
    (SyntaxKind.Shorthand, { st with cursor := st.cursor + 2 })
  else if c = '<' ∧ strAt st.input st.cursor ['~', '~'] then
    (SyntaxKind.Shorthand, { st with cursor := st.cursor + 2 })
  else if c = '<' ∧ charAt st.input st.cursor = some '=' then
    (SyntaxKind.Shorthand, { st with cursor := st.cursor + 1 })
  else if c = '<' ∧ charAt st.input st.cursor = some '<' then
    (SyntaxKind.Shorthand, { st with cursor := st.cursor + 1 })
  else if c = '<' ∧ charAt st.input st.cursor = some '-' then
    (SyntaxKind.Shorthand, { st with cursor := st.cursor + 1 })
  else if c = '<' ∧ charAt st.input st.cursor = some '~' then
    (SyntaxKind.Shorthand, { st with cursor := st.cursor + 1 })
  else if c = '>' ∧ strAt st.input st.cursor ['-', '>'] then
    (SyntaxKind.Shorthand, { st with cursor := st.cursor + 2 })
  else if c = '>' ∧ strAt st.input st.cursor ['>', '>'] then
    (SyntaxKind.Shorthand, { st with cursor := st.cursor + 2 })
  else if c = '=' ∧ strAt st.input st.cursor ['=', '>'] then
    (SyntaxKind.Shorthand, { st with cursor := st.cursor + 2 })
  else if c = '=' ∧ charAt st.input st.cursor = some '>' then
    (SyntaxKind.Shorthand, { st with cursor := st.cursor + 1 })
  else if c = '=' ∧ charAt st.input st.cursor = some ':' then
    (SyntaxKind.Shorthand, { st with cursor := st.cursor + 1 })
  else if c = '>' ∧ charAt st.input st.cursor = some '=' then
    (SyntaxKind.Shorthand, { st with cursor := st.cursor + 1 })
  else if c = '>' ∧ charAt st.input st.cursor = some '>' then
    (SyntaxKind.Shorthand, { st with cursor := st.cursor + 1 })
  else if c = '|' ∧ strAt st.input st.cursor ['-', '>'] then
    (SyntaxKind.Shorthand, { st with cursor := st.cursor + 2 })
  else if c = '|' ∧ strAt st.input st.cursor ['=', '>'] then
    (SyntaxKind.Shorthand, { st with cursor := st.cursor + 2 })
  else if c = '|' ∧ charAt st.input st.cursor = some ']' then
    (SyntaxKind.Shorthand, { st with cursor := st.cursor + 1 })
  else if c = '|' ∧ charAt st.input st.cursor = some '|' then
    (SyntaxKind.Shorthand, { st with cursor := st.cursor + 1 })
  else if c = '~' ∧ strAt st.input st.cursor ['~', '>'] then
    (SyntaxKind.Shorthand, { st with cursor := st.cursor + 2 })
  else if c = '~' ∧ charAt st.input st.cursor = some '>' then
    (SyntaxKind.Shorthand, { st with cursor := st.cursor + 1 })
  else if c = '*' ∨ c = '-' then (SyntaxKind.Shorthand, st)
  else if c = '#' then (SyntaxKind.Hash, st)
  else if c = '_' then (SyntaxKind.Underscore, st)
  else if c = '$' then (SyntaxKind.Dollar, st)
  else if c = '/' then (SyntaxKind.Slash, st)
  else if c = '^' then (SyntaxKind.Hat, st)
  else if c = '\'' then (SyntaxKind.Prime, st)
  else if c = '&' then (SyntaxKind.MathAlignPoint, st)
  else if c = '√' ∨ c = '∛' ∨ c = '∜' then (SyntaxKind.Root, st)
  else if is_math_id_start c ∧ (charAt st.input st.cursor).any is_math_id_continue then
    (SyntaxKind.MathIdent,
     { st with cursor := st.cursor + eatWhileLen is_math_id_continue st.input st.cursor })
  else math_text st start c

/-- Models `keyword`: the reserved-word table. -/
def keyword (s : List Char) : Option SyntaxKind :=
  if s = ['n', 'o', 'n', 'e'] then some SyntaxKind.NoneKw
  else if s = ['a', 'u', 't', 'o'] then some SyntaxKind.Auto
  else if s = ['t', 'r', 'u', 'e'] then some SyntaxKind.Bool
  else if s = ['f', 'a', 'l', 's', 'e'] then some SyntaxKind.Bool
  else if s = ['n', 'o', 't'] then some SyntaxKind.Not
  else if s = ['a', 'n', 'd'] then some SyntaxKind.And
  else if s = ['o', 'r'] then some SyntaxKind.Or
  else if s = ['l', 'e', 't'] then some SyntaxKind.Let
  else if s = ['s', 'e', 't'] then some SyntaxKind.Set
  else if s = ['s', 'h', 'o', 'w'] then some SyntaxKind.Show
  else if s = ['c', 'o', 'n', 't', 'e', 'x', 't'] then some SyntaxKind.Context
  else if s = ['i', 'f'] then some SyntaxKind.If
  else if s = ['e', 'l', 's', 'e'] then some SyntaxKind.Else
  else if s = ['f', 'o', 'r'] then some SyntaxKind.For
  else if s = ['i', 'n'] then some SyntaxKind.In
  else if s = ['w', 'h', 'i', 'l', 'e'] then some SyntaxKind.While
  else if s = ['b', 'r', 'e', 'a', 'k'] then some SyntaxKind.Break
  else if s = ['c', 'o', 'n', 't', 'i', 'n', 'u', 'e'] then some SyntaxKind.Continue
  else if s = ['r', 'e', 't', 'u', 'r', 'n'] then some SyntaxKind.Return
  else if s = ['i', 'm', 'p', 'o', 'r', 't'] then some SyntaxKind.Import
  else if s = ['i', 'n', 'c', 'l', 'u', 'd', 'e'] then some SyntaxKind.Include
  else if s = ['a', 's'] then some SyntaxKind.As
  else none

/-- Whether a list of characters ends with one of the given characters
(Rust `str::ends_with` on a character set). -/
def endsWithAny (s : List Char) (set : List Char) : Bool :=
  (s.getLast?).any (fun c => set.contains c)

/-- Models `Lexer::ident`: consume the identifier-continue run; keyword lookup
is suppressed when the preceding input ends with `.` or `@` but not `..`. -/
def ident (st : Lexer) (start : Nat) : SyntaxKind × Lexer :=
  let st := { st with cursor := st.cursor + eatWhileLen is_id_continue st.input st.cursor }
  let lexeme := sliceFT st.input start st.cursor
  let prev := st.input.take start
  if (¬ endsWithAny prev ['.', '@'] ∨ ['.', '.'].isSuffixOf prev) ∧
      (keyword lexeme).isSome then
    ((keyword lexeme).getD SyntaxKind.Ident, st)
  else if lexeme = ['_'] then (SyntaxKind.Underscore, st)
  else (SyntaxKind.Ident, st)

/-- Models success of `i64::from_str_radix` (an optional sign, digits in the
base, value within the `i64` range). -/
def i64FromStrRadixOk (s : List Char) (base : Nat) : Bool :=
  match s with
  | '+' :: rest => (parseRadixNat base rest).any (fun v => v ≤ 2 ^ 63 - 1)
  | '-' :: rest => (parseRadixNat base rest).any (fun v => v ≤ 2 ^ 63)
  | _ => (parseRadixNat base s).any (fun v => v ≤ 2 ^ 63 - 1)

/-- The exponent part of the Rust `f64` grammar: `e`/`E`, optional sign, at
least one digit. -/
def f64ExpPart : List Char → Bool
  | 'e' :: rest => f64ExpDigits rest
  | 'E' :: rest => f64ExpDigits rest
  | _ => false
where
  /-- Optional sign then a non-empty digit run. -/
  f64ExpDigits : List Char → Bool
  | '+' :: r => r ≠ [] && r.all isAsciiDigit
  | '-' :: r => r ≠ [] && r.all isAsciiDigit
  | r => r ≠ [] && r.all isAsciiDigit

/-- The unsigned decimal part of the Rust `f64` grammar: a mantissa with at
least one digit and an optional exponent. -/
def f64Dec (t : List Char) : Bool :=
  let intPart := t.takeWhile isAsciiDigit
  let rest := t.drop intPart.length
  match rest with
  | [] => intPart ≠ []
  | '.' :: rest2 =>
    let frac := rest2.takeWhile isAsciiDigit
    let rest3 := rest2.drop frac.length
    (intPart ≠ [] || frac ≠ []) && (rest3.isEmpty || f64ExpPart rest3)
  | _ => intPart ≠ [] && f64ExpPart rest

/-- Models success of `str::parse::<f64>` (optional sign; `inf`, `infinity`,
`nan` case-insensitively; or a decimal number with optional exponent). -/
def parseF64Ok (s : List Char) : Bool :=
  let core := fun (t : List Char) =>
    t.map Char.toLower = ['i', 'n', 'f'] ||
    t.map Char.toLower = ['i', 'n', 'f', 'i', 'n', 'i', 't', 'y'] ||
    t.map Char.toLower = ['n', 'a', 'n'] ||
    f64Dec t
  match s with
  | '+' :: rest => core rest
  | '-' :: rest => core rest
  | _ => core s

/-- The base-specific invalid-number message of `Lexer::number`. -/
def numErrorMsg (base : Nat) (num : List Char) : String :=
  if base = 2 then "invalid binary number: 0b" ++ String.mk num
  else if base = 8 then "invalid octal number: 0o" ++ String.mk num
  else if base = 16 then "invalid hexadecimal number: 0x" ++ String.mk num
  else "invalid number: " ++ String.mk num

/-- The fractional-part step of `Lexer::number`: the `.` is consumed when the
token did not start with `.`, the next two characters are not `..`, the
character after the `.` is not identifier-start, and the next character is
`.`; the digits behind it are consumed only when the base is 10 (the base is
tested only after `eat_if('.')` already consumed the dot). -/
def numberFrac (st : Lexer) (c : Char) (base : Nat) : Lexer :=
  if c ≠ '.' ∧ ¬ strAt st.input st.cursor ['.', '.'] ∧
      ¬ (charAt st.input (st.cursor + 1)).any is_id_start ∧
      charAt st.input st.cursor = some '.' then
    let st := { st with cursor := st.cursor + 1 }
    if base = 10 then
      { st with cursor := st.cursor + eatWhileLen isAsciiDigit st.input st.cursor }
    else st
  else st

/-- The exponent step of `Lexer::number`: `e`/`E` is consumed when the next
two characters are not `em`; sign and digits only when the base is 10. -/
def numberExp (st : Lexer) (base : Nat) : Lexer :=
  if ¬ strAt st.input st.cursor ['e', 'm'] ∧
      (charAt st.input st.cursor = some 'e' ∨ charAt st.input st.cursor = some 'E') then
    let st := { st with cursor := st.cursor + 1 }
    if base = 10 then
      let st :=
        if charAt st.input st.cursor = some '+' ∨ charAt st.input st.cursor = some '-' then
          { st with cursor := st.cursor + 1 }
        else st
      { st with cursor := st.cursor + eatWhileLen isAsciiDigit st.input st.cursor }
    else st
  else st

/-- The valid numeric suffixes. -/
def validSuffix (s : List Char) : Bool :=
  s = ['p', 't'] || s = ['m', 'm'] || s = ['c', 'm'] || s = ['i', 'n'] ||
  s = ['d', 'e', 'g'] || s = ['r', 'a', 'd'] || s = ['e', 'm'] ||
  s = ['f', 'r'] || s = ['%']

/-- Models `Lexer::number`: base prefix, integer part, fractional part,
exponent, suffix, and classification as `Int` / `Float` / `Numeric` or an
error. -/
def number (st : Lexer) (start0 : Nat) (c : Char) : SyntaxKind × Lexer :=
  let bs : Nat × Lexer × Nat :=
    if c = '0' then
      if charAt st.input st.cursor = some 'b' then
        (2, { st with cursor := st.cursor + 1 }, st.cursor + 1)
      else if charAt st.input st.cursor = some 'o' then
        (8, { st with cursor := st.cursor + 1 }, st.cursor + 1)
      else if charAt st.input st.cursor = some 'x' then
        (16, { st with cursor := st.cursor + 1 }, st.cursor + 1)
      else (10, st, start0)
    else (10, st, start0)
  let base := bs.1
  let st := bs.2.1
  let start := bs.2.2
  let intEat := eatWhileLen (if base = 16 then isAsciiAlphanumeric else isAsciiDigit) st.input st.cursor
  let st := { st with cursor := st.cursor + intEat }
  let st := numberFrac st c base
  let st := numberExp st base
  let suffix_start := st.cursor
  let st :=
    if charAt st.input st.cursor = some '%' then { st with cursor := st.cursor + 1 }
    else { st with cursor := st.cursor + eatWhileLen isAsciiAlphanumeric st.input st.cursor }
  let num := sliceFT st.input start suffix_start
  let suffix := sliceFT st.input suffix_start st.cursor
  let kindOpt : Option SyntaxKind :=
    if i64FromStrRadixOk num base then some SyntaxKind.Int
    else if base = 10 ∧ parseF64Ok num then some SyntaxKind.Float
    else none
  match kindOpt with
  | none => errorToken st (numErrorMsg base num)
  | some kind =>
    if suffix = [] then (kind, st)
    else if validSuffix suffix then (SyntaxKind.Numeric, st)
    else errorToken st ("invalid number suffix: " ++ String.mk suffix)

/-- Models `Lexer::code`: dispatch on the first (already consumed) character,
mirroring the source's match arms in order. -/
def code (st : Lexer) (start : Nat) (c : Char) : SyntaxKind × Lexer :=
  if c = '`' then raw st
  else if c = '<' ∧ (charAt st.input st.cursor).any is_id_continue then label st
  else if '0' ≤ c ∧ c ≤ '9' then number st start c
  else if c = '.' ∧ (charAt st.input st.cursor).any isAsciiDigit then number st start c
  else if c = '"' then string st
  else if c = '=' ∧ charAt st.input st.cursor = some '=' then
    (SyntaxKind.EqEq, { st with cursor := st.cursor + 1 })
  else if c = '!' ∧ charAt st.input st.cursor = some '=' then
    (SyntaxKind.ExclEq, { st with cursor := st.cursor + 1 })
  else if c = '<' ∧ charAt st.input st.cursor = some '=' then
    (SyntaxKind.LtEq, { st with cursor := st.cursor + 1 })
  else if c = '>' ∧ charAt st.input st.cursor = some '=' then
    (SyntaxKind.GtEq, { st with cursor := st.cursor + 1 })
  else if c = '+' ∧ charAt st.input st.cursor = some '=' then
    (SyntaxKind.PlusEq, { st with cursor := st.cursor + 1 })
  else if (c = '-' ∨ c = '−') ∧ charAt st.input st.cursor = some '=' then
    (SyntaxKind.HyphEq, { st with cursor := st.cursor + 1 })
  else if c = '*' ∧ charAt st.input st.cursor = some '=' then
    (SyntaxKind.StarEq, { st with cursor := st.cursor + 1 })
  else if c = '/' ∧ charAt st.input st.cursor = some '=' then
    (SyntaxKind.SlashEq, { st with cursor := st.cursor + 1 })
  else if c = '.' ∧ charAt st.input st.cursor = some '.' then
    (SyntaxKind.Dots, { st with cursor := st.cursor + 1 })
  else if c = '=' ∧ charAt st.input st.cursor = some '>' then
    (SyntaxKind.Arrow, { st with cursor := st.cursor + 1 })
  else if c = '{' then (SyntaxKind.LeftBrace, st)
  else if c = '}' then (SyntaxKind.RightBrace, st)
  else if c = '[' then (SyntaxKind.LeftBracket, st)
  else if c = ']' then (SyntaxKind.RightBracket, st)
  else if c = '(' then (SyntaxKind.LeftParen, st)
  else if c = ')' then (SyntaxKind.RightParen, st)
  else if c = '$' then (SyntaxKind.Dollar, st)
  else if c = ',' then (SyntaxKind.Comma, st)
  else if c = ';' then (SyntaxKind.Semicolon, st)
  else if c = ':' then (SyntaxKind.Colon, st)
  else if c = '.' then (SyntaxKind.Dot, st)
  else if c = '+' then (SyntaxKind.Plus, st)
  else if c = '-' ∨ c = '−' then (SyntaxKind.Minus, st)
  else if c = '*' then (SyntaxKind.Star, st)
  else if c = '/' then (SyntaxKind.Slash, st)
  else if c = '=' then (SyntaxKind.Eq, st)
  else if c = '<' then (SyntaxKind.Lt, st)
  else if c = '>' then (SyntaxKind.Gt, st)
  else if is_id_start c then ident st start
  else errorToken st ("the character `" ++ c.toString ++ "` is not valid in code")

/-- Models `Lexer::next`: pop the raw stack in Raw mode; otherwise clear the
newline flag and the error slot, eat one character, handle trivia, and
dispatch on the mode. -/
def Lexer.next (st : Lexer) : SyntaxKind × Lexer :=
  if st.mode = LexMode.Raw then
    match st.raw with
    | [] => (SyntaxKind.End, st)
    | (kind, e) :: rest =>
      (kind, { st with raw := rest, cursor := Nat.min e st.input.length })
  else
    let st := { st with newline := false, error := none }
    let start := st.cursor
    match charAt st.input st.cursor with
    | none => (SyntaxKind.End, st)
    | some c =>
      let st := { st with cursor := st.cursor + 1 }
      if is_space c st.mode then whitespace st start c
      else if c = '/' ∧ charAt st.input st.cursor = some '/' then
        line_comment { st with cursor := st.cursor + 1 }
      else if c = '/' ∧ charAt st.input st.cursor = some '*' then
        block_comment { st with cursor := st.cursor + 1 }
      else if c = '*' ∧ charAt st.input st.cursor = some '/' then
        errorToken { st with cursor := st.cursor + 1 } "unexpected end of block comment"
      else
        match st.mode with
        | LexMode.Markup => markup st start c
        | LexMode.Math => math st start c
        | LexMode.Code => code st start c
        | LexMode.Raw => (SyntaxKind.End, st)

/-- The multi-character shorthand table of Math mode: for every `else if`
shorthand arm of `math` that tests more than the dispatched character, the
full character sequence it recognises (the dispatched character followed by
the pattern passed to the scanner test). -/
def mathMultiShorthands : List (List Char) := [
  ['-', '>', '>'], ['-', '>'], ['-', '-', '>'],
  [':', '='], [':', ':', '='], ['!', '='], ['.', '.', '.'], ['[', '|'],
  ['<', '=', '=', '>'], ['<', '-', '-', '>'], ['<', '-', '-'], ['<', '-', '<'], ['<', '-', '>'],
  ['<', '<', '-'], ['<', '<', '<'], ['<', '=', '>'], ['<', '=', '='], ['<', '~', '~'],
  ['<', '='], ['<', '<'], ['<', '-'], ['<', '~'],
  ['>', '-', '>'], ['>', '>', '>'],
  ['=', '=', '>'], ['=', '>'], ['=', ':'], ['>', '='], ['>', '>'],
  ['|', '-', '>'], ['|', '=', '>'], ['|', ']'], ['|', '|'],
  ['~', '~', '>'], ['~', '>']]

/-- Spec-side property (the claim's words): the stored error is present
exactly when the returned kind is `Error`, and any stored message is
non-empty. -/
def errorCoherent (r : SyntaxKind × Lexer) : Prop :=
  ((r.2.error).isSome = true ↔ r.1 = SyntaxKind.Error) ∧
  ∀ m, r.2.error = some m → m ≠ ""


section Helpers

lemma setRaw_setRaw (st : Lexer) (r s : List (SyntaxKind × Nat)) :
    ({ { st with raw := r } with raw := s } : Lexer) = { st with raw := s } := rfl

lemma drop_total (text : List Char) (i k : Nat) :
    text.drop (i + k) = (text.drop i).drop k := by
  rw [List.drop_drop, Nat.add_comm]

lemma eatWhile_stop_list (p : Char → Bool) (l : List Char) (d : Char)
    (h : l[(l.takeWhile p).length]? = some d) : p d = false := by
  induction l with
  | nil => simp at h
  | cons c rest ih =>
    by_cases hc : p c
    · simp only [List.takeWhile, hc, List.length_cons, List.getElem?_cons_succ] at h
      exact ih h
    · simp only [List.takeWhile, hc, Bool.false_eq_true, if_false, List.length_nil,
        List.getElem?_cons_zero, Option.some.injEq] at h
      rw [← h]
      simpa using hc

lemma charAt_after_eatWhile (p : Char → Bool) (text : List Char) (i : Nat) (d : Char)
    (h : charAt text (i + eatWhileLen p text i) = some d) : p d = false := by
  apply eatWhile_stop_list p (text.drop i) d
  unfold charAt eatWhileLen at h
  rw [drop_total, List.head?_drop] at h
  exact h

lemma sliceFT_singleton (text : List Char) (i : Nat) (c : Char)
    (h : charAt text i = some c) : sliceFT text i (i + 1) = [c] := by
  unfold charAt at h
  unfold sliceFT
  rcases hd : text.drop i with _ | ⟨x, t⟩
  · rw [hd] at h; simp at h
  · rw [hd] at h
    simp only [List.head?_cons, Option.some.injEq] at h
    rw [List.drop_take]
    have h1 : i + 1 - i = 1 := by omega
    rw [h1, hd, h]
    simp

end Helpers

/-- C10: a `next` call while the mode is `Raw` changes only the cursor and
pops at most one entry from the raw stack (the new stack is the tail of the
old one); the newline flag, the error slot, the mode and the input are left
exactly as they were. -/
theorem c10_raw_frame (st : Lexer) (h : st.mode = LexMode.Raw) :
    (Lexer.next st).2.newline = st.newline ∧
    (Lexer.next st).2.error = st.error ∧
    (Lexer.next st).2.mode = st.mode ∧
    (Lexer.next st).2.input = st.input ∧
    (Lexer.next st).2.raw = st.raw.tail := by
  unfold Lexer.next
  rw [if_pos h]
  rcases hr : st.raw with _ | ⟨hd, tl⟩ <;> simp [hr]

/-- Witness for C10 at a concrete Raw-mode state. -/
theorem c10_witness :
    (Lexer.next { input := ['a', 'b'], cursor := 0, mode := LexMode.Raw,
                  newline := true, raw := [(SyntaxKind.Text, 2)],
                  error := some "m" }).2.error = some "m" :=
  (c10_raw_frame { input := ['a', 'b'], cursor := 0, mode := LexMode.Raw,
                   newline := true, raw := [(SyntaxKind.Text, 2)],
                   error := some "m" } rfl).2.1

lemma raw_ignores_stack (i : List Char) (cur : Nat) (m : LexMode) (n : Bool)
    (r1 r2 : List (SyntaxKind × Nat)) (e : Option String) :
    raw ⟨i, cur, m, n, r1, e⟩ = raw ⟨i, cur, m, n, r2, e⟩ := rfl

lemma next_eq_raw (st : Lexer)
    (hm : st.mode = LexMode.Markup ∨ st.mode = LexMode.Code)
    (hc : charAt st.input st.cursor = some '`') :
    Lexer.next st =
      raw { st with newline := false, error := none, cursor := st.cursor + 1 } := by
  rcases hm with h | h <;>
  · unfold Lexer.next
    rw [if_neg (by simp [h])]
    simp only [hc, h, markup, code]
    simp [is_space, is_newline, rustWhitespace]

/-- C9: on every entry to the raw-block rule (a backtick seen in Markup or
Code), the pending raw stack is cleared before any sub-token is pushed, so
the result of `next` — including the new stack — is independent of whatever
stack was left over from an earlier raw block. -/
theorem c9_raw_stack_cleared (st : Lexer) (r : List (SyntaxKind × Nat))
    (hm : st.mode = LexMode.Markup ∨ st.mode = LexMode.Code)
    (hc : charAt st.input st.cursor = some '`') :
    Lexer.next { st with raw := r } = Lexer.next { st with raw := [] } := by
  rw [next_eq_raw { st with raw := r } (by rcases hm with h | h <;> simp [h]) (by simpa using hc)]
  rw [next_eq_raw { st with raw := [] } (by rcases hm with h | h <;> simp [h]) (by simpa using hc)]
  cases st
  exact raw_ignores_stack _ _ _ _ _ _ _

/-- Witness for C9 at a concrete state carrying a stale raw stack. -/
theorem c9_witness :
    Lexer.next { input := ['`', 'a', '`'], cursor := 0, mode := LexMode.Markup,
                 newline := false, raw := [(SyntaxKind.RawLang, 9)], error := none } =
    Lexer.next { input := ['`', 'a', '`'], cursor := 0, mode := LexMode.Markup,
                 newline := false, raw := [], error := none } :=
  c9_raw_stack_cleared
    { input := ['`', 'a', '`'], cursor := 0, mode := LexMode.Markup,
      newline := false, raw := [(SyntaxKind.RawLang, 9)], error := none }
    [(SyntaxKind.RawLang, 9)] (Or.inl rfl) rfl

lemma next_eq_whitespace (st : Lexer) (c : Char) (hm : st.mode ≠ LexMode.Raw)
    (hc : charAt st.input st.cursor = some c) (hs : is_space c st.mode = true) :
    Lexer.next st =
      whitespace { st with newline := false, error := none, cursor := st.cursor + 1 }
        st.cursor c := by
  unfold Lexer.next
  rw [if_neg hm]
  simp only [hc, hs]
  simp

/-- C6: a non-Raw `next` call that starts at a mode-space character consumes
the maximal run of mode-spaces (the character behind the new cursor is not a
mode-space); the kind is `Parbreak` iff the mode is Markup and the consumed
run contains at least two newlines, else `Space`; and the newline flag is set
iff the run contains at least one newline (in particular a single `' '` with
no further mode-space behind it gives a `Space` with the flag clear). -/
theorem c6_whitespace_tokens (st : Lexer) (c : Char)
    (hm : st.mode ≠ LexMode.Raw)
    (hc : charAt st.input st.cursor = some c)
    (hs : is_space c st.mode = true) :
    (Lexer.next st).2.cursor =
      st.cursor + 1 + eatWhileLen (fun ch => is_space ch st.mode) st.input (st.cursor + 1) ∧
    (∀ d, charAt st.input ((Lexer.next st).2.cursor) = some d →
      is_space d st.mode = false) ∧
    (Lexer.next st).1 =
      (if st.mode = LexMode.Markup ∧
          2 ≤ count_newlines (sliceFT st.input st.cursor ((Lexer.next st).2.cursor))
       then SyntaxKind.Parbreak else SyntaxKind.Space) ∧
    (Lexer.next st).2.newline =
      decide (0 < count_newlines (sliceFT st.input st.cursor ((Lexer.next st).2.cursor))) := by
  rw [next_eq_whitespace st c hm hc hs]
  unfold whitespace
  dsimp only
  have hnl : (if c = ' ' ∧ eatWhileLen (fun ch => is_space ch st.mode) st.input (st.cursor + 1) = 0
        then 0
        else count_newlines (sliceFT st.input st.cursor
          (st.cursor + 1 + eatWhileLen (fun ch => is_space ch st.mode) st.input (st.cursor + 1)))) =
      count_newlines (sliceFT st.input st.cursor
        (st.cursor + 1 + eatWhileLen (fun ch => is_space ch st.mode) st.input (st.cursor + 1))) := by
    by_cases hsp : c = ' ' ∧ eatWhileLen (fun ch => is_space ch st.mode) st.input (st.cursor + 1) = 0
    · rw [if_pos hsp, hsp.2]
      have hc2 : charAt st.input st.cursor = some ' ' := by rw [hc, hsp.1]
      have hsl : sliceFT st.input st.cursor (st.cursor + 1 + 0) = [' '] :=
        sliceFT_singleton st.input st.cursor ' ' hc2
      rw [hsl]
      rfl
    · rw [if_neg hsp]
  simp only [hnl]
  refine ⟨?_, fun d hd => charAt_after_eatWhile _ _ _ d hd, ?_, ?_⟩ <;> trivial

/-- Witness for C6: two spaces around a newline in Markup give the flagged
`Space`, by the theorem at that input. -/
theorem c6_witness :
    (Lexer.next (Lexer.new " \n x" LexMode.Markup)).2.cursor = 0 + 1 + 2 ∧
    (Lexer.next (Lexer.new " \n x" LexMode.Markup)).2.newline = true := by
  have h := c6_whitespace_tokens (Lexer.new " \n x" LexMode.Markup) ' '
    (by decide) (by decide) (by decide)
  refine ⟨by simpa using h.1, ?_⟩
  rw [h.2.2.2, h.1]
  decide

/-- Counterexample for C2: an invalid character in Code mode sets the error
slot; a subsequent Raw-mode call (empty stack) returns `End` yet leaves that
stale error observable, so "take_error() is Some iff that call returned
Error" fails for the Raw-mode call. -/
theorem c2_counterexample :
    (Lexer.next (set_mode (Lexer.next { input := ['§'], cursor := 0, mode := LexMode.Code, newline := false, raw := [], error := none }).2 LexMode.Raw)).1 = SyntaxKind.End ∧
    (Lexer.next (set_mode (Lexer.next { input := ['§'], cursor := 0, mode := LexMode.Code, newline := false, raw := [], error := none }).2 LexMode.Raw)).2.error = some "the character `§` is not valid in code" := by
  constructor <;> rfl

/-- Counterexample for C3: lexing the raw block `` `\na` `` produces a
zero-width `Text` sub-token; the Raw-mode call that pops it returns a
non-`End` kind without advancing the cursor, although the cursor is strictly
below the input length. -/
theorem c3_counterexample :
    (Lexer.next (set_mode (Lexer.next { input := ['`', '\n', 'a', '`'], cursor := 0, mode := LexMode.Markup, newline := false, raw := [], error := none }).2 LexMode.Raw)).1 = SyntaxKind.Text ∧
    (Lexer.next (set_mode (Lexer.next { input := ['`', '\n', 'a', '`'], cursor := 0, mode := LexMode.Markup, newline := false, raw := [], error := none }).2 LexMode.Raw)).2.cursor = 1 ∧
    (set_mode (Lexer.next { input := ['`', '\n', 'a', '`'], cursor := 0, mode := LexMode.Markup, newline := false, raw := [], error := none }).2 LexMode.Raw).cursor = 1 ∧
    (1 : Nat) < 4 := by
  refine ⟨?_, ?_, ?_, by decide⟩ <;> rfl

/-- Counterexample for C4: `-` followed by U+00A0 (NO-BREAK SPACE, which has
the White_Space property but is not a Markup space-for-mode) lexes as
`ListMarker`, so "ListMarker iff the next character is a space-for-mode or
end-of-input" fails. -/
theorem c4_counterexample :
    (Lexer.next { input := ['-', '\u00A0'], cursor := 0, mode := LexMode.Markup, newline := false, raw := [], error := none }).1 = SyntaxKind.ListMarker ∧
    is_space '\u00A0' LexMode.Markup = false ∧
    charAt ['-', '\u00A0'] 1 = some '\u00A0' := by
  refine ⟨?_, by decide, by decide⟩
  rfl

/-- Counterexample for C5: on Code input `0x1.5` the `.` IS consumed (the
base-10 test runs only after `eat_if('.')` has already eaten the dot), so the
token does not end before the `.`: the whole five characters are consumed and
the result is an invalid-hexadecimal-number error. -/
theorem c5_counterexample :
    (Lexer.next { input := ['0', 'x', '1', '.', '5'], cursor := 0, mode := LexMode.Code, newline := false, raw := [], error := none }).1 = SyntaxKind.Error ∧
    (Lexer.next { input := ['0', 'x', '1', '.', '5'], cursor := 0, mode := LexMode.Code, newline := false, raw := [], error := none }).2.cursor = 5 ∧
    (Lexer.next { input := ['0', 'x', '1', '.', '5'], cursor := 0, mode := LexMode.Code, newline := false, raw := [], error := none }).2.error = some "invalid hexadecimal number: 0x1." := by
  refine ⟨?_, ?_, ?_⟩ <;> rfl

lemma numeric_not_ws (d : Char) (h : rustIsNumeric d = true) : rustWhitespace d = false := by
  unfold rustIsNumeric at h
  unfold rustWhitespace
  simp only [Char.isDigit] at h
  rw [Bool.and_eq_true] at h
  obtain ⟨h1, h2⟩ := h
  have h1a : 48 ≤ d.toNat := by
    rw [decide_eq_true_iff] at h1
    exact h1
  have h2a : d.toNat ≤ 57 := by
    rw [decide_eq_true_iff] at h2
    exact h2
  rw [← Bool.not_eq_true, List.elem_iff]
  intro hmem
  simp at hmem
  omega

lemma charAt_none_iff (text : List Char) (i : Nat) :
    charAt text i = none ↔ text.length ≤ i := by
  unfold charAt
  rw [List.head?_drop, List.getElem?_eq_none_iff]

lemma space_or_end_eq (st : Lexer) :
    space_or_end st = (charAt st.input st.cursor).all rustWhitespace := by
  unfold space_or_end
  rcases h : charAt st.input st.cursor with _ | d
  · simp [(charAt_none_iff st.input st.cursor).mp h]
  · have : ¬ st.input.length ≤ st.cursor := by
      intro hle
      rw [(charAt_none_iff st.input st.cursor).mpr hle] at h
      exact Option.noConfusion h
    simp [this]

lemma strAt_head (text : List Char) (i : Nat) (c : Char) (s : List Char)
    (h : strAt text i (c :: s) = true) : charAt text i = some c := by
  unfold strAt at h
  unfold charAt
  rcases hd : text.drop i with _ | ⟨x, t⟩
  · rw [hd] at h; simp [List.isPrefixOf] at h
  · rw [hd] at h
    simp only [List.isPrefixOf, Bool.and_eq_true, beq_iff_eq] at h
    rw [h.1]
    simp

lemma next_eq_markup (st : Lexer) (c : Char)
    (hm : st.mode = LexMode.Markup)
    (hc : charAt st.input st.cursor = some c)
    (hs : is_space c st.mode = false)
    (h1 : ¬ (c = '/' ∧ charAt st.input (st.cursor + 1) = some '/'))
    (h2 : ¬ (c = '/' ∧ charAt st.input (st.cursor + 1) = some '*'))
    (h3 : ¬ (c = '*' ∧ charAt st.input (st.cursor + 1) = some '/')) :
    Lexer.next st =
      markup { st with newline := false, error := none, cursor := st.cursor + 1 }
        st.cursor c := by
  unfold Lexer.next
  rw [if_neg (by simp [hm])]
  simp only [hc]
  simp only [hm] at hs ⊢
  simp [hs, h1, h2, h3]

/-- C4 (amended): in Markup mode a run of `=` is `HeadingMarker` iff the
character following the run is a Unicode White_Space character
(`char::is_whitespace`, which is what `space_or_end` tests — not the
space-for-mode set) or end-of-input, and otherwise the run lexes as text;
likewise `-`, `+`, `/` are `ListMarker` / `EnumMarker` / `TermMarker` iff the
next character is Unicode whitespace or end-of-input. -/
theorem c4_markers_amended (st : Lexer) (c : Char)
    (hm : st.mode = LexMode.Markup)
    (hc : charAt st.input st.cursor = some c) :
    (c = '=' →
      ((Lexer.next st).1 = SyntaxKind.HeadingMarker ↔
        (charAt st.input (st.cursor + 1 + eatWhileLen (fun ch => ch == '=') st.input (st.cursor + 1))).all rustWhitespace = true) ∧
      ((charAt st.input (st.cursor + 1 + eatWhileLen (fun ch => ch == '=') st.input (st.cursor + 1))).all rustWhitespace = false →
        (Lexer.next st).1 = SyntaxKind.Text)) ∧
    (c = '-' → ((Lexer.next st).1 = SyntaxKind.ListMarker ↔
        (charAt st.input (st.cursor + 1)).all rustWhitespace = true)) ∧
    (c = '+' → ((Lexer.next st).1 = SyntaxKind.EnumMarker ↔
        (charAt st.input (st.cursor + 1)).all rustWhitespace = true)) ∧
    (c = '/' → ((Lexer.next st).1 = SyntaxKind.TermMarker ↔
        (charAt st.input (st.cursor + 1)).all rustWhitespace = true)) := by
  refine ⟨?_, ?_, ?_, ?_⟩
  · rintro rfl
    rw [next_eq_markup st '=' hm hc (by rw [hm]; decide) (by simp) (by simp) (by simp)]
    unfold markup
    simp only [reduceCtorEq, Char.reduceEq, false_and, if_false, reduceIte]
    rw [space_or_end_eq]
    dsimp only
    by_cases hws : (charAt st.input (st.cursor + 1 + eatWhileLen (fun ch => ch == '=') st.input (st.cursor + 1))).all rustWhitespace = true
    · rw [if_pos hws]
      simp [hws]
    · rw [if_neg hws]
      simp [text, hws]
  · rintro rfl
    rw [next_eq_markup st '-' hm hc (by rw [hm]; decide) (by simp) (by simp) (by simp)]
    unfold markup
    simp only [reduceCtorEq, Char.reduceEq, false_and, true_and, if_false, reduceIte]
    by_cases a1 : strAt st.input (st.cursor + 1) ['-', '-'] = true
    · rw [if_pos a1]
      have := strAt_head st.input (st.cursor + 1) '-' ['-'] a1
      simp [this, rustWhitespace]
    · rw [if_neg a1]
      by_cases a2 : charAt st.input (st.cursor + 1) = some '-'
      · rw [if_pos a2]
        simp [a2, rustWhitespace]
      · rw [if_neg a2]
        by_cases a3 : charAt st.input (st.cursor + 1) = some '?'
        · rw [if_pos a3]
          simp [a3, rustWhitespace]
        · rw [if_neg a3]
          by_cases a4 : (charAt st.input (st.cursor + 1)).any rustIsNumeric = true
          · rw [if_pos a4]
            rcases hd : charAt st.input (st.cursor + 1) with _ | d
            · rw [hd] at a4; simp at a4
            · rw [hd] at a4
              simp only [Option.any_some] at a4
              simp [hd, numeric_not_ws d a4]
          · rw [if_neg a4]
            rw [space_or_end_eq]
            dsimp only
            by_cases a5 : (charAt st.input (st.cursor + 1)).all rustWhitespace = true
            · rw [if_pos a5]
              simp [a5]
            · rw [if_neg a5]
              simp [text, a5]
  · rintro rfl
    rw [next_eq_markup st '+' hm hc (by rw [hm]; decide) (by simp) (by simp) (by simp)]
    unfold markup
    simp only [reduceCtorEq, Char.reduceEq, false_and, true_and, if_false, reduceIte]
    rw [space_or_end_eq]
    dsimp only
    by_cases a5 : (charAt st.input (st.cursor + 1)).all rustWhitespace = true
    · rw [if_pos a5]
      simp [a5]
    · rw [if_neg a5]
      simp [text, a5]
  · rintro rfl
    by_cases g1 : charAt st.input (st.cursor + 1) = some '/'
    · have : Lexer.next st = line_comment { st with newline := false, error := none, cursor := st.cursor + 1 + 1 } := by
        unfold Lexer.next
        rw [if_neg (by simp [hm])]
        simp only [hc]
        have hs : is_space '/' st.mode = false := by rw [hm]; decide
        simp [hs, g1]
      rw [this]
      simp [line_comment, g1, rustWhitespace]
    · by_cases g2 : charAt st.input (st.cursor + 1) = some '*'
      · have : Lexer.next st = block_comment { st with newline := false, error := none, cursor := st.cursor + 1 + 1 } := by
          unfold Lexer.next
          rw [if_neg (by simp [hm])]
          simp only [hc]
          have hs : is_space '/' st.mode = false := by rw [hm]; decide
          simp [hs, g1, g2]
        rw [this]
        simp [block_comment, g2, rustWhitespace]
      · rw [next_eq_markup st '/' hm hc (by rw [hm]; decide) (by simp [g1]) (by simp [g2]) (by simp)]
        unfold markup
        simp only [reduceCtorEq, Char.reduceEq, false_and, true_and, if_false, reduceIte]
        rw [space_or_end_eq]
        dsimp only
        by_cases a5 : (charAt st.input (st.cursor + 1)).all rustWhitespace = true
        · rw [if_pos a5]
          simp [a5]
        · rw [if_neg a5]
          simp [text, a5]

/-- Witness for C4 (amended): `=` followed by a space is a `HeadingMarker`,
by the theorem at that input. -/
theorem c4_witness :
    (Lexer.next { input := ['=', ' '], cursor := 0, mode := LexMode.Markup, newline := false, raw := [], error := none }).1 = SyntaxKind.HeadingMarker :=
  ((c4_markers_amended { input := ['=', ' '], cursor := 0, mode := LexMode.Markup, newline := false, raw := [], error := none } '=' rfl rfl).1 rfl).1.mpr (by decide)

lemma takeWhile_append_all (p : Char → Bool) (l1 l2 : List Char) (h : l1.all p = true) :
    (l1 ++ l2).takeWhile p = l1 ++ l2.takeWhile p := by
  induction l1 with
  | nil => simp
  | cons x xs ih =>
    simp only [List.all_cons, Bool.and_eq_true] at h
    simp [List.takeWhile, h.1, ih h.2]

lemma parseRadixNat_append_bad (base : Nat) (l : List Char) (c : Char)
    (h : digitValRadix base c = none) : parseRadixNat base (l ++ [c]) = none := by
  induction l with
  | nil => simpa [parseRadixNat]
  | cons x xs ih =>
    rcases hxs : xs ++ [c] with _ | ⟨y, ys⟩
    · exact absurd hxs (by simp)
    · rw [List.cons_append, hxs]
      have hred : parseRadixNat base (x :: y :: ys) =
          (match digitValRadix base x, parseRadixNat base (y :: ys) with
           | some d, some v => some (d * base ^ (y :: ys).length + v)
           | _, _ => none) := rfl
      rw [hred, ← hxs, ih]
      cases digitValRadix base x <;> rfl

lemma i64Ok_head_digit (d0 : Char) (h : isAsciiDigit d0 = true) (t : List Char) (base : Nat) :
    i64FromStrRadixOk (d0 :: t) base =
      (parseRadixNat base (d0 :: t)).any (fun v => v ≤ 2 ^ 63 - 1) := by
  have hne1 : d0 ≠ '+' := by rintro rfl; exact absurd h (by decide)
  have hne2 : d0 ≠ '-' := by rintro rfl; exact absurd h (by decide)
  unfold i64FromStrRadixOk
  split
  · rename_i heq
    rw [List.cons.injEq] at heq
    exact absurd heq.1 hne1
  · rename_i heq
    rw [List.cons.injEq] at heq
    exact absurd heq.1 hne2
  · rfl

/-- C5 (amended): the decimal point is consumed whenever the token did not
start with `.`, the next two characters are not `..`, the character after the
`.` is not identifier-start, and the next character is `.` — regardless of
the base, because `base == 10` is tested only after `eat_if('.')` has already
consumed the dot; only the digit run behind it is base-10-gated. Hence a hex
number followed by `.` consumes the dot and errors: for every non-empty digit
run `ds` and benign continuation, `0x` ++ ds ++ `.` ++ rest lexes as an
invalid-hexadecimal-number error whose token extends past the dot. -/
theorem c5_number_dot_amended (ds rest : List Char) (nl : Bool)
    (r : List (SyntaxKind × Nat)) (e : Option String)
    (hds : ds ≠ []) (hall : ds.all isAsciiDigit = true)
    (hrest : ∀ d, rest.head? = some d →
      is_id_start d = false ∧ isAsciiAlphanumeric d = false ∧ d ≠ '.' ∧ d ≠ '%') :
    (Lexer.next { input := '0' :: 'x' :: (ds ++ '.' :: rest), cursor := 0, mode := LexMode.Code, newline := nl, raw := r, error := e }).1 = SyntaxKind.Error ∧
    (Lexer.next { input := '0' :: 'x' :: (ds ++ '.' :: rest), cursor := 0, mode := LexMode.Code, newline := nl, raw := r, error := e }).2.cursor = 3 + ds.length ∧
    (Lexer.next { input := '0' :: 'x' :: (ds ++ '.' :: rest), cursor := 0, mode := LexMode.Code, newline := nl, raw := r, error := e }).2.error = some ("invalid hexadecimal number: 0x" ++ String.mk (ds ++ ['.'])) := by
  set L := '0' :: 'x' :: (ds ++ '.' :: rest) with hL
  have hall2 : ds.all isAsciiAlphanumeric = true := by
    rw [List.all_eq_true] at hall ⊢
    intro x hx
    have := hall x hx
    unfold isAsciiAlphanumeric
    simp [this]
  have h2 : L.drop 2 = ds ++ '.' :: rest := rfl
  have h3 : eatWhileLen isAsciiAlphanumeric L 2 = ds.length := by
    unfold eatWhileLen
    rw [h2, takeWhile_append_all _ _ _ hall2]
    have hdot : isAsciiAlphanumeric '.' = false := by decide
    simp [List.takeWhile, hdot]
  have h4 : L.drop (2 + ds.length) = '.' :: rest := by
    rw [drop_total L 2 ds.length, h2, List.drop_left' rfl]
  have h5 : charAt L (2 + ds.length) = some '.' := by unfold charAt; rw [h4]; rfl
  have h6 : L.drop (2 + ds.length + 1) = rest := by
    rw [drop_total L (2 + ds.length) 1, h4]
    rfl
  have h7 : charAt L (2 + ds.length + 1) = rest.head? := by unfold charAt; rw [h6]
  have h8 : strAt L (2 + ds.length) ['.', '.'] = false := by
    unfold strAt
    rw [h4]
    rcases hr : rest with _ | ⟨d, t⟩
    · rfl
    · have hd : d ≠ '.' := (hrest d (by rw [hr]; rfl)).2.2.1
      simp [List.isPrefixOf, hd]
      exact fun h => hd h.symm
  have key : (Lexer.next { input := L, cursor := 0, mode := LexMode.Code, newline := nl, raw := r, error := e }) = errorToken { input := L, cursor := 2 + ds.length + 1, mode := LexMode.Code, newline := false, raw := r, error := none } (numErrorMsg 16 (ds ++ ['.'])) := by
    unfold Lexer.next
    rw [if_neg (by simp)]
    have hc0 : charAt L 0 = some '0' := rfl
    simp only [hc0]
    rw [if_neg (by decide)]
    rw [if_neg (by simp), if_neg (by simp), if_neg (by simp)]
    unfold code
    simp only [reduceCtorEq, Char.reduceEq, false_and, if_false, reduceIte]
    rw [if_pos (by decide)]
    unfold number
    have hx1 : charAt L (0 + 1) = some 'x' := rfl
    rw [if_pos (by decide), if_neg (by rw [hx1]; simp), if_neg (by rw [hx1]; simp), if_pos hx1]
    dsimp only
    norm_num
    rw [h3]
    have h9 : (charAt L (2 + ds.length + 1)).any is_id_start = false := by
      rw [h7]
      rcases hr : rest with _ | ⟨d, t⟩
      · rfl
      · simp only [List.head?_cons, Option.any_some]
        exact (hrest d (by rw [hr]; rfl)).1
    have hfrac : numberFrac { input := L, cursor := 2 + ds.length, mode := LexMode.Code, newline := false, raw := r, error := none } '0' 16 = { input := L, cursor := 2 + ds.length + 1, mode := LexMode.Code, newline := false, raw := r, error := none } := by
      unfold numberFrac
      rw [if_pos ⟨by decide, by simp [h8], by simp [h9], by exact h5⟩]
      rw [if_neg (by decide)]
    have he : charAt L (2 + ds.length + 1) ≠ some 'e' := by
      rw [h7]
      rcases hr : rest with _ | ⟨d, t⟩
      · simp
      · simp only [List.head?_cons, ne_eq, Option.some.injEq]
        intro hde
        have hh := (hrest d (by rw [hr]; rfl)).2.1
        rw [hde] at hh
        exact absurd hh (by decide)
    have hE : charAt L (2 + ds.length + 1) ≠ some 'E' := by
      rw [h7]
      rcases hr : rest with _ | ⟨d, t⟩
      · simp
      · simp only [List.head?_cons, ne_eq, Option.some.injEq]
        intro hde
        have hh := (hrest d (by rw [hr]; rfl)).2.1
        rw [hde] at hh
        exact absurd hh (by decide)
    have hexp : numberExp { input := L, cursor := 2 + ds.length + 1, mode := LexMode.Code, newline := false, raw := r, error := none } 16 = { input := L, cursor := 2 + ds.length + 1, mode := LexMode.Code, newline := false, raw := r, error := none } := by
      unfold numberExp
      rw [if_neg ?hcond]
      case hcond =>
        rintro ⟨-, h | h⟩
        · exact he h
        · exact hE h
    rw [hfrac, hexp]
    dsimp only
    have hpc : charAt L (2 + ds.length + 1) ≠ some '%' := by
      rw [h7]
      rcases hr : rest with _ | ⟨d, t⟩
      · simp
      · simp only [List.head?_cons, ne_eq, Option.some.injEq]
        intro hde
        exact (hrest d (by rw [hr]; rfl)).2.2.2 hde
    rw [if_neg hpc]
    have h12 : eatWhileLen isAsciiAlphanumeric L (2 + ds.length + 1) = 0 := by
      unfold eatWhileLen
      rw [h6]
      rcases hr : rest with _ | ⟨d, t⟩
      · rfl
      · have := (hrest d (by rw [hr]; rfl)).2.1
        simp [List.takeWhile, this]
    rw [h12]
    dsimp only
    norm_num
    have h14 : sliceFT L 2 (2 + ds.length + 1) = ds ++ ['.'] := by
      unfold sliceFT
      rw [List.drop_take]
      have harith : 2 + ds.length + 1 - 2 = ds.length + 1 := by omega
      rw [harith, h2]
      rw [List.take_append]
      rfl
    rw [h14]
    rcases hds2 : ds with _ | ⟨d0, dtl⟩
    · exact absurd hds2 hds
    · have hd0 : isAsciiDigit d0 = true := by
        rw [hds2] at hall
        simp only [List.all_cons, Bool.and_eq_true] at hall
        exact hall.1
      have hi64 : i64FromStrRadixOk ((d0 :: dtl) ++ ['.']) 16 = false := by
        rw [List.cons_append, i64Ok_head_digit d0 hd0]
        rw [← List.cons_append, parseRadixNat_append_bad 16 (d0 :: dtl) '.' (by decide)]
        rfl
      rw [List.cons_append] at hi64 ⊢
      rw [hi64]
      rfl
  rw [key]
  refine ⟨rfl, by dsimp only [errorToken]; omega, ?_⟩
  dsimp only [errorToken]
  rw [numErrorMsg]
  norm_num

/-- Witness for C5 (amended) at `0x1.`. -/
theorem c5_witness :
    (Lexer.next { input := ['0', 'x', '1', '.'], cursor := 0, mode := LexMode.Code, newline := false, raw := [], error := none }).1 = SyntaxKind.Error ∧
    (Lexer.next { input := ['0', 'x', '1', '.'], cursor := 0, mode := LexMode.Code, newline := false, raw := [], error := none }).2.cursor = 4 :=
  ⟨(c5_number_dot_amended ['1'] [] false [] none (by decide) (by decide) (fun d h => nomatch h)).1,
   (c5_number_dot_amended ['1'] [] false [] none (by decide) (by decide) (fun d h => nomatch h)).2.1⟩

lemma alpha_toNat (c : Char) (h : c.isAlpha = true) :
    (65 ≤ c.toNat ∧ c.toNat ≤ 90) ∨ (97 ≤ c.toNat ∧ c.toNat ≤ 122) := by
  unfold Char.isAlpha Char.isUpper Char.isLower at h
  simp only [Bool.or_eq_true, Bool.and_eq_true, decide_eq_true_iff] at h
  rcases h with ⟨h1, h2⟩ | ⟨h1, h2⟩
  · exact Or.inl ⟨h1, h2⟩
  · exact Or.inr ⟨h1, h2⟩

lemma id_start_toNat (c : Char) (h : is_id_start c = true) :
    (65 ≤ c.toNat ∧ c.toNat ≤ 90) ∨ (97 ≤ c.toNat ∧ c.toNat ≤ 122) ∨ c.toNat = 95 := by
  unfold is_id_start is_xid_start at h
  rw [Bool.or_eq_true, beq_iff_eq] at h
  rcases h with h | h
  · rcases alpha_toNat c h with h | h
    · exact Or.inl h
    · exact Or.inr (Or.inl h)
  · subst h
    exact Or.inr (Or.inr rfl)

lemma id_start_not_ws (c : Char) (h : is_id_start c = true) : rustWhitespace c = false := by
  rw [← Bool.not_eq_true, rustWhitespace, List.elem_iff]
  intro hmem
  simp at hmem
  rcases id_start_toNat c h with ⟨g1, g2⟩ | ⟨g1, g2⟩ | g1 <;> omega

lemma id_start_not_digit (c : Char) (h : is_id_start c = true) :
    ¬ ('0' ≤ c ∧ c ≤ '9') := by
  rintro ⟨h1, h2⟩
  have g1 : 48 ≤ c.toNat := h1
  have g2 : c.toNat ≤ 57 := h2
  rcases id_start_toNat c h with ⟨g3, g4⟩ | ⟨g3, g4⟩ | g3 <;> omega

lemma id_start_ne (c x : Char) (h : is_id_start c = true)
    (hx : is_id_start x = false) : c ≠ x := by
  rintro rfl
  rw [h] at hx
  exact Bool.noConfusion hx

lemma next_eq_code (st : Lexer) (c : Char)
    (hm : st.mode = LexMode.Code)
    (hc : charAt st.input st.cursor = some c)
    (hs : is_space c st.mode = false)
    (h1 : ¬ (c = '/' ∧ charAt st.input (st.cursor + 1) = some '/'))
    (h2 : ¬ (c = '/' ∧ charAt st.input (st.cursor + 1) = some '*'))
    (h3 : ¬ (c = '*' ∧ charAt st.input (st.cursor + 1) = some '/')) :
    Lexer.next st =
      code { st with newline := false, error := none, cursor := st.cursor + 1 }
        st.cursor c := by
  unfold Lexer.next
  rw [if_neg (by simp [hm])]
  simp only [hc]
  simp only [hm] at hs ⊢
  simp [hs, h1, h2, h3]

/-- C7: in Code mode, for every identifier lexeme (an identifier-start
character followed by the maximal identifier-continue run), if the input
before the lexeme ends with `.` or `@` and does not end with `..`, the lexeme
is returned as `Ident` (or `Underscore` for a bare `_`) even when it equals a
reserved keyword; otherwise a lexeme matching the keyword table is returned
as that keyword's kind. -/
theorem c7_keyword_suppression (st : Lexer) (c : Char)
    (hm : st.mode = LexMode.Code)
    (hc : charAt st.input st.cursor = some c)
    (hid : is_id_start c = true) :
    (Lexer.next st).1 =
      (if endsWithAny (st.input.take st.cursor) ['.', '@'] = true ∧
          ¬ (['.', '.'].isSuffixOf (st.input.take st.cursor) = true) then
         (if sliceFT st.input st.cursor
              (st.cursor + 1 + eatWhileLen is_id_continue st.input (st.cursor + 1)) = ['_']
          then SyntaxKind.Underscore else SyntaxKind.Ident)
       else
         match keyword (sliceFT st.input st.cursor
             (st.cursor + 1 + eatWhileLen is_id_continue st.input (st.cursor + 1))) with
         | some k => k
         | none =>
           if sliceFT st.input st.cursor
                (st.cursor + 1 + eatWhileLen is_id_continue st.input (st.cursor + 1)) = ['_']
           then SyntaxKind.Underscore else SyntaxKind.Ident) := by
  have hs : is_space c st.mode = false := by
    rw [hm]
    unfold is_space
    exact id_start_not_ws c hid
  have hslash : c ≠ '/' := id_start_ne c '/' hid (by decide)
  have hstar : c ≠ '*' := id_start_ne c '*' hid (by decide)
  rw [next_eq_code st c hm hc hs (by rintro ⟨h, -⟩; exact hslash h)
      (by rintro ⟨h, -⟩; exact hslash h) (by rintro ⟨h, -⟩; exact hstar h)]
  unfold code
  rw [if_neg (fun h => id_start_ne c '`' hid (by decide) h)]
  rw [if_neg (by rintro ⟨h, -⟩; exact id_start_ne c '<' hid (by decide) h)]
  rw [if_neg (id_start_not_digit c hid)]
  rw [if_neg (by rintro ⟨h, -⟩; exact id_start_ne c '.' hid (by decide) h)]
  rw [if_neg (fun h => id_start_ne c '"' hid (by decide) h)]
  rw [if_neg (by rintro ⟨h, -⟩; exact id_start_ne c '=' hid (by decide) h)]
  rw [if_neg (by rintro ⟨h, -⟩; exact id_start_ne c '!' hid (by decide) h)]
  rw [if_neg (by rintro ⟨h, -⟩; exact id_start_ne c '<' hid (by decide) h)]
  rw [if_neg (by rintro ⟨h, -⟩; exact id_start_ne c '>' hid (by decide) h)]
  rw [if_neg (by rintro ⟨h, -⟩; exact id_start_ne c '+' hid (by decide) h)]
  rw [if_neg (by rintro ⟨h | h, -⟩; exact id_start_ne c '-' hid (by decide) h; exact id_start_ne c '−' hid (by decide) h)]
  rw [if_neg (by rintro ⟨h, -⟩; exact id_start_ne c '*' hid (by decide) h)]
  rw [if_neg (by rintro ⟨h, -⟩; exact id_start_ne c '/' hid (by decide) h)]
  rw [if_neg (by rintro ⟨h, -⟩; exact id_start_ne c '.' hid (by decide) h)]
  rw [if_neg (by rintro ⟨h, -⟩; exact id_start_ne c '=' hid (by decide) h)]
  rw [if_neg (fun h => id_start_ne c '{' hid (by decide) h)]
  rw [if_neg (fun h => id_start_ne c '}' hid (by decide) h)]
  rw [if_neg (fun h => id_start_ne c '[' hid (by decide) h)]
  rw [if_neg (fun h => id_start_ne c ']' hid (by decide) h)]
  rw [if_neg (fun h => id_start_ne c '(' hid (by decide) h)]
  rw [if_neg (fun h => id_start_ne c ')' hid (by decide) h)]
  rw [if_neg (fun h => id_start_ne c '$' hid (by decide) h)]
  rw [if_neg (fun h => id_start_ne c ',' hid (by decide) h)]
  rw [if_neg (fun h => id_start_ne c ';' hid (by decide) h)]
  rw [if_neg (fun h => id_start_ne c ':' hid (by decide) h)]
  rw [if_neg (fun h => id_start_ne c '.' hid (by decide) h)]
  rw [if_neg (fun h => id_start_ne c '+' hid (by decide) h)]
  rw [if_neg (by rintro (h | h); exact id_start_ne c '-' hid (by decide) h; exact id_start_ne c '−' hid (by decide) h)]
  rw [if_neg (fun h => id_start_ne c '*' hid (by decide) h)]
  rw [if_neg (fun h => id_start_ne c '/' hid (by decide) h)]
  rw [if_neg (fun h => id_start_ne c '=' hid (by decide) h)]
  rw [if_neg (fun h => id_start_ne c '<' hid (by decide) h)]
  rw [if_neg (fun h => id_start_ne c '>' hid (by decide) h)]
  rw [if_pos hid]
  unfold ident
  dsimp only
  by_cases hsup : endsWithAny (st.input.take st.cursor) ['.', '@'] = true ∧
      ¬ (['.', '.'].isSuffixOf (st.input.take st.cursor) = true)
  · rw [if_pos hsup]
    rw [if_neg (by rintro ⟨h4 | h4, -⟩; exact h4 hsup.1; exact hsup.2 h4)]
    split <;> rfl
  · rw [if_neg hsup]
    rcases hk : keyword (sliceFT st.input st.cursor (st.cursor + 1 + eatWhileLen is_id_continue st.input (st.cursor + 1))) with _ | k
    · rw [if_neg (by rintro ⟨-, hsome⟩; simp at hsome)]
      split <;> rfl
    · have hside : (¬ endsWithAny (st.input.take st.cursor) ['.', '@'] = true ∨
          ['.', '.'].isSuffixOf (st.input.take st.cursor) = true) := by
        rcases not_and_or.mp hsup with h4 | h4
        · exact Or.inl h4
        · exact Or.inr (not_not.mp h4)
      rw [if_pos ⟨hside, rfl⟩]
      rfl

/-- Witness for C7: in Code input `foo.let`, the trailing `let` (at cursor 4,
preceded by `foo.`) lexes as `Ident`, not as the `let` keyword. -/
theorem c7_witness :
    (Lexer.next { input := ['f', 'o', 'o', '.', 'l', 'e', 't'], cursor := 4, mode := LexMode.Code, newline := false, raw := [], error := none }).1 = SyntaxKind.Ident := by
  have h := c7_keyword_suppression { input := ['f', 'o', 'o', '.', 'l', 'e', 't'], cursor := 4, mode := LexMode.Code, newline := false, raw := [], error := none } 'l' rfl (by decide) (by decide)
  rw [h]
  decide

lemma takeWhile_append_stop (p : Char → Bool) (l1 l2 : List Char) (h : l1.all p = false) :
    (l1 ++ l2).takeWhile p = l1.takeWhile p := by
  induction l1 with
  | nil => simp at h
  | cons x xs ih =>
    by_cases hx : p x
    · simp only [List.all_cons, hx, Bool.true_and] at h
      simp [List.takeWhile, hx, ih h]
    · simp [List.takeWhile, hx]

lemma trailBS_le (l : List Char) : trailBS l ≤ l.length := by
  unfold trailBS
  calc (l.reverse.takeWhile (fun c => c == '\\')).length
      ≤ l.reverse.length := (List.takeWhile_prefix _).length_le
    _ = l.length := List.length_reverse _

lemma trailBS_full_iff (l : List Char) :
    trailBS l = l.length ↔ l.all (fun c => c == '\\') = true := by
  unfold trailBS
  constructor
  · intro h
    have hpre := List.takeWhile_prefix (l := l.reverse) (fun c => c == '\\')
    have heq := hpre.eq_of_length (by rw [h, List.length_reverse])
    rw [List.all_eq_true]
    intro x hx
    have hmem : x ∈ l.reverse.takeWhile (fun c => c == '\\') := by
      rw [heq]
      simpa using hx
    exact List.mem_takeWhile_imp (p := fun c => c == '\\') hmem
  · intro h
    rw [List.takeWhile_eq_self_iff.mpr ?_, List.length_reverse]
    rw [List.all_eq_true] at h
    intro x hx
    exact h x (by simpa using hx)

lemma trailBS_cons (x : Char) (p : List Char) :
    trailBS (x :: p) =
      if trailBS p = p.length ∧ x = '\\' then p.length + 1 else trailBS p := by
  by_cases hall : p.all (fun c => c == '\\') = true
  · have hfull : trailBS p = p.length := (trailBS_full_iff p).mpr hall
    have hallr : p.reverse.all (fun c => c == '\\') = true := by
      rw [List.all_eq_true] at hall ⊢
      intro c hcm
      exact hall c (by simpa using hcm)
    by_cases hx : x = '\\'
    · rw [if_pos ⟨hfull, hx⟩]
      unfold trailBS
      rw [List.reverse_cons, takeWhile_append_all _ _ _ hallr, hx]
      have hb : (('\\' : Char) == '\\') = true := by decide
      simp [List.takeWhile, hb, List.length_reverse]
    · rw [if_neg (by rintro ⟨-, h⟩; exact hx h)]
      unfold trailBS
      rw [List.reverse_cons, takeWhile_append_all _ _ _ hallr]
      have hbx : ((x : Char) == '\\') = false := by simp [hx]
      have hone : ([x].takeWhile (fun c => c == '\\')) = [] := by
        simp [List.takeWhile, hbx]
      rw [hone]
      simp only [List.append_nil]
      unfold trailBS at hfull
      rw [hfull]
      exact List.length_reverse p
  · rw [if_neg (by rintro ⟨hfull, -⟩; exact hall ((trailBS_full_iff p).mp hfull))]
    unfold trailBS
    rw [List.reverse_cons, takeWhile_append_stop _ _ _ ?hr]
    case hr =>
      rw [← Bool.not_eq_true]
      intro hh
      apply hall
      rw [List.all_eq_true] at hh ⊢
      intro c hcm
      exact hh c (by simpa using hcm)

lemma trailBS_cons_of_ne (x : Char) (p : List Char) (hx : x ≠ '\\') :
    trailBS (x :: p) = trailBS p := by
  rw [trailBS_cons, if_neg (by rintro ⟨-, h⟩; exact hx h)]

lemma trailBS_cons2_parity (r : Char) (p : List Char) :
    trailBS ('\\' :: r :: p) % 2 = trailBS p % 2 := by
  have hle := trailBS_le p
  rw [trailBS_cons '\\' (r :: p), trailBS_cons r p]
  by_cases h1 : trailBS p = p.length ∧ r = '\\'
  · rw [if_pos h1, if_pos (by refine ⟨?_, rfl⟩; rw [List.length_cons])]
    simp only [List.length_cons]
    omega
  · rw [if_neg h1, if_neg (by rintro ⟨hf, -⟩; rw [List.length_cons] at hf; omega)]

lemma specStopAt_zero (c : Char) (rest : List Char) :
    specStopAt (c :: rest) 0 ↔ c = '"' := by
  unfold specStopAt
  simp [trailBS]

lemma specStopAt_shift1 (c : Char) (rest : List Char) (j : Nat) (hc : c ≠ '\\') :
    specStopAt (c :: rest) (j + 1) ↔ specStopAt rest j := by
  unfold specStopAt
  rw [List.getElem?_cons_succ, List.take_succ_cons, trailBS_cons_of_ne c _ hc]

lemma specStopAt_one_bs (r : Char) (rest2 : List Char) :
    ¬ specStopAt ('\\' :: r :: rest2) 1 := by
  unfold specStopAt
  rintro ⟨-, hpar⟩
  rw [List.take_succ_cons, List.take_zero] at hpar
  have : trailBS ['\\'] = 1 := by decide
  rw [this] at hpar
  omega

lemma specStopAt_shift2 (r : Char) (rest2 : List Char) (j : Nat) :
    specStopAt ('\\' :: r :: rest2) (j + 2) ↔ specStopAt rest2 j := by
  unfold specStopAt
  have h1 : ('\\' :: r :: rest2)[j + 2]? = rest2[j]? := by
    rw [show j + 2 = (j + 1) + 1 from rfl, List.getElem?_cons_succ, List.getElem?_cons_succ]
  have h2 : ('\\' :: r :: rest2).take (j + 2) = '\\' :: r :: rest2.take j := by
    rw [show j + 2 = (j + 1) + 1 from rfl, List.take_succ_cons, List.take_succ_cons]
  rw [h1, h2, trailBS_cons2_parity]

lemma stringScan_cons_plain (c : Char) (rest : List Char) (hq : c ≠ '"') (hb : c ≠ '\\') :
    stringScan false (c :: rest) = 1 + stringScan false rest := by
  have h1 : ((c == '"') && ! false) = false := by simp [hq]
  have h2 : ((c == '\\') && ! false) = false := by simp [hb]
  show (if (c == '"') && ! false then 0 else 1 + stringScan ((c == '\\') && ! false) rest) =
    1 + stringScan false rest
  rw [h1, h2]
  rfl

lemma stringScan_cons_quote (rest : List Char) :
    stringScan false ('"' :: rest) = 0 := by
  show (if ('"' == '"') && ! false then 0 else 1 + stringScan (('"' == '\\') && ! false) rest) = 0
  rw [if_pos (by decide)]

lemma stringScan_cons_bs2 (r : Char) (rest2 : List Char) :
    stringScan false ('\\' :: r :: rest2) = 2 + stringScan false rest2 := by
  show (if ('\\' == '"') && ! false then 0
        else 1 + stringScan (('\\' == '\\') && ! false) (r :: rest2)) = 2 + stringScan false rest2
  rw [if_neg (by decide)]
  have hflag : (('\\' == '\\') && ! false) = true := by decide
  rw [hflag]
  show 1 + (if (r == '"') && ! true then 0 else 1 + stringScan ((r == '\\') && ! true) rest2) =
    2 + stringScan false rest2
  have h3 : ((r == '"') && ! true) = false := by simp
  have h4 : ((r == '\\') && ! true) = false := by simp
  rw [h3, h4, if_neg (by simp)]
  omega

lemma stringScan_bs1 : stringScan false ['\\'] = 1 := by decide

lemma stringScan_no_stop : ∀ (n : Nat) (cs : List Char), cs.length ≤ n →
    (∀ j, ¬ specStopAt cs j) → stringScan false cs = cs.length := by
  intro n
  induction n with
  | zero =>
    intro cs hlen h
    rw [List.length_eq_zero.mp (Nat.le_zero.mp hlen)]
    rfl
  | succ n ih =>
    intro cs hlen h
    rcases cs with _ | ⟨c, rest⟩
    · rfl
    · by_cases hq : c = '"'
      · exact absurd ((specStopAt_zero c rest).mpr hq) (h 0)
      · by_cases hb : c = '\\'
        · subst hb
          rcases rest with _ | ⟨r, rest2⟩
          · exact stringScan_bs1
          · rw [stringScan_cons_bs2]
            have hrec := ih rest2 (by simp at hlen ⊢; omega) (fun j hj =>
              h (j + 2) ((specStopAt_shift2 r rest2 j).mpr hj))
            rw [hrec]
            simp only [List.length_cons]
            omega
        · rw [stringScan_cons_plain c rest hq hb]
          have hrec := ih rest (by simp at hlen ⊢; omega) (fun j hj =>
            h (j + 1) ((specStopAt_shift1 c rest j hb).mpr hj))
          rw [hrec]
          simp only [List.length_cons]
          omega

lemma stringScan_min_stop : ∀ (n : Nat) (cs : List Char) (j : Nat), cs.length ≤ n →
    specStopAt cs j → (∀ i, i < j → ¬ specStopAt cs i) → stringScan false cs = j := by
  intro n
  induction n with
  | zero =>
    intro cs j hlen hstop hmin
    rw [List.length_eq_zero.mp (Nat.le_zero.mp hlen)] at hstop
    exact absurd hstop.1 (by simp)
  | succ n ih =>
    intro cs j hlen hstop hmin
    rcases cs with _ | ⟨c, rest⟩
    · exact absurd hstop.1 (by simp)
    · by_cases hq : c = '"'
      · subst hq
        have hj0 : j = 0 := by
          by_contra hne
          exact hmin 0 (Nat.pos_of_ne_zero hne) ((specStopAt_zero '"' rest).mpr rfl)
        rw [hj0, stringScan_cons_quote]
      · by_cases hb : c = '\\'
        · subst hb
          rcases rest with _ | ⟨r, rest2⟩
          · rcases j with _ | j2
            · exact absurd ((specStopAt_zero '\\' []).mp hstop) (by decide)
            · have hnone := hstop.1
              rw [List.getElem?_cons_succ] at hnone
              simp at hnone
          · rcases j with _ | ⟨_ | j2⟩
            · exact absurd ((specStopAt_zero '\\' (r :: rest2)).mp hstop) (by decide)
            · exact absurd hstop (specStopAt_one_bs r rest2)
            · rw [stringScan_cons_bs2]
              have hrec := ih rest2 j2 (by simp at hlen ⊢; omega)
                ((specStopAt_shift2 r rest2 j2).mp hstop)
                (fun i hi hsp => hmin (i + 2) (by omega)
                  ((specStopAt_shift2 r rest2 i).mpr hsp))
              omega
        · rcases j with _ | j1
          · rw [(specStopAt_zero c rest).mp hstop] at hq
            exact absurd rfl hq
          · rw [stringScan_cons_plain c rest hq hb]
            have hrec := ih rest j1 (by simp at hlen ⊢; omega)
              ((specStopAt_shift1 c rest j1 hb).mp hstop)
              (fun i hi hsp => hmin (i + 1) (by omega)
                ((specStopAt_shift1 c rest i hb).mpr hsp))
            omega

lemma next_eq_string (st : Lexer)
    (hm : st.mode = LexMode.Math ∨ st.mode = LexMode.Code)
    (hc : charAt st.input st.cursor = some '"') :
    Lexer.next st =
      string { st with newline := false, error := none, cursor := st.cursor + 1 } := by
  rcases hm with h | h
  · unfold Lexer.next
    rw [if_neg (by simp [h])]
    simp only [hc, h, math]
    simp [is_space, is_newline, rustWhitespace]
  · unfold Lexer.next
    rw [if_neg (by simp [h])]
    simp only [hc, h, code]
    rw [if_neg (by decide), if_neg (by simp), if_neg (by simp), if_neg (by simp),
        if_neg (by simp), if_neg (by simp), if_neg (by decide), if_neg (by simp)]
    simp

/-- C8: starting after an opening `"` in Math or Code, the lexer consumes
characters up to the first `"` that is not immediately preceded by an odd
number of backslashes; if such a closing quote exists (at index `j` of the
remaining input, with no earlier such quote) it is consumed and the kind is
`Str`; otherwise the whole rest is consumed and the kind is `Error` with
message "unclosed string". -/
theorem c8_string_literal (st : Lexer)
    (hm : st.mode = LexMode.Math ∨ st.mode = LexMode.Code)
    (hc : charAt st.input st.cursor = some '"') :
    ((∀ j, ¬ specStopAt (st.input.drop (st.cursor + 1)) j) →
      (Lexer.next st).1 = SyntaxKind.Error ∧
      (Lexer.next st).2.error = some "unclosed string" ∧
      (Lexer.next st).2.cursor = st.input.length) ∧
    (∀ j, specStopAt (st.input.drop (st.cursor + 1)) j →
      (∀ i, i < j → ¬ specStopAt (st.input.drop (st.cursor + 1)) i) →
      (Lexer.next st).1 = SyntaxKind.Str ∧
      (Lexer.next st).2.cursor = st.cursor + 1 + j + 1) := by
  have hlt : st.cursor < st.input.length := by
    by_contra hge
    rw [(charAt_none_iff st.input st.cursor).mpr (by omega)] at hc
    exact Option.noConfusion hc
  rw [next_eq_string st hm hc]
  unfold string
  dsimp only
  constructor
  · intro hno
    have hn : stringScan false (st.input.drop (st.cursor + 1)) =
        (st.input.drop (st.cursor + 1)).length :=
      stringScan_no_stop (st.input.drop (st.cursor + 1)).length _ le_rfl hno
    have hlen : (st.input.drop (st.cursor + 1)).length = st.input.length - (st.cursor + 1) :=
      List.length_drop _ _
    have harith : st.cursor + 1 + stringScan false (st.input.drop (st.cursor + 1)) =
        st.input.length := by
      rw [hn, hlen]
      omega
    rw [harith]
    rw [if_neg (by rw [(charAt_none_iff st.input st.input.length).mpr le_rfl]; simp)]
    exact ⟨rfl, rfl, rfl⟩
  · intro j hstop hmin
    have hn : stringScan false (st.input.drop (st.cursor + 1)) = j :=
      stringScan_min_stop (st.input.drop (st.cursor + 1)).length _ j le_rfl hstop hmin
    rw [hn]
    have hch : charAt st.input (st.cursor + 1 + j) = some '"' := by
      unfold charAt
      rw [drop_total, List.head?_drop]
      exact hstop.1
    rw [if_pos hch]
    exact ⟨rfl, rfl⟩

/-- Witness for C8: in Code, `"a\"b"` closes at the final quote (index 4 of
the remaining input), skipping the backslash-escaped quote, by the theorem. -/
theorem c8_witness :
    (Lexer.next { input := ['"', 'a', '\\', '"', 'b', '"'], cursor := 0, mode := LexMode.Code, newline := false, raw := [], error := none }).1 = SyntaxKind.Str ∧
    (Lexer.next { input := ['"', 'a', '\\', '"', 'b', '"'], cursor := 0, mode := LexMode.Code, newline := false, raw := [], error := none }).2.cursor = 0 + 1 + 4 + 1 :=
  (c8_string_literal { input := ['"', 'a', '\\', '"', 'b', '"'], cursor := 0, mode := LexMode.Code, newline := false, raw := [], error := none }
    (Or.inr rfl) rfl).2 4 (by constructor <;> decide)
    (by intro i hi hsp
        rcases hsp with ⟨h1, h2⟩
        interval_cases i <;> revert h1 h2 <;> decide)

lemma next_eq_math (st : Lexer) (c : Char)
    (hm : st.mode = LexMode.Math)
    (hc : charAt st.input st.cursor = some c)
    (hs : is_space c st.mode = false)
    (h1 : ¬ (c = '/' ∧ charAt st.input (st.cursor + 1) = some '/'))
    (h2 : ¬ (c = '/' ∧ charAt st.input (st.cursor + 1) = some '*'))
    (h3 : ¬ (c = '*' ∧ charAt st.input (st.cursor + 1) = some '/')) :
    Lexer.next st =
      math { st with newline := false, error := none, cursor := st.cursor + 1 }
        st.cursor c := by
  unfold Lexer.next
  rw [if_neg (by simp [hm])]
  simp only [hc]
  simp only [hm] at hs ⊢
  simp [hs, h1, h2, h3]

lemma strAt_cons_shift (text : List Char) (i : Nat) (c : Char) (pat rest : List Char)
    (hdrop : text.drop i = c :: rest)
    (harm : strAt text (i + 1) pat = true) : strAt text i (c :: pat) = true := by
  unfold strAt at harm ⊢
  rw [hdrop]
  rw [drop_total text i 1, hdrop] at harm
  simp only [List.drop_succ_cons, List.drop_zero] at harm
  simp [List.isPrefixOf, harm]

/-- C1: in Math mode, when a multi-character shorthand from the table matches
at the cursor and no longer table entry also matches there, `next` returns
`Shorthand` and advances the cursor by exactly the length of that longest
match. -/
theorem c1_math_shorthand_longest (st : Lexer) (msh : List Char)
    (hm : st.mode = LexMode.Math)
    (hmem : msh ∈ mathMultiShorthands)
    (hpre : strAt st.input st.cursor msh = true)
    (hmax : ∀ m, m ∈ mathMultiShorthands → strAt st.input st.cursor m = true →
      m.length ≤ msh.length) :
    (Lexer.next st).1 = SyntaxKind.Shorthand ∧
    (Lexer.next st).2.cursor = st.cursor + msh.length := by
  unfold strAt at hpre
  simp only [mathMultiShorthands, List.mem_cons, List.not_mem_nil, or_false] at hmem
  rcases hmem with rfl | rfl | rfl | rfl | rfl | rfl | rfl | rfl | rfl | rfl | rfl | rfl | rfl | rfl | rfl | rfl | rfl | rfl | rfl | rfl | rfl | rfl | rfl | rfl | rfl | rfl | rfl | rfl | rfl | rfl | rfl | rfl | rfl | rfl | rfl
  · -- msh = '->>'
    obtain ⟨rest, hpre2⟩ := List.isPrefixOf_iff_prefix.mp hpre
    have hdrop : st.input.drop st.cursor = '-' :: '>' :: '>' :: rest := hpre2.symm
    have hc : charAt st.input st.cursor = some '-' := by
      unfold charAt; rw [hdrop]; rfl
    have hdT : st.input.drop (st.cursor + 1) = '>' :: '>' :: rest := by
      rw [drop_total st.input st.cursor 1, hdrop]; rfl
    have hch1 : charAt st.input (st.cursor + 1) = some '>' := by
      unfold charAt; rw [hdT]; rfl
    have hfire : strAt st.input (st.cursor + 1) ['>', '>'] = true := by
      unfold strAt; rw [hdT]; simp [List.isPrefixOf]
    show (Lexer.next st).1 = SyntaxKind.Shorthand ∧ (Lexer.next st).2.cursor = st.cursor + 3
    rw [next_eq_math st '-' hm hc (by rw [hm]; decide) (by simp) (by simp) (by simp)]
    unfold math
    simp only [reduceCtorEq, Char.reduceEq, false_and, true_and, and_false, and_true,
      if_false, if_true, reduceIte, hch1, hfire, Option.some.injEq, Bool.false_eq_true]
  · -- msh = '->'
    obtain ⟨rest, hpre2⟩ := List.isPrefixOf_iff_prefix.mp hpre
    have hdrop : st.input.drop st.cursor = '-' :: '>' :: rest := hpre2.symm
    have hc : charAt st.input st.cursor = some '-' := by
      unfold charAt; rw [hdrop]; rfl
    have hdT : st.input.drop (st.cursor + 1) = '>' :: rest := by
      rw [drop_total st.input st.cursor 1, hdrop]; rfl
    have hch1 : charAt st.input (st.cursor + 1) = some '>' := by
      unfold charAt; rw [hdT]; rfl
    have hneg1 : strAt st.input (st.cursor + 1) ['>', '>'] = false := by
      rw [← Bool.not_eq_true]; intro harm
      have hfull := strAt_cons_shift st.input st.cursor '-' ['>', '>'] ('>' :: rest) hdrop harm
      have hlen := hmax ['-', '>', '>'] (by decide) hfull
      simp at hlen
    show (Lexer.next st).1 = SyntaxKind.Shorthand ∧ (Lexer.next st).2.cursor = st.cursor + 2
    rw [next_eq_math st '-' hm hc (by rw [hm]; decide) (by simp) (by simp) (by simp)]
    unfold math
    simp only [reduceCtorEq, Char.reduceEq, false_and, true_and, and_false, and_true,
      if_false, if_true, reduceIte, hch1, hneg1, Option.some.injEq, Bool.false_eq_true]
  · -- msh = '-->'
    obtain ⟨rest, hpre2⟩ := List.isPrefixOf_iff_prefix.mp hpre
    have hdrop : st.input.drop st.cursor = '-' :: '-' :: '>' :: rest := hpre2.symm
    have hc : charAt st.input st.cursor = some '-' := by
      unfold charAt; rw [hdrop]; rfl
    have hdT : st.input.drop (st.cursor + 1) = '-' :: '>' :: rest := by
      rw [drop_total st.input st.cursor 1, hdrop]; rfl
    have hch1 : charAt st.input (st.cursor + 1) = some '-' := by
      unfold charAt; rw [hdT]; rfl
    have haut1 : strAt st.input (st.cursor + 1) ['>', '>'] = false := by
      unfold strAt; rw [hdT]; simp [List.isPrefixOf]
    have hfire : strAt st.input (st.cursor + 1) ['-', '>'] = true := by
      unfold strAt; rw [hdT]; simp [List.isPrefixOf]
    show (Lexer.next st).1 = SyntaxKind.Shorthand ∧ (Lexer.next st).2.cursor = st.cursor + 3
    rw [next_eq_math st '-' hm hc (by rw [hm]; decide) (by simp) (by simp) (by simp)]
    unfold math
    simp only [reduceCtorEq, Char.reduceEq, false_and, true_and, and_false, and_true,
      if_false, if_true, reduceIte, hch1, haut1, hfire, Option.some.injEq, Bool.false_eq_true]
  · -- msh = ':='
    obtain ⟨rest, hpre2⟩ := List.isPrefixOf_iff_prefix.mp hpre
    have hdrop : st.input.drop st.cursor = ':' :: '=' :: rest := hpre2.symm
    have hc : charAt st.input st.cursor = some ':' := by
      unfold charAt; rw [hdrop]; rfl
    have hdT : st.input.drop (st.cursor + 1) = '=' :: rest := by
      rw [drop_total st.input st.cursor 1, hdrop]; rfl
    have hch1 : charAt st.input (st.cursor + 1) = some '=' := by
      unfold charAt; rw [hdT]; rfl
    show (Lexer.next st).1 = SyntaxKind.Shorthand ∧ (Lexer.next st).2.cursor = st.cursor + 2
    rw [next_eq_math st ':' hm hc (by rw [hm]; decide) (by simp) (by simp) (by simp)]
    unfold math
    simp only [reduceCtorEq, Char.reduceEq, false_and, true_and, and_false, and_true,
      if_false, if_true, reduceIte, hch1, Option.some.injEq, Bool.false_eq_true]
  · -- msh = '::='
    obtain ⟨rest, hpre2⟩ := List.isPrefixOf_iff_prefix.mp hpre
    have hdrop : st.input.drop st.cursor = ':' :: ':' :: '=' :: rest := hpre2.symm
    have hc : charAt st.input st.cursor = some ':' := by
      unfold charAt; rw [hdrop]; rfl
    have hdT : st.input.drop (st.cursor + 1) = ':' :: '=' :: rest := by
      rw [drop_total st.input st.cursor 1, hdrop]; rfl
    have hch1 : charAt st.input (st.cursor + 1) = some ':' := by
      unfold charAt; rw [hdT]; rfl
    have hfire : strAt st.input (st.cursor + 1) [':', '='] = true := by
      unfold strAt; rw [hdT]; simp [List.isPrefixOf]
    show (Lexer.next st).1 = SyntaxKind.Shorthand ∧ (Lexer.next st).2.cursor = st.cursor + 3
    rw [next_eq_math st ':' hm hc (by rw [hm]; decide) (by simp) (by simp) (by simp)]
    unfold math
    simp only [reduceCtorEq, Char.reduceEq, false_and, true_and, and_false, and_true,
      if_false, if_true, reduceIte, hch1, hfire, Option.some.injEq, Bool.false_eq_true]
  · -- msh = '!='
    obtain ⟨rest, hpre2⟩ := List.isPrefixOf_iff_prefix.mp hpre
    have hdrop : st.input.drop st.cursor = '!' :: '=' :: rest := hpre2.symm
    have hc : charAt st.input st.cursor = some '!' := by
      unfold charAt; rw [hdrop]; rfl
    have hdT : st.input.drop (st.cursor + 1) = '=' :: rest := by
      rw [drop_total st.input st.cursor 1, hdrop]; rfl
    have hch1 : charAt st.input (st.cursor + 1) = some '=' := by
      unfold charAt; rw [hdT]; rfl
    show (Lexer.next st).1 = SyntaxKind.Shorthand ∧ (Lexer.next st).2.cursor = st.cursor + 2
    rw [next_eq_math st '!' hm hc (by rw [hm]; decide) (by simp) (by simp) (by simp)]
    unfold math
    simp only [reduceCtorEq, Char.reduceEq, false_and, true_and, and_false, and_true,
      if_false, if_true, reduceIte, hch1, Option.some.injEq, Bool.false_eq_true]
  · -- msh = '...'
    obtain ⟨rest, hpre2⟩ := List.isPrefixOf_iff_prefix.mp hpre
    have hdrop : st.input.drop st.cursor = '.' :: '.' :: '.' :: rest := hpre2.symm
    have hc : charAt st.input st.cursor = some '.' := by
      unfold charAt; rw [hdrop]; rfl
    have hdT : st.input.drop (st.cursor + 1) = '.' :: '.' :: rest := by
      rw [drop_total st.input st.cursor 1, hdrop]; rfl
    have hch1 : charAt st.input (st.cursor + 1) = some '.' := by
      unfold charAt; rw [hdT]; rfl
    have hfire : strAt st.input (st.cursor + 1) ['.', '.'] = true := by
      unfold strAt; rw [hdT]; simp [List.isPrefixOf]
    show (Lexer.next st).1 = SyntaxKind.Shorthand ∧ (Lexer.next st).2.cursor = st.cursor + 3
    rw [next_eq_math st '.' hm hc (by rw [hm]; decide) (by simp) (by simp) (by simp)]
    unfold math
    simp only [reduceCtorEq, Char.reduceEq, false_and, true_and, and_false, and_true,
      if_false, if_true, reduceIte, hch1, hfire, Option.some.injEq, Bool.false_eq_true]
  · -- msh = '[|'
    obtain ⟨rest, hpre2⟩ := List.isPrefixOf_iff_prefix.mp hpre
    have hdrop : st.input.drop st.cursor = '[' :: '|' :: rest := hpre2.symm
    have hc : charAt st.input st.cursor = some '[' := by
      unfold charAt; rw [hdrop]; rfl
    have hdT : st.input.drop (st.cursor + 1) = '|' :: rest := by
      rw [drop_total st.input st.cursor 1, hdrop]; rfl
    have hch1 : charAt st.input (st.cursor + 1) = some '|' := by
      unfold charAt; rw [hdT]; rfl
    show (Lexer.next st).1 = SyntaxKind.Shorthand ∧ (Lexer.next st).2.cursor = st.cursor + 2
    rw [next_eq_math st '[' hm hc (by rw [hm]; decide) (by simp) (by simp) (by simp)]
    unfold math
    simp only [reduceCtorEq, Char.reduceEq, false_and, true_and, and_false, and_true,
      if_false, if_true, reduceIte, hch1, Option.some.injEq, Bool.false_eq_true]
  · -- msh = '<==>'
    obtain ⟨rest, hpre2⟩ := List.isPrefixOf_iff_prefix.mp hpre
    have hdrop : st.input.drop st.cursor = '<' :: '=' :: '=' :: '>' :: rest := hpre2.symm
    have hc : charAt st.input st.cursor = some '<' := by
      unfold charAt; rw [hdrop]; rfl
    have hdT : st.input.drop (st.cursor + 1) = '=' :: '=' :: '>' :: rest := by
      rw [drop_total st.input st.cursor 1, hdrop]; rfl
    have hch1 : charAt st.input (st.cursor + 1) = some '=' := by
      unfold charAt; rw [hdT]; rfl
    have hfire : strAt st.input (st.cursor + 1) ['=', '=', '>'] = true := by
      unfold strAt; rw [hdT]; simp [List.isPrefixOf]
    show (Lexer.next st).1 = SyntaxKind.Shorthand ∧ (Lexer.next st).2.cursor = st.cursor + 4
    rw [next_eq_math st '<' hm hc (by rw [hm]; decide) (by simp) (by simp) (by simp)]
    unfold math
    simp only [reduceCtorEq, Char.reduceEq, false_and, true_and, and_false, and_true,
      if_false, if_true, reduceIte, hch1, hfire, Option.some.injEq, Bool.false_eq_true]
  · -- msh = '<-->'
    obtain ⟨rest, hpre2⟩ := List.isPrefixOf_iff_prefix.mp hpre
    have hdrop : st.input.drop st.cursor = '<' :: '-' :: '-' :: '>' :: rest := hpre2.symm
    have hc : charAt st.input st.cursor = some '<' := by
      unfold charAt; rw [hdrop]; rfl
    have hdT : st.input.drop (st.cursor + 1) = '-' :: '-' :: '>' :: rest := by
      rw [drop_total st.input st.cursor 1, hdrop]; rfl
    have hch1 : charAt st.input (st.cursor + 1) = some '-' := by
      unfold charAt; rw [hdT]; rfl
    have haut1 : strAt st.input (st.cursor + 1) ['=', '=', '>'] = false := by
      unfold strAt; rw [hdT]; simp [List.isPrefixOf]
    have hfire : strAt st.input (st.cursor + 1) ['-', '-', '>'] = true := by
      unfold strAt; rw [hdT]; simp [List.isPrefixOf]
    show (Lexer.next st).1 = SyntaxKind.Shorthand ∧ (Lexer.next st).2.cursor = st.cursor + 4
    rw [next_eq_math st '<' hm hc (by rw [hm]; decide) (by simp) (by simp) (by simp)]
    unfold math
    simp only [reduceCtorEq, Char.reduceEq, false_and, true_and, and_false, and_true,
      if_false, if_true, reduceIte, hch1, haut1, hfire, Option.some.injEq, Bool.false_eq_true]
  · -- msh = '<--'
    obtain ⟨rest, hpre2⟩ := List.isPrefixOf_iff_prefix.mp hpre
    have hdrop : st.input.drop st.cursor = '<' :: '-' :: '-' :: rest := hpre2.symm
    have hc : charAt st.input st.cursor = some '<' := by
      unfold charAt; rw [hdrop]; rfl
    have hdT : st.input.drop (st.cursor + 1) = '-' :: '-' :: rest := by
      rw [drop_total st.input st.cursor 1, hdrop]; rfl
    have hch1 : charAt st.input (st.cursor + 1) = some '-' := by
      unfold charAt; rw [hdT]; rfl
    have haut1 : strAt st.input (st.cursor + 1) ['=', '=', '>'] = false := by
      unfold strAt; rw [hdT]; simp [List.isPrefixOf]
    have hneg1 : strAt st.input (st.cursor + 1) ['-', '-', '>'] = false := by
      rw [← Bool.not_eq_true]; intro harm
      have hfull := strAt_cons_shift st.input st.cursor '<' ['-', '-', '>'] ('-' :: '-' :: rest) hdrop harm
      have hlen := hmax ['<', '-', '-', '>'] (by decide) hfull
      simp at hlen
    have hfire : strAt st.input (st.cursor + 1) ['-', '-'] = true := by
      unfold strAt; rw [hdT]; simp [List.isPrefixOf]
    show (Lexer.next st).1 = SyntaxKind.Shorthand ∧ (Lexer.next st).2.cursor = st.cursor + 3
    rw [next_eq_math st '<' hm hc (by rw [hm]; decide) (by simp) (by simp) (by simp)]
    unfold math
    simp only [reduceCtorEq, Char.reduceEq, false_and, true_and, and_false, and_true,
      if_false, if_true, reduceIte, hch1, haut1, hneg1, hfire, Option.some.injEq, Bool.false_eq_true]
  · -- msh = '<-<'
    obtain ⟨rest, hpre2⟩ := List.isPrefixOf_iff_prefix.mp hpre
    have hdrop : st.input.drop st.cursor = '<' :: '-' :: '<' :: rest := hpre2.symm
    have hc : charAt st.input st.cursor = some '<' := by
      unfold charAt; rw [hdrop]; rfl
    have hdT : st.input.drop (st.cursor + 1) = '-' :: '<' :: rest := by
      rw [drop_total st.input st.cursor 1, hdrop]; rfl
    have hch1 : charAt st.input (st.cursor + 1) = some '-' := by
      unfold charAt; rw [hdT]; rfl
    have haut1 : strAt st.input (st.cursor + 1) ['=', '=', '>'] = false := by
      unfold strAt; rw [hdT]; simp [List.isPrefixOf]
    have haut2 : strAt st.input (st.cursor + 1) ['-', '-', '>'] = false := by
      unfold strAt; rw [hdT]; simp [List.isPrefixOf]
    have haut3 : strAt st.input (st.cursor + 1) ['-', '-'] = false := by
      unfold strAt; rw [hdT]; simp [List.isPrefixOf]
    have hfire : strAt st.input (st.cursor + 1) ['-', '<'] = true := by
      unfold strAt; rw [hdT]; simp [List.isPrefixOf]
    show (Lexer.next st).1 = SyntaxKind.Shorthand ∧ (Lexer.next st).2.cursor = st.cursor + 3
    rw [next_eq_math st '<' hm hc (by rw [hm]; decide) (by simp) (by simp) (by simp)]
    unfold math
    simp only [reduceCtorEq, Char.reduceEq, false_and, true_and, and_false, and_true,
      if_false, if_true, reduceIte, hch1, haut1, haut2, haut3, hfire, Option.some.injEq, Bool.false_eq_true]
  · -- msh = '<->'
    obtain ⟨rest, hpre2⟩ := List.isPrefixOf_iff_prefix.mp hpre
    have hdrop : st.input.drop st.cursor = '<' :: '-' :: '>' :: rest := hpre2.symm
    have hc : charAt st.input st.cursor = some '<' := by
      unfold charAt; rw [hdrop]; rfl
    have hdT : st.input.drop (st.cursor + 1) = '-' :: '>' :: rest := by
      rw [drop_total st.input st.cursor 1, hdrop]; rfl
    have hch1 : charAt st.input (st.cursor + 1) = some '-' := by
      unfold charAt; rw [hdT]; rfl
    have haut1 : strAt st.input (st.cursor + 1) ['=', '=', '>'] = false := by
      unfold strAt; rw [hdT]; simp [List.isPrefixOf]
    have haut2 : strAt st.input (st.cursor + 1) ['-', '-', '>'] = false := by
      unfold strAt; rw [hdT]; simp [List.isPrefixOf]
    have haut3 : strAt st.input (st.cursor + 1) ['-', '-'] = false := by
      unfold strAt; rw [hdT]; simp [List.isPrefixOf]
    have haut4 : strAt st.input (st.cursor + 1) ['-', '<'] = false := by
      unfold strAt; rw [hdT]; simp [List.isPrefixOf]
    have hfire : strAt st.input (st.cursor + 1) ['-', '>'] = true := by
      unfold strAt; rw [hdT]; simp [List.isPrefixOf]
    show (Lexer.next st).1 = SyntaxKind.Shorthand ∧ (Lexer.next st).2.cursor = st.cursor + 3
    rw [next_eq_math st '<' hm hc (by rw [hm]; decide) (by simp) (by simp) (by simp)]
    unfold math
    simp only [reduceCtorEq, Char.reduceEq, false_and, true_and, and_false, and_true,
      if_false, if_true, reduceIte, hch1, haut1, haut2, haut3, haut4, hfire, Option.some.injEq, Bool.false_eq_true]
  · -- msh = '<<-'
    obtain ⟨rest, hpre2⟩ := List.isPrefixOf_iff_prefix.mp hpre
    have hdrop : st.input.drop st.cursor = '<' :: '<' :: '-' :: rest := hpre2.symm
    have hc : charAt st.input st.cursor = some '<' := by
      unfold charAt; rw [hdrop]; rfl
    have hdT : st.input.drop (st.cursor + 1) = '<' :: '-' :: rest := by
      rw [drop_total st.input st.cursor 1, hdrop]; rfl
    have hch1 : charAt st.input (st.cursor + 1) = some '<' := by
      unfold charAt; rw [hdT]; rfl
    have haut1 : strAt st.input (st.cursor + 1) ['=', '=', '>'] = false := by
      unfold strAt; rw [hdT]; simp [List.isPrefixOf]
    have haut2 : strAt st.input (st.cursor + 1) ['-', '-', '>'] = false := by
      unfold strAt; rw [hdT]; simp [List.isPrefixOf]
    have haut3 : strAt st.input (st.cursor + 1) ['-', '-'] = false := by
      unfold strAt; rw [hdT]; simp [List.isPrefixOf]
    have haut4 : strAt st.input (st.cursor + 1) ['-', '<'] = false := by
      unfold strAt; rw [hdT]; simp [List.isPrefixOf]
    have haut5 : strAt st.input (st.cursor + 1) ['-', '>'] = false := by
      unfold strAt; rw [hdT]; simp [List.isPrefixOf]
    have hfire : strAt st.input (st.cursor + 1) ['<', '-'] = true := by
      unfold strAt; rw [hdT]; simp [List.isPrefixOf]
    show (Lexer.next st).1 = SyntaxKind.Shorthand ∧ (Lexer.next st).2.cursor = st.cursor + 3
    rw [next_eq_math st '<' hm hc (by rw [hm]; decide) (by simp) (by simp) (by simp)]
    unfold math
    simp only [reduceCtorEq, Char.reduceEq, false_and, true_and, and_false, and_true,
      if_false, if_true, reduceIte, hch1, haut1, haut2, haut3, haut4, haut5, hfire, Option.some.injEq, Bool.false_eq_true]
  · -- msh = '<<<'
    obtain ⟨rest, hpre2⟩ := List.isPrefixOf_iff_prefix.mp hpre
    have hdrop : st.input.drop st.cursor = '<' :: '<' :: '<' :: rest := hpre2.symm
    have hc : charAt st.input st.cursor = some '<' := by
      unfold charAt; rw [hdrop]; rfl
    have hdT : st.input.drop (st.cursor + 1) = '<' :: '<' :: rest := by
      rw [drop_total st.input st.cursor 1, hdrop]; rfl
    have hch1 : charAt st.input (st.cursor + 1) = some '<' := by
      unfold charAt; rw [hdT]; rfl
    have haut1 : strAt st.input (st.cursor + 1) ['=', '=', '>'] = false := by
      unfold strAt; rw [hdT]; simp [List.isPrefixOf]
    have haut2 : strAt st.input (st.cursor + 1) ['-', '-', '>'] = false := by
      unfold strAt; rw [hdT]; simp [List.isPrefixOf]
    have haut3 : strAt st.input (st.cursor + 1) ['-', '-'] = false := by
      unfold strAt; rw [hdT]; simp [List.isPrefixOf]
    have haut4 : strAt st.input (st.cursor + 1) ['-', '<'] = false := by
      unfold strAt; rw [hdT]; simp [List.isPrefixOf]
    have haut5 : strAt st.input (st.cursor + 1) ['-', '>'] = false := by
      unfold strAt; rw [hdT]; simp [List.isPrefixOf]
    have haut6 : strAt st.input (st.cursor + 1) ['<', '-'] = false := by
      unfold strAt; rw [hdT]; simp [List.isPrefixOf]
    have hfire : strAt st.input (st.cursor + 1) ['<', '<'] = true := by
      unfold strAt; rw [hdT]; simp [List.isPrefixOf]
    show (Lexer.next st).1 = SyntaxKind.Shorthand ∧ (Lexer.next st).2.cursor = st.cursor + 3
    rw [next_eq_math st '<' hm hc (by rw [hm]; decide) (by simp) (by simp) (by simp)]
    unfold math
    simp only [reduceCtorEq, Char.reduceEq, false_and, true_and, and_false, and_true,
      if_false, if_true, reduceIte, hch1, haut1, haut2, haut3, haut4, haut5, haut6, hfire, Option.some.injEq, Bool.false_eq_true]
  · -- msh = '<=>'
    obtain ⟨rest, hpre2⟩ := List.isPrefixOf_iff_prefix.mp hpre
    have hdrop : st.input.drop st.cursor = '<' :: '=' :: '>' :: rest := hpre2.symm
    have hc : charAt st.input st.cursor = some '<' := by
      unfold charAt; rw [hdrop]; rfl
    have hdT : st.input.drop (st.cursor + 1) = '=' :: '>' :: rest := by
      rw [drop_total st.input st.cursor 1, hdrop]; rfl
    have hch1 : charAt st.input (st.cursor + 1) = some '=' := by
      unfold charAt; rw [hdT]; rfl
    have haut1 : strAt st.input (st.cursor + 1) ['=', '=', '>'] = false := by
      unfold strAt; rw [hdT]; simp [List.isPrefixOf]
    have haut2 : strAt st.input (st.cursor + 1) ['-', '-', '>'] = false := by
      unfold strAt; rw [hdT]; simp [List.isPrefixOf]
    have haut3 : strAt st.input (st.cursor + 1) ['-', '-'] = false := by
      unfold strAt; rw [hdT]; simp [List.isPrefixOf]
    have haut4 : strAt st.input (st.cursor + 1) ['-', '<'] = false := by
      unfold strAt; rw [hdT]; simp [List.isPrefixOf]
    have haut5 : strAt st.input (st.cursor + 1) ['-', '>'] = false := by
      unfold strAt; rw [hdT]; simp [List.isPrefixOf]
    have haut6 : strAt st.input (st.cursor + 1) ['<', '-'] = false := by
      unfold strAt; rw [hdT]; simp [List.isPrefixOf]
    have haut7 : strAt st.input (st.cursor + 1) ['<', '<'] = false := by
      unfold strAt; rw [hdT]; simp [List.isPrefixOf]
    have hfire : strAt st.input (st.cursor + 1) ['=', '>'] = true := by
      unfold strAt; rw [hdT]; simp [List.isPrefixOf]
    show (Lexer.next st).1 = SyntaxKind.Shorthand ∧ (Lexer.next st).2.cursor = st.cursor + 3
    rw [next_eq_math st '<' hm hc (by rw [hm]; decide) (by simp) (by simp) (by simp)]
    unfold math
    simp only [reduceCtorEq, Char.reduceEq, false_and, true_and, and_false, and_true,
      if_false, if_true, reduceIte, hch1, haut1, haut2, haut3, haut4, haut5, haut6, haut7, hfire, Option.some.injEq, Bool.false_eq_true]
  · -- msh = '<=='
    obtain ⟨rest, hpre2⟩ := List.isPrefixOf_iff_prefix.mp hpre
    have hdrop : st.input.drop st.cursor = '<' :: '=' :: '=' :: rest := hpre2.symm
    have hc : charAt st.input st.cursor = some '<' := by
      unfold charAt; rw [hdrop]; rfl
    have hdT : st.input.drop (st.cursor + 1) = '=' :: '=' :: rest := by
      rw [drop_total st.input st.cursor 1, hdrop]; rfl
    have hch1 : charAt st.input (st.cursor + 1) = some '=' := by
      unfold charAt; rw [hdT]; rfl
    have hneg1 : strAt st.input (st.cursor + 1) ['=', '=', '>'] = false := by
      rw [← Bool.not_eq_true]; intro harm
      have hfull := strAt_cons_shift st.input st.cursor '<' ['=', '=', '>'] ('=' :: '=' :: rest) hdrop harm
      have hlen := hmax ['<', '=', '=', '>'] (by decide) hfull
      simp at hlen
    have haut1 : strAt st.input (st.cursor + 1) ['-', '-', '>'] = false := by
      unfold strAt; rw [hdT]; simp [List.isPrefixOf]
    have haut2 : strAt st.input (st.cursor + 1) ['-', '-'] = false := by
      unfold strAt; rw [hdT]; simp [List.isPrefixOf]
    have haut3 : strAt st.input (st.cursor + 1) ['-', '<'] = false := by
      unfold strAt; rw [hdT]; simp [List.isPrefixOf]
    have haut4 : strAt st.input (st.cursor + 1) ['-', '>'] = false := by
      unfold strAt; rw [hdT]; simp [List.isPrefixOf]
    have haut5 : strAt st.input (st.cursor + 1) ['<', '-'] = false := by
      unfold strAt; rw [hdT]; simp [List.isPrefixOf]
    have haut6 : strAt st.input (st.cursor + 1) ['<', '<'] = false := by
      unfold strAt; rw [hdT]; simp [List.isPrefixOf]
    have haut7 : strAt st.input (st.cursor + 1) ['=', '>'] = false := by
      unfold strAt; rw [hdT]; simp [List.isPrefixOf]
    have hfire : strAt st.input (st.cursor + 1) ['=', '='] = true := by
      unfold strAt; rw [hdT]; simp [List.isPrefixOf]
    show (Lexer.next st).1 = SyntaxKind.Shorthand ∧ (Lexer.next st).2.cursor = st.cursor + 3
    rw [next_eq_math st '<' hm hc (by rw [hm]; decide) (by simp) (by simp) (by simp)]
    unfold math
    simp only [reduceCtorEq, Char.reduceEq, false_and, true_and, and_false, and_true,
      if_false, if_true, reduceIte, hch1, hneg1, haut1, haut2, haut3, haut4, haut5, haut6, haut7, hfire, Option.some.injEq, Bool.false_eq_true]
  · -- msh = '<~~'
    obtain ⟨rest, hpre2⟩ := List.isPrefixOf_iff_prefix.mp hpre
    have hdrop : st.input.drop st.cursor = '<' :: '~' :: '~' :: rest := hpre2.symm
    have hc : charAt st.input st.cursor = some '<' := by
      unfold charAt; rw [hdrop]; rfl
    have hdT : st.input.drop (st.cursor + 1) = '~' :: '~' :: rest := by
      rw [drop_total st.input st.cursor 1, hdrop]; rfl
    have hch1 : charAt st.input (st.cursor + 1) = some '~' := by
      unfold charAt; rw [hdT]; rfl
    have haut1 : strAt st.input (st.cursor + 1) ['=', '=', '>'] = false := by
      unfold strAt; rw [hdT]; simp [List.isPrefixOf]
    have haut2 : strAt st.input (st.cursor + 1) ['-', '-', '>'] = false := by
      unfold strAt; rw [hdT]; simp [List.isPrefixOf]
    have haut3 : strAt st.input (st.cursor + 1) ['-', '-'] = false := by
      unfold strAt; rw [hdT]; simp [List.isPrefixOf]
    have haut4 : strAt st.input (st.cursor + 1) ['-', '<'] = false := by
      unfold strAt; rw [hdT]; simp [List.isPrefixOf]
    have haut5 : strAt st.input (st.cursor + 1) ['-', '>'] = false := by
      unfold strAt; rw [hdT]; simp [List.isPrefixOf]
    have haut6 : strAt st.input (st.cursor + 1) ['<', '-'] = false := by
      unfold strAt; rw [hdT]; simp [List.isPrefixOf]
    have haut7 : strAt st.input (st.cursor + 1) ['<', '<'] = false := by
      unfold strAt; rw [hdT]; simp [List.isPrefixOf]
    have haut8 : strAt st.input (st.cursor + 1) ['=', '>'] = false := by
      unfold strAt; rw [hdT]; simp [List.isPrefixOf]
    have haut9 : strAt st.input (st.cursor + 1) ['=', '='] = false := by
      unfold strAt; rw [hdT]; simp [List.isPrefixOf]
    have hfire : strAt st.input (st.cursor + 1) ['~', '~'] = true := by
      unfold strAt; rw [hdT]; simp [List.isPrefixOf]
    show (Lexer.next st).1 = SyntaxKind.Shorthand ∧ (Lexer.next st).2.cursor = st.cursor + 3
    rw [next_eq_math st '<' hm hc (by rw [hm]; decide) (by simp) (by simp) (by simp)]
    unfold math
    simp only [reduceCtorEq, Char.reduceEq, false_and, true_and, and_false, and_true,
      if_false, if_true, reduceIte, hch1, haut1, haut2, haut3, haut4, haut5, haut6, haut7, haut8, haut9, hfire, Option.some.injEq, Bool.false_eq_true]
  · -- msh = '<='
    obtain ⟨rest, hpre2⟩ := List.isPrefixOf_iff_prefix.mp hpre
    have hdrop : st.input.drop st.cursor = '<' :: '=' :: rest := hpre2.symm
    have hc : charAt st.input st.cursor = some '<' := by
      unfold charAt; rw [hdrop]; rfl
    have hdT : st.input.drop (st.cursor + 1) = '=' :: rest := by
      rw [drop_total st.input st.cursor 1, hdrop]; rfl
    have hch1 : charAt st.input (st.cursor + 1) = some '=' := by
      unfold charAt; rw [hdT]; rfl
    have hneg1 : strAt st.input (st.cursor + 1) ['=', '=', '>'] = false := by
      rw [← Bool.not_eq_true]; intro harm
      have hfull := strAt_cons_shift st.input st.cursor '<' ['=', '=', '>'] ('=' :: rest) hdrop harm
      have hlen := hmax ['<', '=', '=', '>'] (by decide) hfull
      simp at hlen
    have haut1 : strAt st.input (st.cursor + 1) ['-', '-', '>'] = false := by
      unfold strAt; rw [hdT]; simp [List.isPrefixOf]
    have haut2 : strAt st.input (st.cursor + 1) ['-', '-'] = false := by
      unfold strAt; rw [hdT]; simp [List.isPrefixOf]
    have haut3 : strAt st.input (st.cursor + 1) ['-', '<'] = false := by
      unfold strAt; rw [hdT]; simp [List.isPrefixOf]
    have haut4 : strAt st.input (st.cursor + 1) ['-', '>'] = false := by
      unfold strAt; rw [hdT]; simp [List.isPrefixOf]
    have haut5 : strAt st.input (st.cursor + 1) ['<', '-'] = false := by
      unfold strAt; rw [hdT]; simp [List.isPrefixOf]
    have haut6 : strAt st.input (st.cursor + 1) ['<', '<'] = false := by
      unfold strAt; rw [hdT]; simp [List.isPrefixOf]
    have hneg2 : strAt st.input (st.cursor + 1) ['=', '>'] = false := by
      rw [← Bool.not_eq_true]; intro harm
      have hfull := strAt_cons_shift st.input st.cursor '<' ['=', '>'] ('=' :: rest) hdrop harm
      have hlen := hmax ['<', '=', '>'] (by decide) hfull
      simp at hlen
    have hneg3 : strAt st.input (st.cursor + 1) ['=', '='] = false := by
      rw [← Bool.not_eq_true]; intro harm
      have hfull := strAt_cons_shift st.input st.cursor '<' ['=', '='] ('=' :: rest) hdrop harm
      have hlen := hmax ['<', '=', '='] (by decide) hfull
      simp at hlen
    have haut7 : strAt st.input (st.cursor + 1) ['~', '~'] = false := by
      unfold strAt; rw [hdT]; simp [List.isPrefixOf]
    show (Lexer.next st).1 = SyntaxKind.Shorthand ∧ (Lexer.next st).2.cursor = st.cursor + 2
    rw [next_eq_math st '<' hm hc (by rw [hm]; decide) (by simp) (by simp) (by simp)]
    unfold math
    simp only [reduceCtorEq, Char.reduceEq, false_and, true_and, and_false, and_true,
      if_false, if_true, reduceIte, hch1, hneg1, haut1, haut2, haut3, haut4, haut5, haut6, hneg2, hneg3, haut7, Option.some.injEq, Bool.false_eq_true]
  · -- msh = '<<'
    obtain ⟨rest, hpre2⟩ := List.isPrefixOf_iff_prefix.mp hpre
    have hdrop : st.input.drop st.cursor = '<' :: '<' :: rest := hpre2.symm
    have hc : charAt st.input st.cursor = some '<' := by
      unfold charAt; rw [hdrop]; rfl
    have hdT : st.input.drop (st.cursor + 1) = '<' :: rest := by
      rw [drop_total st.input st.cursor 1, hdrop]; rfl
    have hch1 : charAt st.input (st.cursor + 1) = some '<' := by
      unfold charAt; rw [hdT]; rfl
    have haut1 : strAt st.input (st.cursor + 1) ['=', '=', '>'] = false := by
      unfold strAt; rw [hdT]; simp [List.isPrefixOf]
    have haut2 : strAt st.input (st.cursor + 1) ['-', '-', '>'] = false := by
      unfold strAt; rw [hdT]; simp [List.isPrefixOf]
    have haut3 : strAt st.input (st.cursor + 1) ['-', '-'] = false := by
      unfold strAt; rw [hdT]; simp [List.isPrefixOf]
    have haut4 : strAt st.input (st.cursor + 1) ['-', '<'] = false := by
      unfold strAt; rw [hdT]; simp [List.isPrefixOf]
    have haut5 : strAt st.input (st.cursor + 1) ['-', '>'] = false := by
      unfold strAt; rw [hdT]; simp [List.isPrefixOf]
    have hneg1 : strAt st.input (st.cursor + 1) ['<', '-'] = false := by
      rw [← Bool.not_eq_true]; intro harm
      have hfull := strAt_cons_shift st.input st.cursor '<' ['<', '-'] ('<' :: rest) hdrop harm
      have hlen := hmax ['<', '<', '-'] (by decide) hfull
      simp at hlen
    have hneg2 : strAt st.input (st.cursor + 1) ['<', '<'] = false := by
      rw [← Bool.not_eq_true]; intro harm
      have hfull := strAt_cons_shift st.input st.cursor '<' ['<', '<'] ('<' :: rest) hdrop harm
      have hlen := hmax ['<', '<', '<'] (by decide) hfull
      simp at hlen
    have haut6 : strAt st.input (st.cursor + 1) ['=', '>'] = false := by
      unfold strAt; rw [hdT]; simp [List.isPrefixOf]
    have haut7 : strAt st.input (st.cursor + 1) ['=', '='] = false := by
      unfold strAt; rw [hdT]; simp [List.isPrefixOf]
    have haut8 : strAt st.input (st.cursor + 1) ['~', '~'] = false := by
      unfold strAt; rw [hdT]; simp [List.isPrefixOf]
    show (Lexer.next st).1 = SyntaxKind.Shorthand ∧ (Lexer.next st).2.cursor = st.cursor + 2
    rw [next_eq_math st '<' hm hc (by rw [hm]; decide) (by simp) (by simp) (by simp)]
    unfold math
    simp only [reduceCtorEq, Char.reduceEq, false_and, true_and, and_false, and_true,
      if_false, if_true, reduceIte, hch1, haut1, haut2, haut3, haut4, haut5, hneg1, hneg2, haut6, haut7, haut8, Option.some.injEq, Bool.false_eq_true]
  · -- msh = '<-'
    obtain ⟨rest, hpre2⟩ := List.isPrefixOf_iff_prefix.mp hpre
    have hdrop : st.input.drop st.cursor = '<' :: '-' :: rest := hpre2.symm
    have hc : charAt st.input st.cursor = some '<' := by
      unfold charAt; rw [hdrop]; rfl
    have hdT : st.input.drop (st.cursor + 1) = '-' :: rest := by
      rw [drop_total st.input st.cursor 1, hdrop]; rfl
    have hch1 : charAt st.input (st.cursor + 1) = some '-' := by
      unfold charAt; rw [hdT]; rfl
    have haut1 : strAt st.input (st.cursor + 1) ['=', '=', '>'] = false := by
      unfold strAt; rw [hdT]; simp [List.isPrefixOf]
    have hneg1 : strAt st.input (st.cursor + 1) ['-', '-', '>'] = false := by
      rw [← Bool.not_eq_true]; intro harm
      have hfull := strAt_cons_shift st.input st.cursor '<' ['-', '-', '>'] ('-' :: rest) hdrop harm
      have hlen := hmax ['<', '-', '-', '>'] (by decide) hfull
      simp at hlen
    have hneg2 : strAt st.input (st.cursor + 1) ['-', '-'] = false := by
      rw [← Bool.not_eq_true]; intro harm
      have hfull := strAt_cons_shift st.input st.cursor '<' ['-', '-'] ('-' :: rest) hdrop harm
      have hlen := hmax ['<', '-', '-'] (by decide) hfull
      simp at hlen
    have hneg3 : strAt st.input (st.cursor + 1) ['-', '<'] = false := by
      rw [← Bool.not_eq_true]; intro harm
      have hfull := strAt_cons_shift st.input st.cursor '<' ['-', '<'] ('-' :: rest) hdrop harm
      have hlen := hmax ['<', '-', '<'] (by decide) hfull
      simp at hlen
    have hneg4 : strAt st.input (st.cursor + 1) ['-', '>'] = false := by
      rw [← Bool.not_eq_true]; intro harm
      have hfull := strAt_cons_shift st.input st.cursor '<' ['-', '>'] ('-' :: rest) hdrop harm
      have hlen := hmax ['<', '-', '>'] (by decide) hfull
      simp at hlen
    have haut2 : strAt st.input (st.cursor + 1) ['<', '-'] = false := by
      unfold strAt; rw [hdT]; simp [List.isPrefixOf]
    have haut3 : strAt st.input (st.cursor + 1) ['<', '<'] = false := by
      unfold strAt; rw [hdT]; simp [List.isPrefixOf]
    have haut4 : strAt st.input (st.cursor + 1) ['=', '>'] = false := by
      unfold strAt; rw [hdT]; simp [List.isPrefixOf]
    have haut5 : strAt st.input (st.cursor + 1) ['=', '='] = false := by
      unfold strAt; rw [hdT]; simp [List.isPrefixOf]
    have haut6 : strAt st.input (st.cursor + 1) ['~', '~'] = false := by
      unfold strAt; rw [hdT]; simp [List.isPrefixOf]
    show (Lexer.next st).1 = SyntaxKind.Shorthand ∧ (Lexer.next st).2.cursor = st.cursor + 2
    rw [next_eq_math st '<' hm hc (by rw [hm]; decide) (by simp) (by simp) (by simp)]
    unfold math
    simp only [reduceCtorEq, Char.reduceEq, false_and, true_and, and_false, and_true,
      if_false, if_true, reduceIte, hch1, haut1, hneg1, hneg2, hneg3, hneg4, haut2, haut3, haut4, haut5, haut6, Option.some.injEq, Bool.false_eq_true]
  · -- msh = '<~'
    obtain ⟨rest, hpre2⟩ := List.isPrefixOf_iff_prefix.mp hpre
    have hdrop : st.input.drop st.cursor = '<' :: '~' :: rest := hpre2.symm
    have hc : charAt st.input st.cursor = some '<' := by
      unfold charAt; rw [hdrop]; rfl
    have hdT : st.input.drop (st.cursor + 1) = '~' :: rest := by
      rw [drop_total st.input st.cursor 1, hdrop]; rfl
    have hch1 : charAt st.input (st.cursor + 1) = some '~' := by
      unfold charAt; rw [hdT]; rfl
    have haut1 : strAt st.input (st.cursor + 1) ['=', '=', '>'] = false := by
      unfold strAt; rw [hdT]; simp [List.isPrefixOf]
    have haut2 : strAt st.input (st.cursor + 1) ['-', '-', '>'] = false := by
      unfold strAt; rw [hdT]; simp [List.isPrefixOf]
    have haut3 : strAt st.input (st.cursor + 1) ['-', '-'] = false := by
      unfold strAt; rw [hdT]; simp [List.isPrefixOf]
    have haut4 : strAt st.input (st.cursor + 1) ['-', '<'] = false := by
      unfold strAt; rw [hdT]; simp [List.isPrefixOf]
    have haut5 : strAt st.input (st.cursor + 1) ['-', '>'] = false := by
      unfold strAt; rw [hdT]; simp [List.isPrefixOf]
    have haut6 : strAt st.input (st.cursor + 1) ['<', '-'] = false := by
      unfold strAt; rw [hdT]; simp [List.isPrefixOf]
    have haut7 : strAt st.input (st.cursor + 1) ['<', '<'] = false := by
      unfold strAt; rw [hdT]; simp [List.isPrefixOf]
    have haut8 : strAt st.input (st.cursor + 1) ['=', '>'] = false := by
      unfold strAt; rw [hdT]; simp [List.isPrefixOf]
    have haut9 : strAt st.input (st.cursor + 1) ['=', '='] = false := by
      unfold strAt; rw [hdT]; simp [List.isPrefixOf]
    have hneg1 : strAt st.input (st.cursor + 1) ['~', '~'] = false := by
      rw [← Bool.not_eq_true]; intro harm
      have hfull := strAt_cons_shift st.input st.cursor '<' ['~', '~'] ('~' :: rest) hdrop harm
      have hlen := hmax ['<', '~', '~'] (by decide) hfull
      simp at hlen
    show (Lexer.next st).1 = SyntaxKind.Shorthand ∧ (Lexer.next st).2.cursor = st.cursor + 2
    rw [next_eq_math st '<' hm hc (by rw [hm]; decide) (by simp) (by simp) (by simp)]
    unfold math
    simp only [reduceCtorEq, Char.reduceEq, false_and, true_and, and_false, and_true,
      if_false, if_true, reduceIte, hch1, haut1, haut2, haut3, haut4, haut5, haut6, haut7, haut8, haut9, hneg1, Option.some.injEq, Bool.false_eq_true]
  · -- msh = '>->'
    obtain ⟨rest, hpre2⟩ := List.isPrefixOf_iff_prefix.mp hpre
    have hdrop : st.input.drop st.cursor = '>' :: '-' :: '>' :: rest := hpre2.symm
    have hc : charAt st.input st.cursor = some '>' := by
      unfold charAt; rw [hdrop]; rfl
    have hdT : st.input.drop (st.cursor + 1) = '-' :: '>' :: rest := by
      rw [drop_total st.input st.cursor 1, hdrop]; rfl
    have hch1 : charAt st.input (st.cursor + 1) = some '-' := by
      unfold charAt; rw [hdT]; rfl
    have hfire : strAt st.input (st.cursor + 1) ['-', '>'] = true := by
      unfold strAt; rw [hdT]; simp [List.isPrefixOf]
    show (Lexer.next st).1 = SyntaxKind.Shorthand ∧ (Lexer.next st).2.cursor = st.cursor + 3
    rw [next_eq_math st '>' hm hc (by rw [hm]; decide) (by simp) (by simp) (by simp)]
    unfold math
    simp only [reduceCtorEq, Char.reduceEq, false_and, true_and, and_false, and_true,
      if_false, if_true, reduceIte, hch1, hfire, Option.some.injEq, Bool.false_eq_true]
  · -- msh = '>>>'
    obtain ⟨rest, hpre2⟩ := List.isPrefixOf_iff_prefix.mp hpre
    have hdrop : st.input.drop st.cursor = '>' :: '>' :: '>' :: rest := hpre2.symm
    have hc : charAt st.input st.cursor = some '>' := by
      unfold charAt; rw [hdrop]; rfl
    have hdT : st.input.drop (st.cursor + 1) = '>' :: '>' :: rest := by
      rw [drop_total st.input st.cursor 1, hdrop]; rfl
    have hch1 : charAt st.input (st.cursor + 1) = some '>' := by
      unfold charAt; rw [hdT]; rfl
    have haut1 : strAt st.input (st.cursor + 1) ['-', '>'] = false := by
      unfold strAt; rw [hdT]; simp [List.isPrefixOf]
    have hfire : strAt st.input (st.cursor + 1) ['>', '>'] = true := by
      unfold strAt; rw [hdT]; simp [List.isPrefixOf]
    show (Lexer.next st).1 = SyntaxKind.Shorthand ∧ (Lexer.next st).2.cursor = st.cursor + 3
    rw [next_eq_math st '>' hm hc (by rw [hm]; decide) (by simp) (by simp) (by simp)]
    unfold math
    simp only [reduceCtorEq, Char.reduceEq, false_and, true_and, and_false, and_true,
      if_false, if_true, reduceIte, hch1, haut1, hfire, Option.some.injEq, Bool.false_eq_true]
  · -- msh = '==>'
    obtain ⟨rest, hpre2⟩ := List.isPrefixOf_iff_prefix.mp hpre
    have hdrop : st.input.drop st.cursor = '=' :: '=' :: '>' :: rest := hpre2.symm
    have hc : charAt st.input st.cursor = some '=' := by
      unfold charAt; rw [hdrop]; rfl
    have hdT : st.input.drop (st.cursor + 1) = '=' :: '>' :: rest := by
      rw [drop_total st.input st.cursor 1, hdrop]; rfl
    have hch1 : charAt st.input (st.cursor + 1) = some '=' := by
      unfold charAt; rw [hdT]; rfl
    have hfire : strAt st.input (st.cursor + 1) ['=', '>'] = true := by
      unfold strAt; rw [hdT]; simp [List.isPrefixOf]
    show (Lexer.next st).1 = SyntaxKind.Shorthand ∧ (Lexer.next st).2.cursor = st.cursor + 3
    rw [next_eq_math st '=' hm hc (by rw [hm]; decide) (by simp) (by simp) (by simp)]
    unfold math
    simp only [reduceCtorEq, Char.reduceEq, false_and, true_and, and_false, and_true,
      if_false, if_true, reduceIte, hch1, hfire, Option.some.injEq, Bool.false_eq_true]
  · -- msh = '=>'
    obtain ⟨rest, hpre2⟩ := List.isPrefixOf_iff_prefix.mp hpre
    have hdrop : st.input.drop st.cursor = '=' :: '>' :: rest := hpre2.symm
    have hc : charAt st.input st.cursor = some '=' := by
      unfold charAt; rw [hdrop]; rfl
    have hdT : st.input.drop (st.cursor + 1) = '>' :: rest := by
      rw [drop_total st.input st.cursor 1, hdrop]; rfl
    have hch1 : charAt st.input (st.cursor + 1) = some '>' := by
      unfold charAt; rw [hdT]; rfl
    have haut1 : strAt st.input (st.cursor + 1) ['=', '>'] = false := by
      unfold strAt; rw [hdT]; simp [List.isPrefixOf]
    show (Lexer.next st).1 = SyntaxKind.Shorthand ∧ (Lexer.next st).2.cursor = st.cursor + 2
    rw [next_eq_math st '=' hm hc (by rw [hm]; decide) (by simp) (by simp) (by simp)]
    unfold math
    simp only [reduceCtorEq, Char.reduceEq, false_and, true_and, and_false, and_true,
      if_false, if_true, reduceIte, hch1, haut1, Option.some.injEq, Bool.false_eq_true]
  · -- msh = '=:'
    obtain ⟨rest, hpre2⟩ := List.isPrefixOf_iff_prefix.mp hpre
    have hdrop : st.input.drop st.cursor = '=' :: ':' :: rest := hpre2.symm
    have hc : charAt st.input st.cursor = some '=' := by
      unfold charAt; rw [hdrop]; rfl
    have hdT : st.input.drop (st.cursor + 1) = ':' :: rest := by
      rw [drop_total st.input st.cursor 1, hdrop]; rfl
    have hch1 : charAt st.input (st.cursor + 1) = some ':' := by
      unfold charAt; rw [hdT]; rfl
    have haut1 : strAt st.input (st.cursor + 1) ['=', '>'] = false := by
      unfold strAt; rw [hdT]; simp [List.isPrefixOf]
    show (Lexer.next st).1 = SyntaxKind.Shorthand ∧ (Lexer.next st).2.cursor = st.cursor + 2
    rw [next_eq_math st '=' hm hc (by rw [hm]; decide) (by simp) (by simp) (by simp)]
    unfold math
    simp only [reduceCtorEq, Char.reduceEq, false_and, true_and, and_false, and_true,
      if_false, if_true, reduceIte, hch1, haut1, Option.some.injEq, Bool.false_eq_true]
  · -- msh = '>='
    obtain ⟨rest, hpre2⟩ := List.isPrefixOf_iff_prefix.mp hpre
    have hdrop : st.input.drop st.cursor = '>' :: '=' :: rest := hpre2.symm
    have hc : charAt st.input st.cursor = some '>' := by
      unfold charAt; rw [hdrop]; rfl
    have hdT : st.input.drop (st.cursor + 1) = '=' :: rest := by
      rw [drop_total st.input st.cursor 1, hdrop]; rfl
    have hch1 : charAt st.input (st.cursor + 1) = some '=' := by
      unfold charAt; rw [hdT]; rfl
    have haut1 : strAt st.input (st.cursor + 1) ['-', '>'] = false := by
      unfold strAt; rw [hdT]; simp [List.isPrefixOf]
    have haut2 : strAt st.input (st.cursor + 1) ['>', '>'] = false := by
      unfold strAt; rw [hdT]; simp [List.isPrefixOf]
    show (Lexer.next st).1 = SyntaxKind.Shorthand ∧ (Lexer.next st).2.cursor = st.cursor + 2
    rw [next_eq_math st '>' hm hc (by rw [hm]; decide) (by simp) (by simp) (by simp)]
    unfold math
    simp only [reduceCtorEq, Char.reduceEq, false_and, true_and, and_false, and_true,
      if_false, if_true, reduceIte, hch1, haut1, haut2, Option.some.injEq, Bool.false_eq_true]
  · -- msh = '>>'
    obtain ⟨rest, hpre2⟩ := List.isPrefixOf_iff_prefix.mp hpre
    have hdrop : st.input.drop st.cursor = '>' :: '>' :: rest := hpre2.symm
    have hc : charAt st.input st.cursor = some '>' := by
      unfold charAt; rw [hdrop]; rfl
    have hdT : st.input.drop (st.cursor + 1) = '>' :: rest := by
      rw [drop_total st.input st.cursor 1, hdrop]; rfl
    have hch1 : charAt st.input (st.cursor + 1) = some '>' := by
      unfold charAt; rw [hdT]; rfl
    have haut1 : strAt st.input (st.cursor + 1) ['-', '>'] = false := by
      unfold strAt; rw [hdT]; simp [List.isPrefixOf]
    have hneg1 : strAt st.input (st.cursor + 1) ['>', '>'] = false := by
      rw [← Bool.not_eq_true]; intro harm
      have hfull := strAt_cons_shift st.input st.cursor '>' ['>', '>'] ('>' :: rest) hdrop harm
      have hlen := hmax ['>', '>', '>'] (by decide) hfull
      simp at hlen
    show (Lexer.next st).1 = SyntaxKind.Shorthand ∧ (Lexer.next st).2.cursor = st.cursor + 2
    rw [next_eq_math st '>' hm hc (by rw [hm]; decide) (by simp) (by simp) (by simp)]
    unfold math
    simp only [reduceCtorEq, Char.reduceEq, false_and, true_and, and_false, and_true,
      if_false, if_true, reduceIte, hch1, haut1, hneg1, Option.some.injEq, Bool.false_eq_true]
  · -- msh = '|->'
    obtain ⟨rest, hpre2⟩ := List.isPrefixOf_iff_prefix.mp hpre
    have hdrop : st.input.drop st.cursor = '|' :: '-' :: '>' :: rest := hpre2.symm
    have hc : charAt st.input st.cursor = some '|' := by
      unfold charAt; rw [hdrop]; rfl
    have hdT : st.input.drop (st.cursor + 1) = '-' :: '>' :: rest := by
      rw [drop_total st.input st.cursor 1, hdrop]; rfl
    have hch1 : charAt st.input (st.cursor + 1) = some '-' := by
      unfold charAt; rw [hdT]; rfl
    have hfire : strAt st.input (st.cursor + 1) ['-', '>'] = true := by
      unfold strAt; rw [hdT]; simp [List.isPrefixOf]
    show (Lexer.next st).1 = SyntaxKind.Shorthand ∧ (Lexer.next st).2.cursor = st.cursor + 3
    rw [next_eq_math st '|' hm hc (by rw [hm]; decide) (by simp) (by simp) (by simp)]
    unfold math
    simp only [reduceCtorEq, Char.reduceEq, false_and, true_and, and_false, and_true,
      if_false, if_true, reduceIte, hch1, hfire, Option.some.injEq, Bool.false_eq_true]
  · -- msh = '|=>'
    obtain ⟨rest, hpre2⟩ := List.isPrefixOf_iff_prefix.mp hpre
    have hdrop : st.input.drop st.cursor = '|' :: '=' :: '>' :: rest := hpre2.symm
    have hc : charAt st.input st.cursor = some '|' := by
      unfold charAt; rw [hdrop]; rfl
    have hdT : st.input.drop (st.cursor + 1) = '=' :: '>' :: rest := by
      rw [drop_total st.input st.cursor 1, hdrop]; rfl
    have hch1 : charAt st.input (st.cursor + 1) = some '=' := by
      unfold charAt; rw [hdT]; rfl
    have haut1 : strAt st.input (st.cursor + 1) ['-', '>'] = false := by
      unfold strAt; rw [hdT]; simp [List.isPrefixOf]
    have hfire : strAt st.input (st.cursor + 1) ['=', '>'] = true := by
      unfold strAt; rw [hdT]; simp [List.isPrefixOf]
    show (Lexer.next st).1 = SyntaxKind.Shorthand ∧ (Lexer.next st).2.cursor = st.cursor + 3
    rw [next_eq_math st '|' hm hc (by rw [hm]; decide) (by simp) (by simp) (by simp)]
    unfold math
    simp only [reduceCtorEq, Char.reduceEq, false_and, true_and, and_false, and_true,
      if_false, if_true, reduceIte, hch1, haut1, hfire, Option.some.injEq, Bool.false_eq_true]
  · -- msh = '|]'
    obtain ⟨rest, hpre2⟩ := List.isPrefixOf_iff_prefix.mp hpre
    have hdrop : st.input.drop st.cursor = '|' :: ']' :: rest := hpre2.symm
    have hc : charAt st.input st.cursor = some '|' := by
      unfold charAt; rw [hdrop]; rfl
    have hdT : st.input.drop (st.cursor + 1) = ']' :: rest := by
      rw [drop_total st.input st.cursor 1, hdrop]; rfl
    have hch1 : charAt st.input (st.cursor + 1) = some ']' := by
      unfold charAt; rw [hdT]; rfl
    have haut1 : strAt st.input (st.cursor + 1) ['-', '>'] = false := by
      unfold strAt; rw [hdT]; simp [List.isPrefixOf]
    have haut2 : strAt st.input (st.cursor + 1) ['=', '>'] = false := by
      unfold strAt; rw [hdT]; simp [List.isPrefixOf]
    show (Lexer.next st).1 = SyntaxKind.Shorthand ∧ (Lexer.next st).2.cursor = st.cursor + 2
    rw [next_eq_math st '|' hm hc (by rw [hm]; decide) (by simp) (by simp) (by simp)]
    unfold math
    simp only [reduceCtorEq, Char.reduceEq, false_and, true_and, and_false, and_true,
      if_false, if_true, reduceIte, hch1, haut1, haut2, Option.some.injEq, Bool.false_eq_true]
  · -- msh = '||'
    obtain ⟨rest, hpre2⟩ := List.isPrefixOf_iff_prefix.mp hpre
    have hdrop : st.input.drop st.cursor = '|' :: '|' :: rest := hpre2.symm
    have hc : charAt st.input st.cursor = some '|' := by
      unfold charAt; rw [hdrop]; rfl
    have hdT : st.input.drop (st.cursor + 1) = '|' :: rest := by
      rw [drop_total st.input st.cursor 1, hdrop]; rfl
    have hch1 : charAt st.input (st.cursor + 1) = some '|' := by
      unfold charAt; rw [hdT]; rfl
    have haut1 : strAt st.input (st.cursor + 1) ['-', '>'] = false := by
      unfold strAt; rw [hdT]; simp [List.isPrefixOf]
    have haut2 : strAt st.input (st.cursor + 1) ['=', '>'] = false := by
      unfold strAt; rw [hdT]; simp [List.isPrefixOf]
    show (Lexer.next st).1 = SyntaxKind.Shorthand ∧ (Lexer.next st).2.cursor = st.cursor + 2
    rw [next_eq_math st '|' hm hc (by rw [hm]; decide) (by simp) (by simp) (by simp)]
    unfold math
    simp only [reduceCtorEq, Char.reduceEq, false_and, true_and, and_false, and_true,
      if_false, if_true, reduceIte, hch1, haut1, haut2, Option.some.injEq, Bool.false_eq_true]
  · -- msh = '~~>'
    obtain ⟨rest, hpre2⟩ := List.isPrefixOf_iff_prefix.mp hpre
    have hdrop : st.input.drop st.cursor = '~' :: '~' :: '>' :: rest := hpre2.symm
    have hc : charAt st.input st.cursor = some '~' := by
      unfold charAt; rw [hdrop]; rfl
    have hdT : st.input.drop (st.cursor + 1) = '~' :: '>' :: rest := by
      rw [drop_total st.input st.cursor 1, hdrop]; rfl
    have hch1 : charAt st.input (st.cursor + 1) = some '~' := by
      unfold charAt; rw [hdT]; rfl
    have hfire : strAt st.input (st.cursor + 1) ['~', '>'] = true := by
      unfold strAt; rw [hdT]; simp [List.isPrefixOf]
    show (Lexer.next st).1 = SyntaxKind.Shorthand ∧ (Lexer.next st).2.cursor = st.cursor + 3
    rw [next_eq_math st '~' hm hc (by rw [hm]; decide) (by simp) (by simp) (by simp)]
    unfold math
    simp only [reduceCtorEq, Char.reduceEq, false_and, true_and, and_false, and_true,
      if_false, if_true, reduceIte, hch1, hfire, Option.some.injEq, Bool.false_eq_true]
  · -- msh = '~>'
    obtain ⟨rest, hpre2⟩ := List.isPrefixOf_iff_prefix.mp hpre
    have hdrop : st.input.drop st.cursor = '~' :: '>' :: rest := hpre2.symm
    have hc : charAt st.input st.cursor = some '~' := by
      unfold charAt; rw [hdrop]; rfl
    have hdT : st.input.drop (st.cursor + 1) = '>' :: rest := by
      rw [drop_total st.input st.cursor 1, hdrop]; rfl
    have hch1 : charAt st.input (st.cursor + 1) = some '>' := by
      unfold charAt; rw [hdT]; rfl
    have haut1 : strAt st.input (st.cursor + 1) ['~', '>'] = false := by
      unfold strAt; rw [hdT]; simp [List.isPrefixOf]
    show (Lexer.next st).1 = SyntaxKind.Shorthand ∧ (Lexer.next st).2.cursor = st.cursor + 2
    rw [next_eq_math st '~' hm hc (by rw [hm]; decide) (by simp) (by simp) (by simp)]
    unfold math
    simp only [reduceCtorEq, Char.reduceEq, false_and, true_and, and_false, and_true,
      if_false, if_true, reduceIte, hch1, haut1, Option.some.injEq, Bool.false_eq_true]

/-- Witness for C1: on input `<-->` in Math mode the lexer returns `Shorthand`
spanning all four characters. -/
theorem c1_witness :
    (Lexer.next { input := ['<','-','-','>'], cursor := 0, mode := LexMode.Math, newline := false, raw := [], error := none }).1 = SyntaxKind.Shorthand ∧
    (Lexer.next { input := ['<','-','-','>'], cursor := 0, mode := LexMode.Math, newline := false, raw := [], error := none }).2.cursor = 0 + (['<','-','-','>'] : List Char).length :=
  c1_math_shorthand_longest
    { input := ['<','-','-','>'], cursor := 0, mode := LexMode.Math, newline := false, raw := [], error := none }
    ['<','-','-','>'] rfl (by decide) (by decide) (by decide)

lemma errC_clean (k : SyntaxKind) (st : Lexer) (he : st.error = none)
    (hk : k ≠ SyntaxKind.Error) : errorCoherent (k, st) := by
  constructor
  · simp [he, hk]
  · intro m hm
    rw [he] at hm
    cases hm

lemma errC_error (st : Lexer) (msg : String) (hm : msg ≠ "") :
    errorCoherent (errorToken st msg) := by
  constructor
  · simp [errorToken]
  · intro m h
    simp only [errorToken, Option.some.injEq] at h
    rw [← h]
    exact hm

lemma strApp_ne_empty (s t : String) (h : s ≠ "") : s ++ t ≠ "" := by
  intro he
  apply h
  apply String.ext
  have hd : (s ++ t).data = ("" : String).data := by rw [he]
  rw [String.data_append] at hd
  have := List.append_eq_nil.mp hd
  exact this.1

lemma scEatNewline_error (st : Lexer) : (scEatNewline st).error = st.error := by
  unfold scEatNewline
  rcases charAt st.input st.cursor with _ | c
  · rfl
  · dsimp only
    split_ifs <;> rfl

lemma emitLines_error (lines : List (List Char)) :
    ∀ (st : Lexer) (i : Nat) (skipped : Bool) (dedent : Nat),
      (emitLines st lines i skipped dedent).error = st.error := by
  induction lines with
  | nil => intro st i skipped dedent; rfl
  | cons line rest ih =>
    intro st i skipped dedent
    unfold emitLines
    dsimp only
    rw [ih]
    simp [push_raw, scEatNewline_error]

lemma stJump_error (st : Lexer) (i : Nat) : (stJump st i).error = st.error := rfl

lemma push_raw_error (st : Lexer) (k : SyntaxKind) :
    (push_raw st k).error = st.error := rfl

set_option maxHeartbeats 1600000 in
lemma blocky_raw_error (st : Lexer) (start end_ backticks : Nat) :
    (blocky_raw st start end_ backticks).error = st.error := by
  unfold blocky_raw
  dsimp only
  simp only [emitLines_error, apply_ite Prod.fst, apply_ite Lexer.error,
    stJump_error, push_raw_error, ite_self]

lemma inlineGo_error (fuel : Nat) : ∀ (st : Lexer) (stop : Nat),
    (inlineGo fuel st stop).error = st.error := by
  induction fuel with
  | zero => intro st stop; rfl
  | succ fuel ih =>
    intro st stop
    unfold inlineGo
    split_ifs <;> simp [ih, push_raw, scEatNewline_error]

lemma inline_raw_error (st : Lexer) (start end_ backticks : Nat) :
    (inline_raw st start end_ backticks).error = st.error := by
  unfold inline_raw
  simp [stJump, push_raw, inlineGo_error]

lemma numberFrac_error (st : Lexer) (c : Char) (base : Nat) :
    (numberFrac st c base).error = st.error := by
  unfold numberFrac
  dsimp only
  split_ifs <;> rfl

lemma numberExp_error (st : Lexer) (base : Nat) :
    (numberExp st base).error = st.error := by
  unfold numberExp
  dsimp only
  split_ifs <;> rfl

lemma whitespace_errC (st : Lexer) (start : Nat) (c : Char)
    (he : st.error = none) : errorCoherent (whitespace st start c) := by
  unfold whitespace
  dsimp only
  split_ifs <;> exact errC_clean _ _ he (by simp)

lemma line_comment_errC (st : Lexer) (he : st.error = none) :
    errorCoherent (line_comment st) := errC_clean _ _ he (by simp)

lemma block_comment_errC (st : Lexer) (he : st.error = none) :
    errorCoherent (block_comment st) := errC_clean _ _ he (by simp)

lemma backslash_errC (st : Lexer) (he : st.error = none) :
    errorCoherent (backslash st) := by
  unfold backslash
  dsimp only
  split_ifs
  · exact errC_clean _ _ he (by simp)
  · apply errC_error
    apply strApp_ne_empty
    decide
  · apply errC_error
    decide
  · exact errC_clean _ _ he (by simp)
  · exact errC_clean _ _ he (by simp)
  · exact errC_clean _ _ he (by simp)

lemma raw_errC (st : Lexer) (he : st.error = none) :
    errorCoherent (raw st) := by
  unfold raw
  dsimp only
  split_ifs
  · refine errC_clean _ _ ?_ (by simp)
    simp only [stJump_error, push_raw_error]
    exact he
  · refine errC_clean _ _ ?_ (by simp)
    simp only [stJump_error, push_raw_error]
    show (blocky_raw _ _ _ _).error = none
    rw [blocky_raw_error]
    exact he
  · refine errC_clean _ _ ?_ (by simp)
    simp only [stJump_error, push_raw_error]
    show (inline_raw _ _ _ _).error = none
    rw [inline_raw_error]
    exact he
  · apply errC_error
    decide

lemma link_errC (st : Lexer) (he : st.error = none) :
    errorCoherent (link st) := by
  unfold link
  dsimp only
  split_ifs
  · exact errC_clean _ _ he (by simp)
  · apply errC_error
    decide

lemma label_errC (st : Lexer) (he : st.error = none) :
    errorCoherent (label st) := by
  unfold label
  dsimp only
  split_ifs
  · apply errC_error
    decide
  · exact errC_clean _ _ he (by simp)
  · apply errC_error
    decide

lemma ref_marker_errC (st : Lexer) (he : st.error = none) :
    errorCoherent (ref_marker st) := errC_clean _ _ he (by simp)

lemma text_errC (st : Lexer) (he : st.error = none) :
    errorCoherent (text st) := errC_clean _ _ he (by simp)

lemma numbering_errC (st : Lexer) (start : Nat) (he : st.error = none) :
    errorCoherent (numbering st start) := by
  unfold numbering
  dsimp only
  split_ifs
  · exact errC_clean _ _ he (by simp)
  · exact text_errC _ he
  · exact text_errC _ he

lemma string_errC (st : Lexer) (he : st.error = none) :
    errorCoherent (string st) := by
  unfold string
  dsimp only
  split_ifs
  · exact errC_clean _ _ he (by simp)
  · apply errC_error
    decide

lemma math_text_errC (st : Lexer) (start : Nat) (c : Char)
    (he : st.error = none) : errorCoherent (math_text st start c) := by
  unfold math_text
  dsimp only
  split_ifs <;> exact errC_clean _ _ he (by simp)

lemma neOption_ite (P : Prop) [Decidable P] (A B : Option SyntaxKind)
    (h1 : A.getD SyntaxKind.Ident ≠ SyntaxKind.Error)
    (h2 : B.getD SyntaxKind.Ident ≠ SyntaxKind.Error) :
    (if P then A else B).getD SyntaxKind.Ident ≠ SyntaxKind.Error := by
  by_cases h : P
  · rw [if_pos h]
    exact h1
  · rw [if_neg h]
    exact h2

lemma keywordSafe (s : List Char) :
    (keyword s).getD SyntaxKind.Ident ≠ SyntaxKind.Error := by
  unfold keyword
  repeat' apply neOption_ite
  all_goals decide

lemma errC_ite (P : Prop) [Decidable P] (A B : SyntaxKind × Lexer)
    (h1 : errorCoherent A) (h2 : errorCoherent B) :
    errorCoherent (if P then A else B) := by
  by_cases h : P
  · rw [if_pos h]
    exact h1
  · rw [if_neg h]
    exact h2

lemma ident_errC (st : Lexer) (start : Nat) (he : st.error = none) :
    errorCoherent (ident st start) := by
  unfold ident
  dsimp only
  repeat' apply errC_ite
  · exact errC_clean _ _ he (keywordSafe _)
  · exact errC_clean _ _ he (by decide)
  · exact errC_clean _ _ he (by decide)

lemma numErrorMsg_ne (base : Nat) (num : List Char) : numErrorMsg base num ≠ "" := by
  unfold numErrorMsg
  split_ifs <;> exact strApp_ne_empty _ _ (by decide)

lemma numberClass_errC (st : Lexer) (num suffix : List Char) (base : Nat)
    (he : st.error = none) :
    errorCoherent (
      match (if i64FromStrRadixOk num base then some SyntaxKind.Int
             else if base = 10 ∧ parseF64Ok num then some SyntaxKind.Float
             else none : Option SyntaxKind) with
      | none => errorToken st (numErrorMsg base num)
      | some kind =>
        if suffix = [] then (kind, st)
        else if validSuffix suffix then (SyntaxKind.Numeric, st)
        else errorToken st ("invalid number suffix: " ++ String.mk suffix)) := by
  have htail : ∀ (k : SyntaxKind), k ≠ SyntaxKind.Error →
      errorCoherent (if suffix = [] then (k, st)
        else if validSuffix suffix then (SyntaxKind.Numeric, st)
        else errorToken st ("invalid number suffix: " ++ String.mk suffix)) := by
    intro k hk
    refine errC_ite _ _ _ (errC_clean _ _ he hk) ?_
    refine errC_ite _ _ _ (errC_clean _ _ he (by decide)) ?_
    apply errC_error
    apply strApp_ne_empty
    decide
  split
  · exact errC_error _ _ (numErrorMsg_ne _ _)
  · rename_i kind heq
    split_ifs at heq <;> injection heq with hkind <;> rw [← hkind] <;>
      exact htail _ (by decide)

lemma numberTail_errC (base : Nat) (st : Lexer) (start : Nat) (c : Char)
    (he : st.error = none) :
    errorCoherent (
      let intEat := eatWhileLen (if base = 16 then isAsciiAlphanumeric else isAsciiDigit) st.input st.cursor
      let st := { st with cursor := st.cursor + intEat }
      let st := numberFrac st c base
      let st := numberExp st base
      let suffix_start := st.cursor
      let st :=
        if charAt st.input st.cursor = some '%' then { st with cursor := st.cursor + 1 }
        else { st with cursor := st.cursor + eatWhileLen isAsciiAlphanumeric st.input st.cursor }
      let num := sliceFT st.input start suffix_start
      let suffix := sliceFT st.input suffix_start st.cursor
      let kindOpt : Option SyntaxKind :=
        if i64FromStrRadixOk num base then some SyntaxKind.Int
        else if base = 10 ∧ parseF64Ok num then some SyntaxKind.Float
        else none
      match kindOpt with
      | none => errorToken st (numErrorMsg base num)
      | some kind =>
        if suffix = [] then (kind, st)
        else if validSuffix suffix then (SyntaxKind.Numeric, st)
        else errorToken st ("invalid number suffix: " ++ String.mk suffix)) := by
  dsimp only
  have hF : (numberExp (numberFrac { st with cursor := st.cursor + eatWhileLen (if base = 16 then isAsciiAlphanumeric else isAsciiDigit) st.input st.cursor } c base) base).error = none := by
    rw [numberExp_error, numberFrac_error]
    exact he
  have hS : ∀ (st2 : Lexer), st2.error = none →
      (if charAt st2.input st2.cursor = some '%' then ({ st2 with cursor := st2.cursor + 1 } : Lexer) else { st2 with cursor := st2.cursor + eatWhileLen isAsciiAlphanumeric st2.input st2.cursor }).error = none := by
    intro st2 h2
    split_ifs <;> exact h2
  exact numberClass_errC _ _ _ _ (hS _ hF)

lemma number_errC (st : Lexer) (start0 : Nat) (c : Char) (he : st.error = none) :
    errorCoherent (number st start0 c) := by
  unfold number
  refine numberTail_errC _ _ _ _ ?_
  dsimp only
  split_ifs <;> exact he

set_option maxHeartbeats 1600000 in
lemma markup_errC (st : Lexer) (start : Nat) (c : Char) (he : st.error = none) :
    errorCoherent (markup st start c) := by
  unfold markup
  dsimp only
  exact
    (errC_ite _ _ _ (backslash_errC _ he)
    (errC_ite _ _ _ (raw_errC _ he)
    (errC_ite _ _ _ (link_errC _ he)
    (errC_ite _ _ _ (link_errC _ he)
    (errC_ite _ _ _ (label_errC _ he)
    (errC_ite _ _ _ (ref_marker_errC _ he)
    (errC_ite _ _ _ (errC_clean _ _ he (by decide))
    (errC_ite _ _ _ (errC_clean _ _ he (by decide))
    (errC_ite _ _ _ (errC_clean _ _ he (by decide))
    (errC_ite _ _ _ (errC_clean _ _ he (by decide))
    (errC_ite _ _ _ (errC_clean _ _ he (by decide))
    (errC_ite _ _ _ (errC_clean _ _ he (by decide))
    (errC_ite _ _ _ (errC_clean _ _ he (by decide))
    (errC_ite _ _ _ (errC_clean _ _ he (by decide))
    (errC_ite _ _ _ (errC_clean _ _ he (by decide))
    (errC_ite _ _ _ (errC_clean _ _ he (by decide))
    (errC_ite _ _ _ (errC_clean _ _ he (by decide))
    (errC_ite _ _ _ (errC_clean _ _ he (by decide))
    (errC_ite _ _ _ (errC_clean _ _ he (by decide))
    (errC_ite _ _ _ (errC_clean _ _ he (by decide))
    (errC_ite _ _ _ (errC_clean _ _ he (by decide))
    (errC_ite _ _ _ (errC_ite _ _ _ (errC_clean _ _ he (by decide)) (text_errC _ he))
    (errC_ite _ _ _ (errC_clean _ _ he (by decide))
    (errC_ite _ _ _ (errC_clean _ _ he (by decide))
    (errC_ite _ _ _ (errC_clean _ _ he (by decide))
    (errC_ite _ _ _ (numbering_errC _ _ he)
    (text_errC _ he)))))))))))))))))))))))))))

set_option maxHeartbeats 1600000 in
lemma math_errC (st : Lexer) (start : Nat) (c : Char) (he : st.error = none) :
    errorCoherent (math st start c) := by
  unfold math
  exact
    (errC_ite _ _ _ (backslash_errC _ he)
    (errC_ite _ _ _ (string_errC _ he)
    (errC_ite _ _ _ (errC_clean _ _ he (by decide))
    (errC_ite _ _ _ (errC_clean _ _ he (by decide))
    (errC_ite _ _ _ (errC_clean _ _ he (by decide))
    (errC_ite _ _ _ (errC_clean _ _ he (by decide))
    (errC_ite _ _ _ (errC_clean _ _ he (by decide))
    (errC_ite _ _ _ (errC_clean _ _ he (by decide))
    (errC_ite _ _ _ (errC_clean _ _ he (by decide))
    (errC_ite _ _ _ (errC_clean _ _ he (by decide))
    (errC_ite _ _ _ (errC_clean _ _ he (by decide))
    (errC_ite _ _ _ (errC_clean _ _ he (by decide))
    (errC_ite _ _ _ (errC_clean _ _ he (by decide))
    (errC_ite _ _ _ (errC_clean _ _ he (by decide))
    (errC_ite _ _ _ (errC_clean _ _ he (by decide))
    (errC_ite _ _ _ (errC_clean _ _ he (by decide))
    (errC_ite _ _ _ (errC_clean _ _ he (by decide))
    (errC_ite _ _ _ (errC_clean _ _ he (by decide))
    (errC_ite _ _ _ (errC_clean _ _ he (by decide))
    (errC_ite _ _ _ (errC_clean _ _ he (by decide))
    (errC_ite _ _ _ (errC_clean _ _ he (by decide))
    (errC_ite _ _ _ (errC_clean _ _ he (by decide))
    (errC_ite _ _ _ (errC_clean _ _ he (by decide))
    (errC_ite _ _ _ (errC_clean _ _ he (by decide))
    (errC_ite _ _ _ (errC_clean _ _ he (by decide))
    (errC_ite _ _ _ (errC_clean _ _ he (by decide))
    (errC_ite _ _ _ (errC_clean _ _ he (by decide))
    (errC_ite _ _ _ (errC_clean _ _ he (by decide))
    (errC_ite _ _ _ (errC_clean _ _ he (by decide))
    (errC_ite _ _ _ (errC_clean _ _ he (by decide))
    (errC_ite _ _ _ (errC_clean _ _ he (by decide))
    (errC_ite _ _ _ (errC_clean _ _ he (by decide))
    (errC_ite _ _ _ (errC_clean _ _ he (by decide))
    (errC_ite _ _ _ (errC_clean _ _ he (by decide))
    (errC_ite _ _ _ (errC_clean _ _ he (by decide))
    (errC_ite _ _ _ (errC_clean _ _ he (by decide))
    (errC_ite _ _ _ (errC_clean _ _ he (by decide))
    (errC_ite _ _ _ (errC_clean _ _ he (by decide))
    (errC_ite _ _ _ (errC_clean _ _ he (by decide))
    (errC_ite _ _ _ (errC_clean _ _ he (by decide))
    (errC_ite _ _ _ (errC_clean _ _ he (by decide))
    (errC_ite _ _ _ (errC_clean _ _ he (by decide))
    (errC_ite _ _ _ (errC_clean _ _ he (by decide))
    (errC_ite _ _ _ (errC_clean _ _ he (by decide))
    (errC_ite _ _ _ (errC_clean _ _ he (by decide))
    (errC_ite _ _ _ (errC_clean _ _ he (by decide))
    (errC_ite _ _ _ (errC_clean _ _ he (by decide))
    (math_text_errC _ _ _ he))))))))))))))))))))))))))))))))))))))))))))))))

set_option maxHeartbeats 1600000 in
lemma code_errC (st : Lexer) (start : Nat) (c : Char) (he : st.error = none) :
    errorCoherent (code st start c) := by
  unfold code
  exact
    (errC_ite _ _ _ (raw_errC _ he)
    (errC_ite _ _ _ (label_errC _ he)
    (errC_ite _ _ _ (number_errC _ _ _ he)
    (errC_ite _ _ _ (number_errC _ _ _ he)
    (errC_ite _ _ _ (string_errC _ he)
    (errC_ite _ _ _ (errC_clean _ _ he (by decide))
    (errC_ite _ _ _ (errC_clean _ _ he (by decide))
    (errC_ite _ _ _ (errC_clean _ _ he (by decide))
    (errC_ite _ _ _ (errC_clean _ _ he (by decide))
    (errC_ite _ _ _ (errC_clean _ _ he (by decide))
    (errC_ite _ _ _ (errC_clean _ _ he (by decide))
    (errC_ite _ _ _ (errC_clean _ _ he (by decide))
    (errC_ite _ _ _ (errC_clean _ _ he (by decide))
    (errC_ite _ _ _ (errC_clean _ _ he (by decide))
    (errC_ite _ _ _ (errC_clean _ _ he (by decide))
    (errC_ite _ _ _ (errC_clean _ _ he (by decide))
    (errC_ite _ _ _ (errC_clean _ _ he (by decide))
    (errC_ite _ _ _ (errC_clean _ _ he (by decide))
    (errC_ite _ _ _ (errC_clean _ _ he (by decide))
    (errC_ite _ _ _ (errC_clean _ _ he (by decide))
    (errC_ite _ _ _ (errC_clean _ _ he (by decide))
    (errC_ite _ _ _ (errC_clean _ _ he (by decide))
    (errC_ite _ _ _ (errC_clean _ _ he (by decide))
    (errC_ite _ _ _ (errC_clean _ _ he (by decide))
    (errC_ite _ _ _ (errC_clean _ _ he (by decide))
    (errC_ite _ _ _ (errC_clean _ _ he (by decide))
    (errC_ite _ _ _ (errC_clean _ _ he (by decide))
    (errC_ite _ _ _ (errC_clean _ _ he (by decide))
    (errC_ite _ _ _ (errC_clean _ _ he (by decide))
    (errC_ite _ _ _ (errC_clean _ _ he (by decide))
    (errC_ite _ _ _ (errC_clean _ _ he (by decide))
    (errC_ite _ _ _ (errC_clean _ _ he (by decide))
    (errC_ite _ _ _ (errC_clean _ _ he (by decide))
    (errC_ite _ _ _ (ident_errC _ _ he)
    (errC_error _ _ (strApp_ne_empty _ _ (strApp_ne_empty _ _ (by decide))))))))))))))))))))))))))))))))))))))

/-- C2 (corrected): after every non-Raw call to `next`, the stored error is
`some` exactly when the returned kind is `Error` and the message is non-empty;
a Raw-mode call leaves the error slot exactly as it was, so a stale error
survives Raw-mode calls. -/
theorem c2_error_coherence_amended (st : Lexer) :
    (st.mode ≠ LexMode.Raw → errorCoherent (Lexer.next st)) ∧
    (st.mode = LexMode.Raw → (Lexer.next st).2.error = st.error) := by
  constructor
  · intro hm
    unfold Lexer.next
    rw [if_neg hm]
    dsimp only
    rcases hc : charAt st.input st.cursor with _ | c
    · exact errC_clean _ _ rfl (by decide)
    · refine errC_ite _ _ _ (whitespace_errC _ _ _ rfl) ?_
      refine errC_ite _ _ _ (line_comment_errC _ rfl) ?_
      refine errC_ite _ _ _ (block_comment_errC _ rfl) ?_
      refine errC_ite _ _ _ (errC_error _ _ (by decide)) ?_
      rcases st.mode with _ | _ | _ | _
      · exact markup_errC _ _ _ rfl
      · exact math_errC _ _ _ rfl
      · exact code_errC _ _ _ rfl
      · exact errC_clean _ _ rfl (by decide)
  · intro hm
    unfold Lexer.next
    rw [if_pos hm]
    rcases hr : st.raw with _ | ⟨⟨k, e⟩, rest⟩ <;> rfl

/-- Witness for C2: a Code-mode call on `@` produces an `Error` kind with a
stored non-empty message, and a Raw-mode call on an empty stack leaves a
previously stored message in place. -/
theorem c2_witness :
    errorCoherent (Lexer.next { input := ['@'], cursor := 0, mode := LexMode.Code, newline := false, raw := [], error := none }) ∧
    (Lexer.next { input := [], cursor := 0, mode := LexMode.Raw, newline := false, raw := [], error := some "stale" }).2.error = some "stale" :=
  ⟨(c2_error_coherence_amended _).1 (by decide),
   (c2_error_coherence_amended _).2 rfl⟩

lemma curs_ite (P : Prop) [Decidable P] (A B : SyntaxKind × Lexer) (n : Nat)
    (h1 : P → n < A.2.cursor) (h2 : ¬ P → n < B.2.cursor) :
    n < (if P then A else B).2.cursor := by
  split_ifs with h
  · exact h1 h
  · exact h2 h

lemma curs_ite_le (P : Prop) [Decidable P] (A B : SyntaxKind × Lexer) (n : Nat)
    (h1 : n ≤ A.2.cursor) (h2 : n ≤ B.2.cursor) :
    n ≤ (if P then A else B).2.cursor := by
  split_ifs with h
  · exact h1
  · exact h2

lemma cursL_ite_le (P : Prop) [Decidable P] (A B : Lexer) (n : Nat)
    (h1 : n ≤ A.cursor) (h2 : n ≤ B.cursor) :
    n ≤ (if P then A else B).cursor := by
  split_ifs with h
  · exact h1
  · exact h2

lemma lt_natMin (n a b : Nat) (h1 : n < a) (h2 : n < b) : n < Nat.min a b := by
  unfold Nat.min
  first
    | exact lt_min_iff.mpr ⟨h1, h2⟩
    | exact lt_inf_iff.mpr ⟨h1, h2⟩

lemma textGo_ge (fuel : Nat) : ∀ (input : List Char) (i : Nat),
    i ≤ textGo fuel input i := by
  induction fuel with
  | zero => intro input i; exact Nat.le_refl _
  | succ fuel ih =>
    intro input i
    unfold textGo
    dsimp only
    rcases charAt input (i + eatWhileLen (fun c => ! textBreakChar c) input i) with _ | c
    · exact Nat.le_add_right _ _
    · dsimp only
      split_ifs
      · exact Nat.le_trans (Nat.le_succ_of_le (Nat.le_add_right _ _)) (ih input _)
      · exact Nat.le_add_right _ _

lemma text_ge (st : Lexer) : st.cursor ≤ (text st).2.cursor := textGo_ge _ _ _

lemma whitespace_ge (st : Lexer) (start : Nat) (c : Char) :
    st.cursor ≤ (whitespace st start c).2.cursor := by
  unfold whitespace
  dsimp only
  omega

lemma line_comment_ge (st : Lexer) : st.cursor ≤ (line_comment st).2.cursor :=
  Nat.le_add_right _ _

lemma block_comment_ge (st : Lexer) : st.cursor ≤ (block_comment st).2.cursor :=
  Nat.le_add_right _ _

lemma backslash_ge (st : Lexer) : st.cursor ≤ (backslash st).2.cursor := by
  unfold backslash
  dsimp only
  repeat' apply curs_ite_le
  all_goals
    first
      | omega
      | (dsimp only; omega)
      | (simp only [errorToken]; omega)
      | (simp only [errorToken]; dsimp only; omega)

lemma string_ge (st : Lexer) : st.cursor ≤ (string st).2.cursor := by
  unfold string
  dsimp only
  repeat' apply curs_ite_le
  all_goals
    first
      | omega
      | (dsimp only; omega)
      | (simp only [errorToken]; omega)
      | (simp only [errorToken]; dsimp only; omega)

lemma label_ge (st : Lexer) : st.cursor ≤ (label st).2.cursor := by
  unfold label
  dsimp only
  repeat' apply curs_ite_le
  all_goals
    first
      | omega
      | (dsimp only; omega)
      | (simp only [errorToken]; omega)
      | (simp only [errorToken]; dsimp only; omega)

lemma link_ge (st : Lexer) : st.cursor ≤ (link st).2.cursor := by
  unfold link
  dsimp only
  repeat' apply curs_ite_le
  all_goals
    first
      | omega
      | (dsimp only; omega)
      | (simp only [errorToken]; omega)
      | (simp only [errorToken]; dsimp only; omega)

lemma ident_ge (st : Lexer) (start : Nat) : st.cursor ≤ (ident st start).2.cursor := by
  unfold ident
  dsimp only
  repeat' apply curs_ite_le
  all_goals (dsimp only; omega)

lemma numbering_ge (st : Lexer) (start : Nat) :
    st.cursor ≤ (numbering st start).2.cursor := by
  unfold numbering
  dsimp only
  refine curs_ite_le _ _ _ _ (curs_ite_le _ _ _ _ (by dsimp only; omega) ?_) ?_ <;>
    (refine Nat.le_trans ?_ (text_ge _)
     dsimp only
     omega)

lemma numberFrac_ge (st : Lexer) (c : Char) (base : Nat) :
    st.cursor ≤ (numberFrac st c base).cursor := by
  unfold numberFrac
  dsimp only
  repeat' apply cursL_ite_le
  all_goals (first | omega | (dsimp only; omega))

lemma numberExp_ge (st : Lexer) (base : Nat) :
    st.cursor ≤ (numberExp st base).cursor := by
  unfold numberExp
  dsimp only
  refine cursL_ite_le _ _ _ _ ?_ ?_
  · refine cursL_ite_le _ _ _ _ ?_ ?_
    · have hY : st.cursor + 1 ≤ (if charAt st.input (st.cursor + 1) = some '+' ∨ charAt st.input (st.cursor + 1) = some '-' then ({ st with cursor := st.cursor + 1 + 1 } : Lexer) else { st with cursor := st.cursor + 1 }).cursor := by
        refine cursL_ite_le _ _ _ _ ?_ ?_ <;> (dsimp only; omega)
      dsimp only
      omega
    · dsimp only
      omega
  · omega

lemma numberClass_cursor (st : Lexer) (num suffix : List Char) (base : Nat) :
    ((match (if i64FromStrRadixOk num base then some SyntaxKind.Int
             else if base = 10 ∧ parseF64Ok num then some SyntaxKind.Float
             else none : Option SyntaxKind) with
      | none => errorToken st (numErrorMsg base num)
      | some kind =>
        if suffix = [] then (kind, st)
        else if validSuffix suffix then (SyntaxKind.Numeric, st)
        else errorToken st ("invalid number suffix: " ++ String.mk suffix)) :
      SyntaxKind × Lexer).2.cursor = st.cursor := by
  split
  · rfl
  · split_ifs <;> rfl

lemma numberTail_ge (base : Nat) (st : Lexer) (start : Nat) (c : Char) :
    st.cursor ≤ (
      let intEat := eatWhileLen (if base = 16 then isAsciiAlphanumeric else isAsciiDigit) st.input st.cursor
      let st := { st with cursor := st.cursor + intEat }
      let st := numberFrac st c base
      let st := numberExp st base
      let suffix_start := st.cursor
      let st :=
        if charAt st.input st.cursor = some '%' then { st with cursor := st.cursor + 1 }
        else { st with cursor := st.cursor + eatWhileLen isAsciiAlphanumeric st.input st.cursor }
      let num := sliceFT st.input start suffix_start
      let suffix := sliceFT st.input suffix_start st.cursor
      let kindOpt : Option SyntaxKind :=
        if i64FromStrRadixOk num base then some SyntaxKind.Int
        else if base = 10 ∧ parseF64Ok num then some SyntaxKind.Float
        else none
      match kindOpt with
      | none => errorToken st (numErrorMsg base num)
      | some kind =>
        if suffix = [] then (kind, st)
        else if validSuffix suffix then (SyntaxKind.Numeric, st)
        else errorToken st ("invalid number suffix: " ++ String.mk suffix)).2.cursor := by
  dsimp only
  rw [numberClass_cursor]
  have hchain : st.cursor ≤ (numberExp (numberFrac { st with cursor := st.cursor + eatWhileLen (if base = 16 then isAsciiAlphanumeric else isAsciiDigit) st.input st.cursor } c base) base).cursor := by
    refine Nat.le_trans ?_ (numberExp_ge _ base)
    refine Nat.le_trans ?_ (numberFrac_ge _ c base)
    dsimp only
    omega
  refine cursL_ite_le _ _ _ _ ?_ ?_ <;> (dsimp only; omega)

lemma number_ge (st : Lexer) (start0 : Nat) (c : Char) :
    st.cursor ≤ (number st start0 c).2.cursor := by
  unfold number
  dsimp only
  refine Nat.le_trans ?_ (numberTail_ge _ _ _ _)
  dsimp only
  split_ifs <;> (dsimp only; omega)

lemma refTrim_lb (input : List Char) (s : Nat) (h1 : charAt input s ≠ some '.')
    (h2 : charAt input s ≠ some ':') : ∀ k, s < k → s < refTrim input k := by
  intro k
  induction k with
  | zero => intro h; exact absurd h (Nat.not_lt_zero s)
  | succ k ih =>
    intro hk
    unfold refTrim
    split_ifs with hcond
    · rcases Nat.lt_or_ge s k with h | h
      · exact ih h
      · have hs : s = k := Nat.le_antisymm (Nat.lt_succ_iff.mp hk) h
        subst hs
        rcases hcond with hx | hx
        · exact absurd hx h1
        · exact absurd hx h2
    · omega

lemma ref_marker_lt (st : Lexer) (s : Nat) (h1 : charAt st.input s ≠ some '.')
    (h2 : charAt st.input s ≠ some ':') (h3 : s < st.cursor) :
    s < (ref_marker st).2.cursor := by
  unfold ref_marker
  dsimp only
  exact refTrim_lb st.input s h1 h2 _ (by omega)

lemma scEatNewline_input (st : Lexer) : (scEatNewline st).input = st.input := by
  unfold scEatNewline
  rcases charAt st.input st.cursor with _ | c
  · rfl
  · dsimp only
    split_ifs <;> rfl

lemma stJump_input (st : Lexer) (i : Nat) : (stJump st i).input = st.input := rfl

lemma push_raw_input (st : Lexer) (k : SyntaxKind) :
    (push_raw st k).input = st.input := rfl

lemma emitLines_input (lines : List (List Char)) :
    ∀ (st : Lexer) (i : Nat) (skipped : Bool) (dedent : Nat),
      (emitLines st lines i skipped dedent).input = st.input := by
  induction lines with
  | nil => intro st i skipped dedent; rfl
  | cons line rest ih =>
    intro st i skipped dedent
    unfold emitLines
    dsimp only
    rw [ih]
    simp [push_raw, scEatNewline_input]

set_option maxHeartbeats 1600000 in
lemma blocky_raw_input (st : Lexer) (start end_ backticks : Nat) :
    (blocky_raw st start end_ backticks).input = st.input := by
  unfold blocky_raw
  dsimp only
  simp only [emitLines_input, apply_ite Prod.fst, apply_ite Lexer.input,
    stJump_input, push_raw_input, ite_self]

lemma inlineGo_input (fuel : Nat) : ∀ (st : Lexer) (stop : Nat),
    (inlineGo fuel st stop).input = st.input := by
  induction fuel with
  | zero => intro st stop; rfl
  | succ fuel ih =>
    intro st stop
    unfold inlineGo
    split_ifs <;> simp [ih, push_raw, scEatNewline_input]

lemma inline_raw_input (st : Lexer) (start end_ backticks : Nat) :
    (inline_raw st start end_ backticks).input = st.input := by
  unfold inline_raw
  simp [stJump, push_raw, inlineGo_input]

set_option maxHeartbeats 1600000 in
lemma raw_lt (st : Lexer) (hc1 : 1 ≤ st.cursor) (hc2 : st.cursor ≤ st.input.length) :
    st.cursor - 1 < (raw st).2.cursor := by
  unfold raw
  dsimp only
  split_ifs <;>
    simp only [stJump, push_raw, errorToken, blocky_raw_input, inline_raw_input] <;>
    first
      | omega
      | (apply lt_natMin <;> omega)
      | (dsimp only; first | omega | (apply lt_natMin <;> omega))

lemma math_text_lt (st : Lexer) (start : Nat) (c : Char) (h1 : st.cursor = start + 1)
    (hlen : start < st.input.length) : start < (math_text st start c).2.cursor := by
  unfold math_text
  dsimp only
  split_ifs
  · first
      | omega
      | (dsimp only; omega)
  · first
      | omega
      | (dsimp only; omega)
  · have hne : sliceFT st.input start st.input.length ≠ [] := by
      unfold sliceFT
      rw [List.take_length]
      intro hnil
      rw [List.drop_eq_nil_iff] at hnil
      omega
    have hlen1 : firstGraphemeLen (sliceFT st.input start st.input.length) = 1 := by
      unfold firstGraphemeLen
      rw [if_neg]
      simpa [List.isEmpty_iff] using hne
    dsimp only [stJump]
    rw [hlen1]
    apply lt_natMin <;> omega


set_option maxHeartbeats 3200000 in
lemma markup_progress (st : Lexer) (start : Nat) (c : Char) (h1 : st.cursor = start + 1)
    (hlen : start < st.input.length) (hc : charAt st.input start = some c) :
    start < (markup st start c).2.cursor := by
  unfold markup
  dsimp only
  refine (curs_ite _ _ _ _ ?_ (fun _ => (curs_ite _ _ _ _ ?_ (fun _ => (curs_ite _ _ _ _ ?_ (fun _ => (curs_ite _ _ _ _ ?_ (fun _ => (curs_ite _ _ _ _ ?_ (fun _ => (curs_ite _ _ _ _ ?_ (fun _ => (curs_ite _ _ _ _ ?_ (fun _ => (curs_ite _ _ _ _ ?_ (fun _ => (curs_ite _ _ _ _ ?_ (fun _ => (curs_ite _ _ _ _ ?_ (fun _ => (curs_ite _ _ _ _ ?_ (fun _ => (curs_ite _ _ _ _ ?_ (fun _ => (curs_ite _ _ _ _ ?_ (fun _ => (curs_ite _ _ _ _ ?_ (fun _ => (curs_ite _ _ _ _ ?_ (fun _ => (curs_ite _ _ _ _ ?_ (fun _ => (curs_ite _ _ _ _ ?_ (fun _ => (curs_ite _ _ _ _ ?_ (fun _ => (curs_ite _ _ _ _ ?_ (fun _ => (curs_ite _ _ _ _ ?_ (fun _ => (curs_ite _ _ _ _ ?_ (fun _ => (curs_ite _ _ _ _ ?_ (fun _ => (curs_ite _ _ _ _ ?_ (fun _ => (curs_ite _ _ _ _ ?_ (fun _ => (curs_ite _ _ _ _ ?_ (fun _ => (curs_ite _ _ _ _ ?_ ?_)))))))))))))))))))))))))))))))))))))))))))))))))))
  · intro h
    refine Nat.lt_of_lt_of_le ?_ (backslash_ge st)
    first
      | omega
      | (dsimp only; omega)
  · intro h
    have hr := raw_lt st (by omega) (by omega)
    omega
  · intro h
    refine Nat.lt_of_lt_of_le ?_ (link_ge _)
    first
      | omega
      | (dsimp only; omega)
  · intro h
    refine Nat.lt_of_lt_of_le ?_ (link_ge _)
    first
      | omega
      | (dsimp only; omega)
  · intro h
    refine Nat.lt_of_lt_of_le ?_ (label_ge _)
    first
      | omega
      | (dsimp only; omega)
  · intro h
    exact ref_marker_lt st start (by rw [hc, h]; simp) (by rw [hc, h]; simp) (by omega)
  · intro h
    first
      | omega
      | (dsimp only; omega)
  · intro h
    first
      | omega
      | (dsimp only; omega)
  · intro h
    first
      | omega
      | (dsimp only; omega)
  · intro h
    first
      | omega
      | (dsimp only; omega)
  · intro h
    first
      | omega
      | (dsimp only; omega)
  · intro h
    first
      | omega
      | (dsimp only; omega)
  · intro h
    first
      | omega
      | (dsimp only; omega)
  · intro h
    first
      | omega
      | (dsimp only; omega)
  · intro h
    first
      | omega
      | (dsimp only; omega)
  · intro h
    first
      | omega
      | (dsimp only; omega)
  · intro h
    first
      | omega
      | (dsimp only; omega)
  · intro h
    first
      | omega
      | (dsimp only; omega)
  · intro h
    first
      | omega
      | (dsimp only; omega)
  · intro h
    first
      | omega
      | (dsimp only; omega)
  · intro h
    first
      | omega
      | (dsimp only; omega)
  · intro h
    refine curs_ite _ _ _ _ ?_ ?_
    · intro h2
      first
        | omega
        | (dsimp only; omega)
    · intro h2
      refine Nat.lt_of_lt_of_le ?_ (text_ge _)
      first
        | omega
        | (dsimp only; omega)
  · intro h
    first
      | omega
      | (dsimp only; omega)
  · intro h
    first
      | omega
      | (dsimp only; omega)
  · intro h
    first
      | omega
      | (dsimp only; omega)
  · intro h
    refine Nat.lt_of_lt_of_le ?_ (numbering_ge _ _)
    first
      | omega
      | (dsimp only; omega)
  · intro h
    refine Nat.lt_of_lt_of_le ?_ (text_ge _)
    first
      | omega
      | (dsimp only; omega)

set_option maxHeartbeats 3200000 in
lemma math_progress (st : Lexer) (start : Nat) (c : Char) (h1 : st.cursor = start + 1)
    (hlen : start < st.input.length) (hc : charAt st.input start = some c) :
    start < (math st start c).2.cursor := by
  unfold math
  refine (curs_ite _ _ _ _ ?_ (fun _ => (curs_ite _ _ _ _ ?_ (fun _ => (curs_ite _ _ _ _ ?_ (fun _ => (curs_ite _ _ _ _ ?_ (fun _ => (curs_ite _ _ _ _ ?_ (fun _ => (curs_ite _ _ _ _ ?_ (fun _ => (curs_ite _ _ _ _ ?_ (fun _ => (curs_ite _ _ _ _ ?_ (fun _ => (curs_ite _ _ _ _ ?_ (fun _ => (curs_ite _ _ _ _ ?_ (fun _ => (curs_ite _ _ _ _ ?_ (fun _ => (curs_ite _ _ _ _ ?_ (fun _ => (curs_ite _ _ _ _ ?_ (fun _ => (curs_ite _ _ _ _ ?_ (fun _ => (curs_ite _ _ _ _ ?_ (fun _ => (curs_ite _ _ _ _ ?_ (fun _ => (curs_ite _ _ _ _ ?_ (fun _ => (curs_ite _ _ _ _ ?_ (fun _ => (curs_ite _ _ _ _ ?_ (fun _ => (curs_ite _ _ _ _ ?_ (fun _ => (curs_ite _ _ _ _ ?_ (fun _ => (curs_ite _ _ _ _ ?_ (fun _ => (curs_ite _ _ _ _ ?_ (fun _ => (curs_ite _ _ _ _ ?_ (fun _ => (curs_ite _ _ _ _ ?_ (fun _ => (curs_ite _ _ _ _ ?_ (fun _ => (curs_ite _ _ _ _ ?_ (fun _ => (curs_ite _ _ _ _ ?_ (fun _ => (curs_ite _ _ _ _ ?_ (fun _ => (curs_ite _ _ _ _ ?_ (fun _ => (curs_ite _ _ _ _ ?_ (fun _ => (curs_ite _ _ _ _ ?_ (fun _ => (curs_ite _ _ _ _ ?_ (fun _ => (curs_ite _ _ _ _ ?_ (fun _ => (curs_ite _ _ _ _ ?_ (fun _ => (curs_ite _ _ _ _ ?_ (fun _ => (curs_ite _ _ _ _ ?_ (fun _ => (curs_ite _ _ _ _ ?_ (fun _ => (curs_ite _ _ _ _ ?_ (fun _ => (curs_ite _ _ _ _ ?_ (fun _ => (curs_ite _ _ _ _ ?_ (fun _ => (curs_ite _ _ _ _ ?_ (fun _ => (curs_ite _ _ _ _ ?_ (fun _ => (curs_ite _ _ _ _ ?_ (fun _ => (curs_ite _ _ _ _ ?_ (fun _ => (curs_ite _ _ _ _ ?_ (fun _ => (curs_ite _ _ _ _ ?_ ?_)))))))))))))))))))))))))))))))))))))))))))))))))))))))))))))))))))))))))))))))))))))))))))))
  · intro h
    refine Nat.lt_of_lt_of_le ?_ (backslash_ge st)
    first
      | omega
      | (dsimp only; omega)
  · intro h
    refine Nat.lt_of_lt_of_le ?_ (string_ge _)
    first
      | omega
      | (dsimp only; omega)
  · intro h
    first
      | omega
      | (dsimp only; omega)
  · intro h
    first
      | omega
      | (dsimp only; omega)
  · intro h
    first
      | omega
      | (dsimp only; omega)
  · intro h
    first
      | omega
      | (dsimp only; omega)
  · intro h
    first
      | omega
      | (dsimp only; omega)
  · intro h
    first
      | omega
      | (dsimp only; omega)
  · intro h
    first
      | omega
      | (dsimp only; omega)
  · intro h
    first
      | omega
      | (dsimp only; omega)
  · intro h
    first
      | omega
      | (dsimp only; omega)
  · intro h
    first
      | omega
      | (dsimp only; omega)
  · intro h
    first
      | omega
      | (dsimp only; omega)
  · intro h
    first
      | omega
      | (dsimp only; omega)
  · intro h
    first
      | omega
      | (dsimp only; omega)
  · intro h
    first
      | omega
      | (dsimp only; omega)
  · intro h
    first
      | omega
      | (dsimp only; omega)
  · intro h
    first
      | omega
      | (dsimp only; omega)
  · intro h
    first
      | omega
      | (dsimp only; omega)
  · intro h
    first
      | omega
      | (dsimp only; omega)
  · intro h
    first
      | omega
      | (dsimp only; omega)
  · intro h
    first
      | omega
      | (dsimp only; omega)
  · intro h
    first
      | omega
      | (dsimp only; omega)
  · intro h
    first
      | omega
      | (dsimp only; omega)
  · intro h
    first
      | omega
      | (dsimp only; omega)
  · intro h
    first
      | omega
      | (dsimp only; omega)
  · intro h
    first
      | omega
      | (dsimp only; omega)
  · intro h
    first
      | omega
      | (dsimp only; omega)
  · intro h
    first
      | omega
      | (dsimp only; omega)
  · intro h
    first
      | omega
      | (dsimp only; omega)
  · intro h
    first
      | omega
      | (dsimp only; omega)
  · intro h
    first
      | omega
      | (dsimp only; omega)
  · intro h
    first
      | omega
      | (dsimp only; omega)
  · intro h
    first
      | omega
      | (dsimp only; omega)
  · intro h
    first
      | omega
      | (dsimp only; omega)
  · intro h
    first
      | omega
      | (dsimp only; omega)
  · intro h
    first
      | omega
      | (dsimp only; omega)
  · intro h
    first
      | omega
      | (dsimp only; omega)
  · intro h
    first
      | omega
      | (dsimp only; omega)
  · intro h
    first
      | omega
      | (dsimp only; omega)
  · intro h
    first
      | omega
      | (dsimp only; omega)
  · intro h
    first
      | omega
      | (dsimp only; omega)
  · intro h
    first
      | omega
      | (dsimp only; omega)
  · intro h
    first
      | omega
      | (dsimp only; omega)
  · intro h
    first
      | omega
      | (dsimp only; omega)
  · intro h
    first
      | omega
      | (dsimp only; omega)
  · intro h
    first
      | omega
      | (dsimp only; omega)
  · intro h
    exact math_text_lt st start c h1 hlen

set_option maxHeartbeats 3200000 in
lemma code_progress (st : Lexer) (start : Nat) (c : Char) (h1 : st.cursor = start + 1)
    (hlen : start < st.input.length) (hc : charAt st.input start = some c) :
    start < (code st start c).2.cursor := by
  unfold code
  refine (curs_ite _ _ _ _ ?_ (fun _ => (curs_ite _ _ _ _ ?_ (fun _ => (curs_ite _ _ _ _ ?_ (fun _ => (curs_ite _ _ _ _ ?_ (fun _ => (curs_ite _ _ _ _ ?_ (fun _ => (curs_ite _ _ _ _ ?_ (fun _ => (curs_ite _ _ _ _ ?_ (fun _ => (curs_ite _ _ _ _ ?_ (fun _ => (curs_ite _ _ _ _ ?_ (fun _ => (curs_ite _ _ _ _ ?_ (fun _ => (curs_ite _ _ _ _ ?_ (fun _ => (curs_ite _ _ _ _ ?_ (fun _ => (curs_ite _ _ _ _ ?_ (fun _ => (curs_ite _ _ _ _ ?_ (fun _ => (curs_ite _ _ _ _ ?_ (fun _ => (curs_ite _ _ _ _ ?_ (fun _ => (curs_ite _ _ _ _ ?_ (fun _ => (curs_ite _ _ _ _ ?_ (fun _ => (curs_ite _ _ _ _ ?_ (fun _ => (curs_ite _ _ _ _ ?_ (fun _ => (curs_ite _ _ _ _ ?_ (fun _ => (curs_ite _ _ _ _ ?_ (fun _ => (curs_ite _ _ _ _ ?_ (fun _ => (curs_ite _ _ _ _ ?_ (fun _ => (curs_ite _ _ _ _ ?_ (fun _ => (curs_ite _ _ _ _ ?_ (fun _ => (curs_ite _ _ _ _ ?_ (fun _ => (curs_ite _ _ _ _ ?_ (fun _ => (curs_ite _ _ _ _ ?_ (fun _ => (curs_ite _ _ _ _ ?_ (fun _ => (curs_ite _ _ _ _ ?_ (fun _ => (curs_ite _ _ _ _ ?_ (fun _ => (curs_ite _ _ _ _ ?_ (fun _ => (curs_ite _ _ _ _ ?_ ?_)))))))))))))))))))))))))))))))))))))))))))))))))))))))))))))))))))
  · intro h
    have hr := raw_lt st (by omega) (by omega)
    omega
  · intro h
    refine Nat.lt_of_lt_of_le ?_ (label_ge _)
    first
      | omega
      | (dsimp only; omega)
  · intro h
    refine Nat.lt_of_lt_of_le ?_ (number_ge _ _ _)
    first
      | omega
      | (dsimp only; omega)
  · intro h
    refine Nat.lt_of_lt_of_le ?_ (number_ge _ _ _)
    first
      | omega
      | (dsimp only; omega)
  · intro h
    refine Nat.lt_of_lt_of_le ?_ (string_ge _)
    first
      | omega
      | (dsimp only; omega)
  · intro h
    first
      | omega
      | (dsimp only; omega)
  · intro h
    first
      | omega
      | (dsimp only; omega)
  · intro h
    first
      | omega
      | (dsimp only; omega)
  · intro h
    first
      | omega
      | (dsimp only; omega)
  · intro h
    first
      | omega
      | (dsimp only; omega)
  · intro h
    first
      | omega
      | (dsimp only; omega)
  · intro h
    first
      | omega
      | (dsimp only; omega)
  · intro h
    first
      | omega
      | (dsimp only; omega)
  · intro h
    first
      | omega
      | (dsimp only; omega)
  · intro h
    first
      | omega
      | (dsimp only; omega)
  · intro h
    first
      | omega
      | (dsimp only; omega)
  · intro h
    first
      | omega
      | (dsimp only; omega)
  · intro h
    first
      | omega
      | (dsimp only; omega)
  · intro h
    first
      | omega
      | (dsimp only; omega)
  · intro h
    first
      | omega
      | (dsimp only; omega)
  · intro h
    first
      | omega
      | (dsimp only; omega)
  · intro h
    first
      | omega
      | (dsimp only; omega)
  · intro h
    first
      | omega
      | (dsimp only; omega)
  · intro h
    first
      | omega
      | (dsimp only; omega)
  · intro h
    first
      | omega
      | (dsimp only; omega)
  · intro h
    first
      | omega
      | (dsimp only; omega)
  · intro h
    first
      | omega
      | (dsimp only; omega)
  · intro h
    first
      | omega
      | (dsimp only; omega)
  · intro h
    first
      | omega
      | (dsimp only; omega)
  · intro h
    first
      | omega
      | (dsimp only; omega)
  · intro h
    first
      | omega
      | (dsimp only; omega)
  · intro h
    first
      | omega
      | (dsimp only; omega)
  · intro h
    first
      | omega
      | (dsimp only; omega)
  · intro h
    refine Nat.lt_of_lt_of_le ?_ (ident_ge _ _)
    first
      | omega
      | (dsimp only; omega)
  · intro h
    dsimp only [errorToken]
    omega

/-- C3 (corrected): every non-Raw call to `next` strictly advances the cursor
whenever the cursor is below the input length, and returns `End` without
moving once the cursor is at or beyond the input length; a Raw-mode call with
an empty pending stack returns `End` without moving. (Raw-mode pops jump to
the recorded end, which can equal the current cursor, so they are excluded.) -/
theorem c3_progress_amended (st : Lexer) :
    (st.mode ≠ LexMode.Raw →
      (st.cursor < st.input.length → st.cursor < (Lexer.next st).2.cursor) ∧
      (st.input.length ≤ st.cursor →
        (Lexer.next st).1 = SyntaxKind.End ∧ (Lexer.next st).2.cursor = st.cursor)) ∧
    (st.mode = LexMode.Raw → st.raw = [] →
      (Lexer.next st).1 = SyntaxKind.End ∧ (Lexer.next st).2.cursor = st.cursor) := by
  constructor
  · intro hm
    constructor
    · intro hcur
      unfold Lexer.next
      rw [if_neg hm]
      dsimp only
      rcases hcg : charAt st.input st.cursor with _ | c
      · have h2 := (charAt_none_iff st.input st.cursor).mp hcg
        omega
      · refine curs_ite _ _ _ _ ?_ (fun _ => (curs_ite _ _ _ _ ?_ (fun _ => (curs_ite _ _ _ _ ?_ (fun _ => (curs_ite _ _ _ _ ?_ ?_))))))
        · intro h
          refine Nat.lt_of_lt_of_le ?_ (whitespace_ge _ _ _)
          first
            | omega
            | (dsimp only; omega)
        · intro h
          refine Nat.lt_of_lt_of_le ?_ (line_comment_ge _)
          first
            | omega
            | (dsimp only; omega)
        · intro h
          refine Nat.lt_of_lt_of_le ?_ (block_comment_ge _)
          first
            | omega
            | (dsimp only; omega)
        · intro h
          first
            | omega
            | (dsimp only [errorToken]; omega)
        · intro h
          rcases hmode : st.mode with _ | _ | _ | _
          · exact markup_progress _ _ _ rfl hcur hcg
          · exact math_progress _ _ _ rfl hcur hcg
          · exact code_progress _ _ _ rfl hcur hcg
          · exact absurd hmode hm
    · intro hlen
      unfold Lexer.next
      rw [if_neg hm]
      dsimp only
      rw [(charAt_none_iff st.input st.cursor).mpr hlen]
      exact ⟨rfl, rfl⟩
  · intro hm hr
    unfold Lexer.next
    rw [if_pos hm, hr]
    exact ⟨rfl, rfl⟩

/-- Witness for C3: a Markup-mode call below the input length advances the
cursor; Code- and Raw-mode calls at or past the end return `End` without
moving. -/
theorem c3_witness :
    (0 : Nat) < (Lexer.next { input := ['a'], cursor := 0, mode := LexMode.Markup, newline := false, raw := [], error := none }).2.cursor ∧
    ((Lexer.next { input := ['a'], cursor := 1, mode := LexMode.Code, newline := false, raw := [], error := none }).1 = SyntaxKind.End ∧
     (Lexer.next { input := ['a'], cursor := 1, mode := LexMode.Code, newline := false, raw := [], error := none }).2.cursor = 1) ∧
    ((Lexer.next { input := ['a'], cursor := 0, mode := LexMode.Raw, newline := false, raw := [], error := none }).1 = SyntaxKind.End ∧
     (Lexer.next { input := ['a'], cursor := 0, mode := LexMode.Raw, newline := false, raw := [], error := none }).2.cursor = 0) :=
  ⟨((c3_progress_amended { input := ['a'], cursor := 0, mode := LexMode.Markup, newline := false, raw := [], error := none }).1 (by decide)).1 (by decide),
   ((c3_progress_amended { input := ['a'], cursor := 1, mode := LexMode.Code, newline := false, raw := [], error := none }).1 (by decide)).2 (by decide),
   (c3_progress_amended { input := ['a'], cursor := 0, mode := LexMode.Raw, newline := false, raw := [], error := none }).2 rfl rfl⟩
